import Mathlib

/-!
# WellFin API: request orchestration and response normalisation

A shallow embedding of the serverless API of the repository
(`functions/src/index.js`, `functions/src/services/ai-service.js` and the route
handlers under `functions/src/routes/`), and theorems about it.

Conventions of the embedding

* JavaScript numbers that come from JSON are finite and are modelled by the
  rational number they denote (`ℚ`); `JSNum` adds `NaN` and the infinities
  where the code can produce them.  The arithmetic of `calculateEfficiency`,
  of the normalised duration and of the conflict windows is carried out in
  doubles: every operand is read and every result is rounded by `toDouble`.
* A `Date` object is its time value: `some ms` (milliseconds since the epoch)
  or `none` for an Invalid Date.
* A string that the code feeds to `new Date(...)` is modelled by what the
  constructor makes of it (`DateText`).  `Date.prototype.toISOString` renders
  an instant as a string that parses back to the same instant, so its result
  is `DateText.parses ms`.
* An exception (a rejected promise of an `async` function) is
  `Except.error`.
* The clock, the time zone and `Math.random` are read from an explicit
  environment `Env`; the reply of the external model is an argument.
* A JavaScript string is a Lean `String`.  `extractTitle`, which counts and
  cuts a user text, works on the sequence of its UTF-16 code units (`utf16`);
  elsewhere `length` and `substring` count characters, which agrees with the
  code on strings of the Basic Multilingual Plane.
* Log entries are collected in a list instead of being written.
-/

namespace WellFin

/-! ## JavaScript values -/

/-- Scalar JSON / JavaScript values, as they occur in request and reply fields. -/
inductive JSVal where
  | undefined
  | null
  | bool (b : Bool)
  | num (q : ℚ)
  | str (s : String)
  deriving DecidableEq, Repr

/-- JavaScript truthiness (`ToBoolean`) of a scalar value. -/
def JSVal.truthy : JSVal → Bool
  | .undefined => false
  | .null => false
  | .bool b => b
  | .num q => decide (q ≠ 0)
  | .str s => decide (s ≠ "")

/-- JavaScript numbers: a finite value, an infinity, or `NaN`. -/
inductive JSNum where
  | fin (q : ℚ)
  | inf (positive : Bool)
  | nan
  deriving DecidableEq, Repr

/-- Sign test used by multiplication and division. -/
def signPos (q : ℚ) : Bool := decide (0 < q)

/-- JavaScript `a * b`. -/
def JSNum.mul : JSNum → JSNum → JSNum
  | .fin a, .fin b => .fin (a * b)
  | .fin a, .inf p => if a = 0 then .nan else .inf (signPos a == p)
  | .inf p, .fin b => if b = 0 then .nan else .inf (p == signPos b)
  | .inf p, .inf r => .inf (p == r)
  | _, _ => .nan

/-- JavaScript `a + b`. -/
def JSNum.add : JSNum → JSNum → JSNum
  | .fin a, .fin b => .fin (a + b)
  | .fin _, .inf p => .inf p
  | .inf p, .fin _ => .inf p
  | .inf p, .inf r => if p = r then .inf p else .nan
  | _, _ => .nan

/-- JavaScript `a / b` (signed zeros are not distinguished). -/
def JSNum.div : JSNum → JSNum → JSNum
  | .fin a, .fin b =>
    if b = 0 then (if a = 0 then .nan else .inf (signPos a)) else .fin (a / b)
  | .fin _, .inf _ => .fin 0
  | .inf p, .fin b => .inf (p == decide (0 ≤ b))
  | _, _ => .nan

/-- JavaScript `a > b`: false as soon as one side is `NaN`. -/
def JSNum.gt : JSNum → JSNum → Bool
  | .fin a, .fin b => decide (b < a)
  | .fin _, .inf p => !p
  | .inf p, .fin _ => p
  | .inf p, .inf r => p && !r
  | _, _ => false

/-- Models `Math.round` on a finite number: the nearest integer, halves rounded up. -/
def mathRound (q : ℚ) : ℤ := ⌊q + 1 / 2⌋

/-- Models `Math.round` on a JavaScript number. -/
def JSNum.round : JSNum → JSNum
  | .fin q => .fin (mathRound q)
  | .inf p => .inf p
  | .nan => .nan

/-- Models `Math.max(a, b)`: `NaN` as soon as one argument is `NaN`. -/
def JSNum.max : JSNum → JSNum → JSNum
  | .nan, _ => .nan
  | _, .nan => .nan
  | .fin a, .fin b => .fin (Max.max a b)
  | .inf true, _ => .inf true
  | _, .inf true => .inf true
  | .inf false, b => b
  | a, .inf false => a

/-! ## Double arithmetic

A JavaScript number is a double.  A rational stands for the number that prints
as it; the arithmetic of the code reads it as the nearest double and rounds each
result to the nearest double (`toDouble`).  Results are taken inside the range
of the finite doubles. -/

/-- The number of halvings that bring `n` below 2, at most `fuel` of them. -/
def log2Aux : ℕ → ℕ → ℕ
  | 0, _ => 0
  | fuel + 1, n => if n < 2 then 0 else log2Aux fuel (n / 2) + 1

/-- The position of the leading bit of a natural number. -/
def natLog2 (n : ℕ) : ℕ := log2Aux n n

/-- The binade of a non-zero number: the integer e with 2^e ≤ |q| < 2^(e+1). -/
def log2Floor (q : ℚ) : ℤ :=
  let e : ℤ := (natLog2 q.num.natAbs : ℤ) - (natLog2 q.den : ℤ)
  if (2 : ℚ) ^ e ≤ |q| then e else e - 1

/-- The nearest integer, a tie going to the even one. -/
def roundHalfEven (q : ℚ) : ℤ :=
  let f := ⌊q⌋
  if q - f < 1 / 2 then f
  else if 1 / 2 < q - f then f + 1
  else if f % 2 = 0 then f else f + 1

/-- The spacing of the doubles around a number: 2^(e - 52) in the binade e, and
2^(-1074) below the normal range. -/
def ulp (q : ℚ) : ℚ := (2 : ℚ) ^ (max (log2Floor q) (-1022) - 52)

/-- The double nearest to a number: round to nearest, ties to even. -/
def toDouble (q : ℚ) : ℚ := (roundHalfEven (q / ulp q) : ℚ) * ulp q

/-- Errors thrown by the JavaScript code. -/
inductive JSError where
  | typeError (msg : String)
  | rangeError (msg : String)
  | error (msg : String)
  deriving DecidableEq, Repr

/-- The `message` of a thrown error. -/
def JSError.message : JSError → String
  | .typeError msg => msg
  | .rangeError msg => msg
  | .error msg => msg

deriving instance DecidableEq for Except

/-! ## Dates -/

/-- A string handed to `new Date(...)`, by what the constructor makes of it. -/
inductive DateText where
  /-- a (non-empty) string that parses to the time value `ms` -/
  | parses (ms : ℤ)
  /-- a string for which `Date.parse` gives `NaN` (the empty string included) -/
  | unparseable (raw : String)
  deriving DecidableEq, Repr

/-- Truthiness of an optional string field holding a date. -/
def dateTruthy : Option DateText → Bool
  | none => false
  | some (.parses _) => true
  | some (.unparseable raw) => decide (raw ≠ "")

/-- The largest time value of a Date, in milliseconds. -/
def maxTime : ℤ := 8640000000000000

/-- Models `TimeClip` on an integral time value. -/
def timeClip (t : ℤ) : Option ℤ := if |t| ≤ maxTime then some t else none

/-- Models `new Date(x)` for an optional string field (`undefined` when absent). -/
def newDate : Option DateText → Option ℤ
  | some (.parses ms) => timeClip ms
  | _ => none

/-- Models `new Date(n)` for a number: `TimeClip` after truncation towards zero. -/
def newDateOfNum : JSNum → Option ℤ
  | .fin q => if |q| ≤ maxTime then some (if 0 ≤ q then ⌊q⌋ else ⌈q⌉) else none
  | _ => none

/-- Models `date.getTime()`. -/
def getTime : Option ℤ → JSNum
  | some t => .fin t
  | none => .nan

/-- Models `date.toISOString()`: a `RangeError` on an Invalid Date. -/
def toISOString : Option ℤ → Except JSError DateText
  | some t => .ok (.parses t)
  | none => .error (.rangeError "Invalid time value")

/-- Clock, time zone and random source of one request. -/
structure Env where
  /-- value of `Date.now()` / `new Date()`, in milliseconds -/
  now : ℤ
  /-- offset of local time from UTC in milliseconds (taken constant) -/
  tz : ℤ
  /-- the suffix `Math.random().toString(36).substr(2, 9)` of the n-th draw -/
  rand : ℕ → String

def msPerHour : ℤ := 3600000

def msPerDay : ℤ := 86400000

/-- Models `date.getHours()`: the hour of the day in local time, `none` for `NaN`. -/
def getHours (env : Env) : Option ℤ → Option ℤ
  | some t => some (((t + env.tz) / msPerHour) % 24)
  | none => none

/-- Models `date.setHours(h, 0, 0, 0)`: the given hour on the same local day. -/
def setHours (env : Env) (d : Option ℤ) (h : ℤ) : Option ℤ :=
  match d with
  | some t => timeClip (((t + env.tz) / msPerDay) * msPerDay + h * msPerHour - env.tz)
  | none => none

/-! ## Tasks -/

/-- A task object, as sent by the client or returned by the model. -/
structure Task where
  id : Option String := none
  title : Option String := none
  priority : JSVal := .undefined
  estimatedDuration : Option ℚ := none
  estimatedHours : Option ℚ := none
  category : Option String := none
  scheduledDate : Option DateText := none
  scheduledTime : Option DateText := none
  optimizationScore : Option JSNum := none
  deriving DecidableEq, Repr

/-- An entry of the task history. -/
structure HistoryTask where
  completedAt : Option DateText := none
  completed : Bool := false
  deriving DecidableEq, Repr

/-- Truthiness of an optional string field. -/
def strTruthy : Option String → Bool
  | some s => decide (s ≠ "")
  | none => false

/-- Truthiness of an optional numeric field. -/
def numTruthy : Option ℚ → Bool
  | some q => decide (q ≠ 0)
  | none => false

/-- The identifier generated by the template literal for a task without id. -/
def freshTaskId (env : Env) (n : ℕ) : String :=
  "task_" ++ toString env.now ++ "_" ++ env.rand n

/-- Models `xs.map(f)` for a callback that may throw; the index numbers the draws of
`Math.random`. -/
def mapExcept {α β : Type} (f : ℕ → α → Except JSError β) : ℕ → List α → Except JSError (List β)
  | _, [] => .ok []
  | i, a :: rest =>
    match f i a with
    | .error e => .error e
    | .ok b =>
      match mapExcept f (i + 1) rest with
      | .error e => .error e
      | .ok bs => .ok (b :: bs)

/-! ## ai-service.js: the rule-based fallback -/

/-- The value of `analyzeProductivityPattern(taskHistory)[hour]`. -/
def hourlyProductivity (env : Env) (taskHistory : List HistoryTask) (hour : ℕ) : ℚ :=
  let hourTasks := taskHistory.filter
    (fun task => decide (getHours env (newDate task.completedAt) = some (hour : ℤ)))
  if hourTasks.length > 0 then
    ((hourTasks.filter (fun t => t.completed)).length : ℚ) / (hourTasks.length : ℚ)
  else 0

/-- Models `analyzeProductivityPattern`: the completion rate of each hour 0..23. -/
def analyzeProductivityPattern (env : Env) (taskHistory : List HistoryTask) : List ℚ :=
  (List.range 24).map (hourlyProductivity env taskHistory)

/-- Property names that every object literal inherits from `Object.prototype`. -/
def inheritedKeys : List String :=
  ["constructor", "toString", "valueOf", "hasOwnProperty", "isPrototypeOf",
   "propertyIsEnumerable", "toLocaleString", "__proto__", "__defineGetter__",
   "__defineSetter__", "__lookupGetter__", "__lookupSetter__"]

/-- Models `getPriorityValue(priority)` as a number: `priorityMap[priority] || 3`.  For an
inherited key the lookup gives a function or object, which is truthy and
becomes `NaN` in the arithmetic of both callers. -/
def getPriorityValue : JSVal → JSNum
  | .str "low" => .fin 1
  | .str "medium" => .fin 3
  | .str "high" => .fin 4
  | .str "urgent" => .fin 5
  | .str s => if s ∈ inheritedKeys then .nan else .fin 3
  | _ => .fin 3

/-- Models `productivityPattern[hour] || 0`. -/
def patternAt (productivityPattern : List ℚ) (hour : Option ℤ) : ℚ :=
  match hour with
  | some h => if 0 ≤ h then (productivityPattern.get? h.toNat).getD 0 else 0
  | none => 0

/-- One iteration of the loop of `findOptimalHour`; the state is
`(bestHour, bestScore)`. -/
def findOptimalHourStep (productivityPattern : List ℚ) (priorityWeight : JSNum)
    (state : ℤ × JSNum) (hour : ℕ) : ℤ × JSNum :=
  let productivity := patternAt productivityPattern (some (hour : ℤ))
  let score := JSNum.mul (.fin productivity) priorityWeight
  if JSNum.gt score state.2 then ((hour : ℤ), score) else state

/-- Models `findOptimalHour(task, productivityPattern)`. -/
def findOptimalHour (task : Task) (productivityPattern : List ℚ) : ℤ :=
  let priorityValue := getPriorityValue task.priority
  let priorityWeight := JSNum.div priorityValue (.fin 5)
  ((List.range' 6 17).foldl (findOptimalHourStep productivityPattern priorityWeight)
    (9, JSNum.fin 0)).1

/-- Models `calculateOptimalTime(scheduledDate, optimalHour)`.  The binding `date` is
declared `const`, so the assignment in the invalid-date branch throws. -/
def calculateOptimalTime (env : Env) (scheduledDate : Option DateText) (optimalHour : ℤ) :
    Except JSError DateText :=
  let date : Option ℤ :=
    if dateTruthy scheduledDate then newDate scheduledDate else timeClip env.now
  if date.isNone then
    .error (.typeError "Assignment to constant variable.")
  else
    toISOString (setHours env date optimalHour)

/-- Models `calculateOptimizationScore(task, productivityPattern)`. -/
def calculateOptimizationScore (env : Env) (task : Task) (productivityPattern : List ℚ) : JSNum :=
  let hour := getHours env (newDate task.scheduledDate)
  let productivity := patternAt productivityPattern hour
  JSNum.mul (.fin productivity) (JSNum.div (getPriorityValue task.priority) (.fin 5))

/-- The callback of `tasks.map` in `fallbackOptimizeSchedule`. -/
def fallbackTask (env : Env) (productivityPattern : List ℚ) (n : ℕ) (task : Task) :
    Except JSError Task :=
  let optimalHour := findOptimalHour task productivityPattern
  match calculateOptimalTime env task.scheduledDate optimalHour with
  | .error e => .error e
  | .ok scheduledTime =>
    .ok { task with
      id := if strTruthy task.id then task.id else some (freshTaskId env n)
      scheduledTime := some scheduledTime
      optimizationScore := some (calculateOptimizationScore env task productivityPattern) }

/-- Models `fallbackOptimizeSchedule(tasks, taskHistory, preferences)`; `taskHistory` is
`none` when the argument is falsy. -/
def fallbackOptimizeSchedule (env : Env) (tasks : List Task)
    (taskHistory : Option (List HistoryTask)) : Except JSError (List Task) :=
  let productivityPattern := analyzeProductivityPattern env (taskHistory.getD [])
  mapExcept (fallbackTask env productivityPattern) 0 tasks

/-! ## ai-service.js: schedule optimisation through the model -/

/-- A field of a JSON object that is expected to hold an array of tasks. -/
inductive TasksField where
  | absent
  /-- a value that is not an array, with its truthiness -/
  | notArray (truthy : Bool)
  | array (tasks : List Task)
  deriving DecidableEq, Repr

/-- Truthiness of such a field: every array is truthy, the empty one included. -/
def TasksField.truthy : TasksField → Bool
  | .absent => false
  | .notArray t => t
  | .array _ => true

/-- Models `Array.isArray`. -/
def TasksField.isArray : TasksField → Bool
  | .array _ => true
  | _ => false

/-- The elements, for a field known to be an array. -/
def TasksField.elems : TasksField → List Task
  | .array tasks => tasks
  | _ => []

/-- The object parsed from the model reply to the schedule prompt. -/
structure ScheduleReply where
  optimizedTasks : TasksField := .absent
  efficiencyScore : Option ℚ := none
  deriving DecidableEq, Repr

/-- Models `optimizeScheduleWithGemini`, given the outcome of `callGeminiAPI`: the
validation of the parsed reply. -/
def optimizeScheduleWithGemini (gemini : Except JSError ScheduleReply) :
    Except JSError ScheduleReply :=
  match gemini with
  | .error e => .error e
  | .ok result =>
    if !result.optimizedTasks.truthy || !result.optimizedTasks.isArray then
      .error (.error "Invalid schedule optimization result: missing optimizedTasks array")
    else .ok result

/-- The callback of `geminiResult.optimizedTasks.map` in `optimizeSchedule`. -/
def geminiTask (env : Env) (geminiResult : ScheduleReply) (n : ℕ) (task : Task) :
    Except JSError Task :=
  let scheduledTime : Except JSError DateText :=
    match task.scheduledTime with
    | some s => if dateTruthy (some s) then .ok s else calculateOptimalTime env task.scheduledDate 9
    | none => calculateOptimalTime env task.scheduledDate 9
  match scheduledTime with
  | .error e => .error e
  | .ok st =>
    .ok { task with
      id := if strTruthy task.id then task.id else some (freshTaskId env n)
      scheduledTime := some st
      optimizationScore :=
        some (.fin (if numTruthy geminiResult.efficiencyScore
          then geminiResult.efficiencyScore.getD 0 else 8 / 10)) }

/-- Models `optimizeSchedule(tasks, taskHistory, preferences)`, given the outcome of the
model call: any error inside the `try` block leads to the fallback. -/
def optimizeSchedule (env : Env) (tasks : List Task) (taskHistory : Option (List HistoryTask))
    (gemini : Except JSError ScheduleReply) : Except JSError (List Task) :=
  let attempt : Except JSError (List Task) :=
    match optimizeScheduleWithGemini gemini with
    | .error e => .error e
    | .ok geminiResult => mapExcept (geminiTask env geminiResult) 0 geminiResult.optimizedTasks.elems
  match attempt with
  | .ok optimizedTasks => .ok optimizedTasks
  | .error _ => fallbackOptimizeSchedule env tasks taskHistory

/-! ## routes/optimize-schedule.js -/

/-- Comparison `a < b` of two Date objects: false when one is invalid. -/
def dateLt : Option ℤ → Option ℤ → Bool
  | some a, some b => decide (a < b)
  | _, _ => false

/-- The end of the window of a task in `detectTimeConflicts`:
`new Date(start.getTime() + (task.estimatedDuration || 60) * 60000)`, the
product and the sum being doubles. -/
def conflictEnd (start : Option ℤ) (task : Task) : Option ℤ :=
  let duration : ℚ :=
    if numTruthy task.estimatedDuration then toDouble (task.estimatedDuration.getD 0) else 60
  match getTime start with
  | .fin t => newDateOfNum (.fin (toDouble (t + toDouble (duration * 60000))))
  | _ => none

/-- The body of the inner loop of `detectTimeConflicts`: do the two tasks count
as a conflict? -/
def timesOverlap (task1 task2 : Task) : Bool :=
  if dateTruthy task1.scheduledTime && dateTruthy task2.scheduledTime then
    let start1 := newDate task1.scheduledTime
    let end1 := conflictEnd start1 task1
    let start2 := newDate task2.scheduledTime
    let end2 := conflictEnd start2 task2
    dateLt start1 end2 && dateLt start2 end1
  else false

/-- Models `detectTimeConflicts(tasks)`: the two nested index loops. -/
def detectTimeConflicts (tasks : List Task) : ℕ :=
  (List.range tasks.length).foldl (fun conflicts i =>
    (List.range' (i + 1) (tasks.length - (i + 1))).foldl (fun conflicts j =>
      match tasks.get? i, tasks.get? j with
      | some task1, some task2 =>
        if timesOverlap task1 task2 then conflicts + 1 else conflicts
      | _, _ => conflicts) conflicts) 0

/-- The key under which `groupTasksByCategory` files a task. -/
def categoryKey (task : Task) : String :=
  if strTruthy task.category then task.category.getD "" else "general"

/-- Models `Object.keys(groupTasksByCategory(tasks))`.  For a category that names an
inherited property, `groups[category]` is truthy but has no `push`, which
throws. -/
def groupTasksByCategory (tasks : List Task) : Except JSError (List String) :=
  tasks.foldl (fun groups task =>
    match groups with
    | .error e => .error e
    | .ok keys =>
      let category := categoryKey task
      if category ∈ inheritedKeys then
        .error (.typeError "groups[category].push is not a function")
      else if category ∈ keys then .ok keys
      else .ok (keys ++ [category])) (.ok [])

/-- Models `calculateEndTime(startTime, durationMinutes)`. -/
def calculateEndTime (env : Env) (startTime : Option DateText) (durationMinutes : Option ℚ) :
    Except JSError DateText :=
  if !dateTruthy startTime then
    toISOString (timeClip env.now)
  else
    let start := newDate startTime
    let minutes : JSNum := match durationMinutes with
      | some d => .fin d
      | none => .nan
    toISOString (newDateOfNum (JSNum.add (getTime start) (JSNum.mul minutes (.fin 60000))))

/-- The user preferences of a request. -/
structure Preferences where
  workStyle : Option String := none
  workHours : Option (String × String) := none
  deriving DecidableEq, Repr

/-- The sum `tasks.reduce((sum, task) => sum + (task.estimatedDuration || 0), 0)`,
each addition rounded to a double. -/
def totalDuration (tasks : List Task) : ℚ :=
  tasks.foldl (fun sum task => toDouble (sum + toDouble (task.estimatedDuration.getD 0))) 0

/-- Is the priority of the task `'high'` or `'urgent'`? -/
def isHighPriority (task : Task) : Bool :=
  decide (task.priority = .str "high") || decide (task.priority = .str "urgent")

/-- Models `calculateEfficiency(tasks, preferences)` in double arithmetic: the
quotient, the bonus, the sum and the product `efficiency * 100` are doubles.
The result `Math.round(...) / 100` is the double nearest to k / 100, which
prints as that decimal; it is given as k / 100. -/
def calculateEfficiency (tasks : List Task) (preferences : Preferences) : ℚ :=
  if tasks.length = 0 then 0
  else
    let total := totalDuration tasks
    let _workHours := preferences.workHours.getD ("09:00", "18:00")
    let availableTime : ℚ := 8 * 60
    let efficiency := min (toDouble (total / availableTime)) 1
    let highPriorityCount := (tasks.filter isHighPriority).length
    let priorityBonus :=
      min (toDouble ((highPriorityCount : ℚ) * toDouble (1 / 10))) (toDouble (3 / 10))
    let efficiency := min (toDouble (efficiency + priorityBonus)) 1
    (mathRound (toDouble (efficiency * 100)) : ℚ) / 100

/-- The outcome of a route handler: the JSON body of a 200 response, or an error
response with its HTTP status, `error` text and `code`. -/
inductive HttpResult (α : Type) where
  | ok (body : α)
  | fail (status : ℕ) (error : String) (code : String)
  deriving DecidableEq, Repr

/-- The body of a request to `POST /optimize-schedule`. -/
structure OptimizeRequest where
  tasks : TasksField := .absent
  newTasks : TasksField := .absent
  preferences : Preferences := {}
  deriving DecidableEq, Repr

/-- The validation loop over the input tasks: the first error response, if any. -/
def validateTasks : List Task → Option (String × String)
  | [] => none
  | task :: rest =>
    if !strTruthy task.title || !task.priority.truthy then
      some ("Each task must have title and priority", "INVALID_TASK_FORMAT")
    else if !numTruthy task.estimatedDuration && !numTruthy task.estimatedHours then
      some ("Each task must have estimatedDuration (minutes) or estimatedHours",
        "INVALID_TASK_FORMAT")
    else validateTasks rest

/-- The `estimatedDuration` that `tasksInMinutes` gives to a task:
`task.estimatedDuration || Math.round((task.estimatedHours || 1) * 60)`, the
product being a double. -/
def normalizedDuration (task : Task) : ℚ :=
  if numTruthy task.estimatedDuration then task.estimatedDuration.getD 0
  else
    let hours : ℚ :=
      if numTruthy task.estimatedHours then toDouble (task.estimatedHours.getD 0) else 1
    (mathRound (toDouble (hours * 60)) : ℚ)

/-- The callback of `inputTasks.map` that builds `tasksInMinutes`. -/
def toMinutes (task : Task) : Task :=
  { task with estimatedDuration := some (normalizedDuration task) }

/-- The value `tasks || newTasks` of a request. -/
def inputTasksOf (req : OptimizeRequest) : TasksField :=
  if req.tasks.truthy then req.tasks else req.newTasks

/-- The first part of the handler, up to the call of `optimizeSchedule`: either
the 400 response, or the task list `tasksInMinutes` handed to the optimizer. -/
def validateRequest (req : OptimizeRequest) : Except (String × String) (List Task) :=
  let inputTasks := inputTasksOf req
  if !inputTasks.truthy || !inputTasks.isArray then
    .error ("tasks array is required", "MISSING_REQUIRED_FIELD")
  else
    match validateTasks inputTasks.elems with
    | some err => .error err
    | none => .ok (inputTasks.elems.map toMinutes)

/-- An element of `optimizedSchedule` in the response. -/
structure ScheduleEntry where
  id : String
  title : Option String
  startTime : Option DateText
  endTime : DateText
  priority : JSVal
  category : String
  status : String
  deriving DecidableEq, Repr

/-- An element of `execution.actions` in the response. -/
inductive ExecutionAction where
  | scheduleUpdated (updatedTasks : ℕ) (totalDuration : ℚ)
  | conflictsResolved (conflictsResolved : ℕ)
  deriving DecidableEq, Repr

/-- The `summary` of the response. -/
structure ScheduleSummary where
  totalTasks : ℕ
  totalDuration : ℚ
  efficiency : ℚ
  improvementPercentage : ℤ
  deriving DecidableEq, Repr

/-- The body of a 200 response of `POST /optimize-schedule` (without the
metadata block). -/
structure ScheduleResponse where
  optimizedSchedule : List ScheduleEntry
  actions : List ExecutionAction
  optimizations : List String
  summary : ScheduleSummary
  deriving DecidableEq, Repr

/-- The callback of `optimizedTasks.map` that builds `optimizedSchedule`. -/
def scheduleEntry (env : Env) (n : ℕ) (task : Task) : Except JSError ScheduleEntry :=
  match calculateEndTime env task.scheduledTime task.estimatedDuration with
  | .error e => .error e
  | .ok endTime =>
    .ok { id := if strTruthy task.id then task.id.getD "" else freshTaskId env n
          title := task.title
          startTime := task.scheduledTime
          endTime := endTime
          priority := task.priority
          category := categoryKey task
          status := "scheduled" }

/-- The `summary` block computed from the optimized tasks. -/
def scheduleSummary (optimizedTasks : List Task) (preferences : Preferences) : ScheduleSummary :=
  let originalEfficiency : ℚ := 7 / 10
  let newEfficiency := calculateEfficiency optimizedTasks preferences
  let improvementPercentage :=
    mathRound (((newEfficiency - originalEfficiency) / originalEfficiency) * 100)
  { totalTasks := optimizedTasks.length
    totalDuration := totalDuration optimizedTasks
    efficiency := newEfficiency
    improvementPercentage := max improvementPercentage 0 }

/-- The part of the handler after `optimizeSchedule` has returned. -/
def buildScheduleResponse (env : Env) (preferences : Preferences) (optimizedTasks : List Task) :
    Except JSError ScheduleResponse :=
  let updated := ExecutionAction.scheduleUpdated optimizedTasks.length (totalDuration optimizedTasks)
  let conflicts := detectTimeConflicts optimizedTasks
  let executionActions :=
    if conflicts > 0 then [updated, .conflictsResolved conflicts] else [updated]
  let highPriorityTasks := optimizedTasks.filter isHighPriority
  let optimizations₁ : List String :=
    if highPriorityTasks.length > 0 then ["AIが高優先度タスクを最適な時間帯に配置しました"] else []
  match groupTasksByCategory optimizedTasks with
  | .error e => .error e
  | .ok categories =>
    let optimizations₂ :=
      if categories.length > 1 then
        optimizations₁ ++ ["AIが類似タスクをまとめて効率性を向上させました"]
      else optimizations₁
    let optimizations₃ :=
      if strTruthy preferences.workStyle then
        optimizations₂ ++
          ["AIが" ++ preferences.workStyle.getD "" ++ "型の作業スタイルに合わせてスケジュールを調整しました"]
      else optimizations₂
    let summary := scheduleSummary optimizedTasks preferences
    match mapExcept (scheduleEntry env) 0 optimizedTasks with
    | .error e => .error e
    | .ok optimizedSchedule =>
      .ok { optimizedSchedule := optimizedSchedule
            actions := executionActions
            optimizations := optimizations₃
            summary := summary }

/-- The handler of `POST /optimize-schedule`, given the outcome of the model call.
The task history is the empty array; an exception becomes a 500 response. -/
def optimizeScheduleRoute (env : Env) (req : OptimizeRequest)
    (gemini : Except JSError ScheduleReply) : HttpResult ScheduleResponse :=
  match validateRequest req with
  | .error (msg, code) => .fail 400 msg code
  | .ok tasksInMinutes =>
    match optimizeSchedule env tasksInMinutes (some []) gemini with
    | .error e => .fail 500 e.message "OPTIMIZATION_FAILED"
    | .ok optimizedTasks =>
      match buildScheduleResponse env req.preferences optimizedTasks with
      | .error e => .fail 500 e.message "OPTIMIZATION_FAILED"
      | .ok response => .ok response

/-! ## routes/analyze-task.js -/

/-- The body of a request to `POST /analyze-task`. -/
structure AnalysisRequest where
  userInput : Option String := none
  scheduledDate : Option String := none
  priority : JSVal := .undefined
  deriving DecidableEq, Repr

/-- The object parsed from the model reply to the task-analysis prompt. -/
structure AnalysisReply where
  title : Option String := none
  description : Option String := none
  priority : JSVal := .undefined
  difficulty : JSVal := .undefined
  estimatedDuration : Option ℚ := none
  category : Option String := none
  deriving DecidableEq, Repr

/-- Models `analyzeTaskWithGemini`, given the outcome of `callGeminiAPI`: the validation
of the parsed reply. -/
def analyzeTaskWithGemini (gemini : Except JSError AnalysisReply) : Except JSError AnalysisReply :=
  match gemini with
  | .error e => .error e
  | .ok result =>
    if !strTruthy result.title || !strTruthy result.description then
      .error (.error "Invalid task analysis result: missing required fields")
    else .ok result

/-- Models `mapPriority(aiPriority)`. -/
def mapPriority : JSVal → String
  | .num aiPriority =>
    if aiPriority ≤ 1 then "low"
    else if aiPriority ≤ 2 then "medium"
    else if aiPriority ≤ 4 then "high"
    else "urgent"
  | .str aiPriority =>
    let priority := aiPriority.toLower
    if priority ∈ ["low", "medium", "high", "urgent"] then priority else "medium"
  | _ => "medium"

/-- Models `mapComplexity(difficulty)`. -/
def mapComplexity : JSVal → String
  | .num difficulty =>
    if difficulty ≤ 2 then "easy"
    else if difficulty ≤ 4 then "medium"
    else "hard"
  | _ => "medium"

/-- The fields of `analysis` in the response that are derived from the declared
priority and from the numbers of the model reply. -/
structure TaskAnalysis where
  category : String
  priority : JSVal
  estimatedDuration : ℚ
  complexity : String
  deriving DecidableEq, Repr

/-- The `analysis` block built by the handler from the request and the validated
model reply. -/
def buildAnalysis (req : AnalysisRequest) (aiAnalysis : AnalysisReply) : TaskAnalysis :=
  let estimatedDuration : ℚ :=
    if numTruthy aiAnalysis.estimatedDuration then aiAnalysis.estimatedDuration.getD 0 else 60
  { category := if strTruthy aiAnalysis.category then aiAnalysis.category.getD "" else "general"
    priority := if req.priority.truthy then req.priority else .str (mapPriority aiAnalysis.priority)
    estimatedDuration := estimatedDuration
    complexity := mapComplexity aiAnalysis.difficulty }

/-- The handler of `POST /analyze-task`, given the outcome of the model call. -/
def analyzeTaskRoute (req : AnalysisRequest) (gemini : Except JSError AnalysisReply) :
    HttpResult TaskAnalysis :=
  if !strTruthy req.userInput then
    .fail 400 "userInput is required" "MISSING_REQUIRED_FIELD"
  else
    match analyzeTaskWithGemini gemini with
    | .error e => .fail 500 e.message "ANALYSIS_FAILED"
    | .ok aiAnalysis => .ok (buildAnalysis req aiAnalysis)

/-- The four values of the priority enumeration. -/
def priorityEnum : List JSVal := [.str "low", .str "medium", .str "high", .str "urgent"]

/-! ## Recommendations: ai-service.js and routes/recommendations.js -/

/-- A recommendation object, as returned by the model or built by the fallback
(`recType` is its `type` property). -/
structure Recommendation where
  id : Option String := none
  recType : Option String := none
  title : Option String := none
  description : Option String := none
  priority : JSVal := .undefined
  category : Option String := none
  estimatedImpact : Option String := none
  timeframe : Option String := none
  deriving DecidableEq, Repr

/-- The `recommendations` field of the parsed model reply. -/
inductive RecommendationsField where
  | absent
  /-- a value that is not an array, with its truthiness -/
  | notArray (truthy : Bool)
  | array (items : List Recommendation)
  deriving DecidableEq, Repr

/-- The object parsed from the model reply to the recommendations prompt. -/
structure RecommendationsReply where
  recommendations : RecommendationsField := .absent
  deriving DecidableEq, Repr

/-- Models `generateRecommendationsWithGemini`, given the outcome of `callGeminiAPI`: the
array of the reply when the validation passes. -/
def generateRecommendationsWithGemini (gemini : Except JSError RecommendationsReply) :
    Except JSError (List Recommendation) :=
  match gemini with
  | .error e => .error e
  | .ok result =>
    match result.recommendations with
    | .array items => .ok items
    | _ => .error (.error "Invalid recommendations result: missing recommendations array")

/-- Models `fallbackGenerateRecommendations(userId)`. -/
def fallbackGenerateRecommendations (_userId : Option String) : List Recommendation :=
  [ { recType := some "productivity_tip"
      title := some "生産性向上のヒント"
      description := some "朝の時間帯は集中力が高いため、重要なタスクを午前中に配置することをお勧めします。"
      priority := .str "medium"
      category := some "productivity" },
    { recType := some "habit_suggestion"
      title := some "習慣形成のアドバイス"
      description := some "小さな習慣から始めて、徐々に習慣を積み重ねていくことで継続しやすくなります。"
      priority := .str "high"
      category := some "habits" } ]

/-- The callback of `geminiResult.recommendations.map` in `generateRecommendations`. -/
def geminiRecommendation (env : Env) (n : ℕ) (rec : Recommendation) : Recommendation :=
  { rec with
    id := if strTruthy rec.id then rec.id
      else some ("rec_" ++ toString env.now ++ "_" ++ env.rand n)
    estimatedImpact := if strTruthy rec.estimatedImpact then rec.estimatedImpact else some "medium" }

/-- Models `generateRecommendations(userId, userProfile, context)`, given the outcome of
the model call. -/
def generateRecommendations (env : Env) (userId : Option String)
    (gemini : Except JSError RecommendationsReply) : List Recommendation :=
  match generateRecommendationsWithGemini gemini with
  | .ok items => items.enum.map (fun p => geminiRecommendation env p.1 p.2)
  | .error _ => fallbackGenerateRecommendations userId

/-- The `analytics` block of the recommendations response. -/
structure RecommendationAnalytics where
  totalRecommendations : ℕ
  productivity : ℕ
  habit : ℕ
  schedule : ℕ
  goal : ℕ
  high : ℕ
  medium : ℕ
  low : ℕ
  improvementPercentage : JSNum
  deriving DecidableEq, Repr

/-- The number of recommendations whose `type` is the given string. -/
def countType (recommendations : List Recommendation) (t : String) : ℕ :=
  (recommendations.filter (fun r => decide (r.recType = some t))).length

/-- The number of recommendations whose `priority` is the given string. -/
def countPriority (recommendations : List Recommendation) (p : String) : ℕ :=
  (recommendations.filter (fun r => decide (r.priority = .str p))).length

/-- The `analytics` block computed by the handler from the recommendation list. -/
def recommendationAnalytics (recommendations : List Recommendation) : RecommendationAnalytics :=
  let totalRecommendations := recommendations.length
  let highPriorityRecs := countPriority recommendations "high"
  let improvementPercentage := JSNum.round
    (JSNum.mul (JSNum.div (.fin highPriorityRecs) (.fin totalRecommendations)) (.fin 100))
  { totalRecommendations := totalRecommendations
    productivity := countType recommendations "productivity"
    habit := countType recommendations "habit"
    schedule := countType recommendations "schedule"
    goal := countType recommendations "goal"
    high := highPriorityRecs
    medium := countPriority recommendations "medium"
    low := countPriority recommendations "low"
    improvementPercentage := JSNum.max improvementPercentage (.fin 15) }

/-! ## Predicates and sample inputs used in the statements -/

/-- The number of pairs of a list, each element taken with the ones after it,
that satisfy `p`. -/
def pairCount {α : Type} (p : α → α → Bool) : List α → ℕ
  | [] => 0
  | a :: rest => rest.countP (p a) + pairCount p rest

/-- Is the time value at least one day inside the range of valid time values? -/
def dateInRange (ms : ℤ) : Bool := decide (|ms| ≤ maxTime - msPerDay)

/-- A `scheduledDate` that `calculateOptimalTime` can stamp: absent or empty (the
current date is used), or a string that parses to a date in range. -/
def stampable : Option DateText → Bool
  | none => true
  | some (.parses ms) => dateInRange ms
  | some (.unparseable raw) => decide (raw = "")

/-- The instant whose day `calculateOptimalTime` stamps: the parsed
`scheduledDate`, or the current time when there is none. -/
def baseTime (env : Env) : Option DateText → ℤ
  | some (.parses ms) => ms
  | _ => env.now

/-- A request environment: 2023-11-14T22:13:20Z on a server running in UTC. -/
def env0 : Env := { now := 1700000000000, tz := 0, rand := fun n => "r" ++ toString n }

/-- A valid input task without dates. -/
def sampleTask : Task :=
  { title := some "月次レポート", priority := .str "high", estimatedDuration := some 90 }

/-- A task whose `scheduledDate` is not a date. -/
def unparseableDateTask : Task :=
  { title := some "t", priority := .str "medium", estimatedDuration := some 30,
    scheduledDate := some (.unparseable "not-a-date") }

/-- A model reply that splits the work into two tasks. -/
def twoTaskReply : Except JSError ScheduleReply :=
  .ok { optimizedTasks := .array
          [ { title := some "調査", priority := .str "high", estimatedDuration := some 45,
              scheduledTime := some (.parses 1700038800000) },
            { title := some "執筆", priority := .str "high", estimatedDuration := some 45 } ]
        efficiencyScore := some (9 / 10) }

/-- A model reply with an empty `optimizedTasks` array. -/
def emptyReply : Except JSError ScheduleReply :=
  .ok { optimizedTasks := .array [] }

/-- An analyze-task request that declares a priority outside the enumeration. -/
def criticalRequest : AnalysisRequest :=
  { userInput := some "資料作成: 月次レポート", priority := .str "critical" }

/-- An analyze-task request without a declared priority. -/
def plainRequest : AnalysisRequest :=
  { userInput := some "資料作成: 月次レポート" }

/-- The model reply of the first end-to-end scenario. -/
def reportReply : AnalysisReply :=
  { title := some "月次レポート作成", description := some "月次レポートを作成する",
    priority := .num 3, estimatedDuration := some 150, difficulty := .num 3 }

/-- A schedule request with the one valid sample task. -/
def sampleRequest : OptimizeRequest := { tasks := .array [sampleTask] }

/-- A failed model call. -/
def unavailable : Except JSError ScheduleReply := .error (.error "quota exceeded")

/-- The sample task as the fallback schedules it: 09:00 on the current day. -/
def sampleOptimized : Task :=
  { sampleTask with
    id := some "task_1700000000000_r0"
    scheduledTime := some (.parses 1699952400000)
    optimizationScore := some (.fin 0) }

/-- The response to `sampleRequest` when the model is unavailable. -/
def sampleResponse : ScheduleResponse :=
  { optimizedSchedule :=
      [ { id := "task_1700000000000_r0", title := some "月次レポート",
          startTime := some (.parses 1699952400000), endTime := .parses 1699957800000,
          priority := .str "high", category := "general", status := "scheduled" } ]
    actions := [.scheduleUpdated 1 90]
    optimizations := ["AIが高優先度タスクを最適な時間帯に配置しました"]
    summary := { totalTasks := 1, totalDuration := 90, efficiency := 29 / 100,
                 improvementPercentage := 0 } }

/-- A request whose task declares a negative duration; it passes the validation. -/
def negativeDurationRequest : OptimizeRequest :=
  { tasks := .array
      [{ title := some "片付け", priority := .str "low", estimatedDuration := some (-30) }] }

/-- The entry of the response for the task of `negativeDurationRequest`. -/
def negativeDurationEntry : ScheduleEntry :=
  { id := "task_1700000000000_r0", title := some "片付け",
    startTime := some (.parses 1699952400000), endTime := .parses 1699950600000,
    priority := .str "low", category := "general", status := "scheduled" }

/-- The response to `negativeDurationRequest` when the model is unavailable. -/
def negativeDurationResponse : ScheduleResponse :=
  { optimizedSchedule := [negativeDurationEntry]
    actions := [.scheduleUpdated 1 (-30)]
    optimizations := []
    summary := { totalTasks := 1, totalDuration := -30, efficiency := -3 / 50,
                 improvementPercentage := 0 } }

/-- The task of `negativeDurationRequest`. -/
def negativeDurationTask : Task :=
  { title := some "片付け", priority := .str "low", estimatedDuration := some (-30) }

/-- A task that declares its duration in hours. -/
def hoursTask : Task :=
  { title := some "設計レビュー", priority := .num 4, estimatedHours := some (3 / 2) }

/-- A task of 1.025 hours: the product by 60 is the double 61.49999999999999. -/
def fractionalHoursTask : Task :=
  { title := some "見積もり", priority := .str "medium", estimatedHours := some (41 / 40) }

/-- A request whose `tasks` value is the empty array. -/
def emptyRequest : OptimizeRequest := { tasks := .array [] }

/-- A request whose `tasks` value is a string. -/
def stringTasksRequest : OptimizeRequest := { tasks := .notArray true }

/-- The response to `emptyRequest` when the model is unavailable. -/
def emptyResponse : ScheduleResponse :=
  { optimizedSchedule := []
    actions := [.scheduleUpdated 0 0]
    optimizations := []
    summary := { totalTasks := 0, totalDuration := 0, efficiency := 0,
                 improvementPercentage := 0 } }

/-- A model reply to the recommendations prompt with an empty array. -/
def emptyRecommendations : Except JSError RecommendationsReply :=
  .ok { recommendations := .array [] }

/-! ## ai-service.js: prompts -/

/-- Models `scheduledDate || '未指定'` in the task-analysis prompt. -/
def effectiveDate (scheduledDate : Option String) : String :=
  if strTruthy scheduledDate then scheduledDate.getD "" else "未指定"

/-- The text of the task-analysis prompt before the interpolated user input. -/
def analysisPromptHead : String :=
  "\n" ++
  "あなたは優秀なタスク分析アシスタントです。以下のユーザー入力からタスク情報を正確に抽出してください。\n" ++
  "\n" ++
  "ユーザー入力: \""

/-- The text of the task-analysis prompt between the two interpolated values. -/
def analysisPromptMiddle : String :=
  "\"\n" ++
  "予定日: "

/-- The text of the task-analysis prompt after the interpolated date. -/
def analysisPromptTail : String :=
  "\n" ++
  "\n" ++
  "以下の正確なJSON形式で回答してください（他の文章は含めないでください）:\n" ++
  "\x7b\n" ++
  "  \"title\": \"タスクの明確なタイトル\",\n" ++
  "  \"description\": \"タスクの詳細な説明\",\n" ++
  "  \"priority\": 1から5の整数（1=低、5=高）,\n" ++
  "  \"difficulty\": 1から5の整数（1=簡単、5=困難）,\n" ++
  "  \"estimatedDuration\": 予想所要時間（分単位の整数）,\n" ++
  "  \"tags\": [\"関連するタグの配列\"],\n" ++
  "  \"isSkippable\": ブール値（true または false）\n" ++
  "\x7d\n"

/-- The prompt built by `analyzeTaskWithGemini(userInput, scheduledDate)`: a
template literal that interpolates the two values as they are. -/
def analysisPrompt (userInput : String) (scheduledDate : Option String) : String :=
  analysisPromptHead ++ userInput ++ analysisPromptMiddle ++ effectiveDate scheduledDate ++
    analysisPromptTail

/-- The prompt built by `generateRecommendationsWithGemini`; the two arguments are
the texts `JSON.stringify(userProfile, null, 2)` and
`JSON.stringify(context, null, 2)`. -/
def recommendationsPrompt (userProfileJson contextJson : String) : String :=
  "\n" ++
  "あなたは優秀な生産性コンサルタントです。ユーザーの情報を分析し、パーソナライズされた推奨事項を生成してください。\n" ++
  "\n" ++
  "ユーザープロファイル:\n" ++
  userProfileJson ++
  "\n" ++
  "\n" ++
  "現在の状況:\n" ++
  contextJson ++
  "\n" ++
  "\n" ++
  "以下の正確なJSON形式で推奨事項を回答してください（他の文章は含めないでください）:\n" ++
  "\x7b\n" ++
  "  \"recommendations\": [\n" ++
  "    \x7b\n" ++
  "      \"type\": \"推奨タイプ（productivity/habit/schedule/goal）\",\n" ++
  "      \"title\": \"推奨事項のタイトル\",\n" ++
  "      \"description\": \"詳細な説明\",\n" ++
  "      \"priority\": \"優先度（low/medium/high）\",\n" ++
  "      \"actionable\": true,\n" ++
  "      \"estimatedImpact\": \"予想効果（low/medium/high）\",\n" ++
  "      \"implementationSteps\": [\"実行ステップ1\", \"実行ステップ2\"],\n" ++
  "      \"timeframe\": \"実行期間（例：1週間、1ヶ月）\"\n" ++
  "    \x7d\n" ++
  "  ],\n" ++
  "  \"insights\": \x7b\n" ++
  "    \"strengths\": [\"ユーザーの強み\"],\n" ++
  "    \"improvementAreas\": [\"改善すべき領域\"],\n" ++
  "    \"riskFactors\": [\"注意すべきリスク要因\"]\n" ++
  "  \x7d,\n" ++
  "  \"personalizedTips\": [\n" ++
  "    \"ユーザーに特化したアドバイス\"\n" ++
  "  ],\n" ++
  "  \"nextActions\": [\n" ++
  "    \"次に取るべき具体的なアクション\"\n" ++
  "  ]\n" ++
  "\x7d\n"
/-- Models `generateRecommendations(userId, userProfile, context)` with the Model
Gateway as a function of the prompt; `userProfileJson` and `contextJson` are the
serialised profile and context. -/
def generateRecommendationsFor (env : Env) (userId : Option String)
    (userProfileJson contextJson : String)
    (gateway : String → Except JSError RecommendationsReply) : List Recommendation :=
  generateRecommendations env userId (gateway (recommendationsPrompt userProfileJson contextJson))

/-! ## index.js: the auth gate and the route table -/

/-- The API keys configured in the process environment. -/
structure ApiKeyConfig where
  wellfinApiKey : Option String := none
  devToken : Option String := none
  apiKey : Option String := none
  deriving DecidableEq, Repr

/-- The array `validApiKeys` of the middleware, after `.filter(Boolean)`. -/
def validApiKeys (cfg : ApiKeyConfig) : List String :=
  ([ some (if strTruthy cfg.wellfinApiKey then cfg.wellfinApiKey.getD "" else "dev-secret-key"),
     cfg.devToken, cfg.apiKey, some "dev-secret-key" ].filter strTruthy).map
    (fun key => key.getD "")

/-- What the authentication middleware does with a request: it calls `next()`,
with `req.userId` as it leaves it, or it answers with an error. -/
inductive AuthOutcome where
  | next (userId : Option String)
  | reject (status : ℕ) (error : String) (message : String)
  deriving DecidableEq, Repr

/-- The API key authentication middleware, on the path of the request and its
`x-api-key` header. -/
def authMiddleware (cfg : ApiKeyConfig) (path : String) (apiKey : Option String) : AuthOutcome :=
  if path = "/health" ∨ path = "/" ∨ path = "/test-ai" then .next none
  else if !strTruthy apiKey then
    .reject 401 "API key required" "Please provide X-API-Key header"
  else if !(validApiKeys cfg).contains (apiKey.getD "") then
    .reject 401 "Invalid API key" "The provided API key is not valid"
  else .next (some ("api-user-" ++ (apiKey.getD "").take 8))

/-- The handlers of the application. -/
inductive Handler where
  | health
  | testAI
  | root
  | analyzeTask
  | optimizeSchedule
  | recommendations
  | vertexAITest
  | notFound
  deriving DecidableEq, Repr

/-- The router mounted at `/api/v1` (routes/index.js), on exact paths. -/
def apiRouter (method path : String) : Handler :=
  if path = "/api/v1/analyze-task" ∧ method = "POST" then .analyzeTask
  else if path = "/api/v1/optimize-schedule" ∧ method = "POST" then .optimizeSchedule
  else if path = "/api/v1/recommendations" ∧ method = "POST" then .recommendations
  else if path = "/api/v1/vertex-ai-test" ∧ method = "GET" then .vertexAITest
  else .notFound

/-- Where a request ends: in a handler, with the `userId` set by the auth gate, or
in the error answer of the auth gate. -/
inductive Dispatch where
  | handled (handler : Handler) (userId : Option String)
  | rejected (status : ℕ) (error : String) (message : String)
  deriving DecidableEq, Repr

/-- The middleware stack of index.js in registration order: the three handlers
registered before the auth gate, the auth gate, the `/api/v1` router. The
helmet, CORS and body-parsing middleware in front of them is left out. -/
def appDispatch (cfg : ApiKeyConfig) (method path : String) (apiKey : Option String) : Dispatch :=
  if method = "GET" ∧ path = "/health" then .handled .health none
  else if method = "GET" ∧ path = "/test-ai" then .handled .testAI none
  else if method = "GET" ∧ path = "/" then .handled .root none
  else
    match authMiddleware cfg path apiKey with
    | .reject status error message => .rejected status error message
    | .next userId => .handled (apiRouter method path) userId

/-! ## ai-service.js: the Model Gateway `callGeminiAPI` -/

/-- A value in the metadata of a log entry. -/
inductive LogValue where
  | str (s : String)
  | num (n : ℤ)
  | strs (xs : List String)
  /-- the `stack` of the error that carries this message -/
  | stack (message : String)
  | undefined
  deriving DecidableEq, Repr

/-- A call of `log(severity, message, metadata)`. -/
structure LogEntry where
  severity : String
  message : String
  metadata : List (String × LogValue)
  deriving DecidableEq, Repr

/-- A candidate of the model response, with the text of its first part. -/
structure Candidate where
  finishReason : String
  text : String
  deriving DecidableEq, Repr

/-- The outcome of `generativeModel.generateContent(request)`. -/
inductive GenerateOutcome where
  | failed (message : String) (code : Option String)
  | response (candidates : List Candidate)
  deriving DecidableEq, Repr

/-- The part of `JSON.parse` that the gateway uses: the parsed object or the
message of the parse error, and `Object.keys` of a parsed object. -/
structure JsonParser (α : Type) where
  parse : String → Except String α
  keys : α → List String

/-- Project, location and credentials setting of the process. -/
structure GeminiConfig where
  project : Option String := none
  location : String := "asia-northeast1"
  hasCredentials : Bool := false
  deriving DecidableEq, Repr

/-- The constant `MODEL_NAME`. -/
def modelName : String := "gemini-1.5-flash"

/-- Models `s.includes(sub)`. -/
def jsIncludes (s sub : String) : Bool := decide (sub.toList <:+: s.toList)

/-- Models `text.match(/\{[\s\S]*\}/)`: the span from the first opening brace
through the last closing brace after it. -/
def jsonMatch (text : String) : Option String :=
  let fromOpen := text.toList.dropWhile (fun c => c != '\x7b')
  let upToClose := (fromOpen.reverse.dropWhile (fun c => c != '\x7d')).reverse
  if upToClose.isEmpty then none else some (String.mk upToClose)

/-- A project identifier as a metadata value. -/
def projectValue (cfg : GeminiConfig) : LogValue :=
  match cfg.project with
  | some p => .str p
  | none => .undefined

/-- The log entry written by the `catch` block of `callGeminiAPI`. -/
def gatewayErrorLog (cfg : GeminiConfig) (operation message : String) (code : Option String) :
    LogEntry :=
  if jsIncludes message "GoogleAuthError" then
    { severity := "ERROR"
      message := "Vertex AI Authentication Error for " ++ operation
      metadata :=
        [ ("error", .str message), ("project", projectValue cfg),
          ("location", .str cfg.location), ("model", .str modelName),
          ("serviceAccount", .str (if cfg.hasCredentials then "set" else "not set")),
          ("metadata", .str "Cloud Run Functions should auto-authenticate") ] }
  else
    { severity := "ERROR"
      message := "Vertex AI Gemini API error for " ++ operation
      metadata :=
        [ ("error", .str message), ("stack", .stack message),
          ("code", match code with
            | some c => .str c
            | none => .undefined),
          ("project", projectValue cfg), ("location", .str cfg.location),
          ("model", .str modelName) ] }

/-- The log entry written when the text of the candidate has been read. -/
def responseReceivedLog (operation : String) (candidate : Candidate) : LogEntry :=
  { severity := "INFO"
    message := "Vertex AI Gemini response received for " ++ operation
    metadata :=
      [ ("textLength", .num candidate.text.length),
        ("finishReason", .str candidate.finishReason),
        ("responsePreview", .str (candidate.text.take 100 ++ "...")) ] }

/-- The two log entries written before the provider call. -/
def gatewayStartLogs (cfg : GeminiConfig) (operation : String) : List LogEntry :=
  [ { severity := "INFO", message := "Starting Vertex AI Gemini " ++ operation
      metadata := [("project", projectValue cfg), ("location", .str cfg.location),
        ("model", .str modelName)] },
    { severity := "INFO", message := "Sending request to Vertex AI Gemini for " ++ operation
      metadata := [("model", .str modelName), ("location", .str cfg.location)] } ]

/-- The part of the `try` block of `callGeminiAPI` that handles the first
candidate: the log entries written and the parsed result, or the message of the
error thrown. -/
def readCandidate {α : Type} (parser : JsonParser α) (operation : String)
    (candidate : Candidate) : List LogEntry × Except String α :=
  if candidate.finishReason = "SAFETY" then
    ([], .error "Content was blocked by safety filters")
  else
    let text := candidate.text
    let received := responseReceivedLog operation candidate
    match jsonMatch text with
    | none =>
      ([received,
        { severity := "ERROR", message := "No JSON found in response"
          metadata := [("fullResponse", .str text)] }],
        .error ("No valid JSON found in Vertex AI response for " ++ operation))
    | some span =>
      match parser.parse span with
      | .ok parsedResult =>
        ([received,
          { severity := "INFO"
            message := operation ++ " completed successfully with Vertex AI"
            metadata := [("resultKeys", .strs (parser.keys parsedResult))] }],
          .ok parsedResult)
      | .error parseMessage =>
        ([received,
          { severity := "ERROR", message := "Failed to parse JSON response"
            metadata := [("error", .str parseMessage), ("rawResponse", .str span)] }],
          .error ("Failed to parse JSON response from Vertex AI Gemini for " ++ operation))

/-- The body of the `try` block of `callGeminiAPI`: the log entries written and
the parsed result, or the error thrown with its `code`. -/
def callGeminiAPIBody {α : Type} (cfg : GeminiConfig) (parser : JsonParser α)
    (outcome : GenerateOutcome) (operation : String) :
    List LogEntry × Except (String × Option String) α :=
  match outcome with
  | .failed message code => (gatewayStartLogs cfg operation, .error (message, code))
  | .response [] =>
    (gatewayStartLogs cfg operation,
      .error ("No candidates returned from Vertex AI Gemini", none))
  | .response (candidate :: _) =>
    match readCandidate parser operation candidate with
    | (logs, .ok parsedResult) => (gatewayStartLogs cfg operation ++ logs, .ok parsedResult)
    | (logs, .error message) =>
      (gatewayStartLogs cfg operation ++ logs, .error (message, none))

/-- Models `callGeminiAPI(prompt, operation)`, given the outcome of the provider
call: the log entries written, and the parsed object or the error rethrown by
the `catch` block. -/
def callGeminiAPI {α : Type} (cfg : GeminiConfig) (parser : JsonParser α)
    (outcome : GenerateOutcome) (operation : String) : List LogEntry × Except JSError α :=
  match callGeminiAPIBody cfg parser outcome operation with
  | (logs, .ok parsedResult) => (logs, .ok parsedResult)
  | (logs, .error (message, code)) =>
    (logs ++ [gatewayErrorLog cfg operation message code], .error (.error message))

/-! ## routes/analyze-task.js: titles and execution actions -/

/-- The UTF-16 code units of a character: one unit in the Basic Multilingual
Plane, a pair of surrogates outside it. -/
def charUnits (c : Char) : List ℕ :=
  if c.toNat < 0x10000 then [c.toNat]
  else [0xD800 + (c.toNat - 0x10000) / 0x400, 0xDC00 + (c.toNat - 0x10000) % 0x400]

/-- The UTF-16 code units of a string: the sequence that `length`, `indexOf` and
`substring` count and cut. -/
def utf16 (s : String) : List ℕ := (s.toList.map charUnits).flatten

/-- Is the code unit the first half of a surrogate pair? -/
def isHighSurrogate (u : ℕ) : Bool := decide (0xD800 ≤ u ∧ u < 0xDC00)

/-- Is the code unit the second half of a surrogate pair? -/
def isLowSurrogate (u : ℕ) : Bool := decide (0xDC00 ≤ u ∧ u < 0xE000)

/-- The characters of a sequence of code units; a half of a surrogate pair
without its other half is no character and is shown as U+FFFD. -/
def charsOfUnits : List ℕ → List Char
  | [] => []
  | [u] => [if isHighSurrogate u || isLowSurrogate u then Char.ofNat 0xFFFD else Char.ofNat u]
  | hi :: lo :: rest =>
    if isHighSurrogate hi && isLowSurrogate lo then
      Char.ofNat (0x10000 + (hi - 0xD800) * 0x400 + (lo - 0xDC00)) :: charsOfUnits rest
    else
      (if isHighSurrogate hi || isLowSurrogate hi then Char.ofNat 0xFFFD else Char.ofNat hi)
        :: charsOfUnits (lo :: rest)

/-- The code units that `String.prototype.trim` removes. -/
def isJSWhitespace (u : ℕ) : Bool :=
  u ∈ [0x9, 0xA, 0xB, 0xC, 0xD, 0x20, 0xA0, 0x1680, 0x2000, 0x2001, 0x2002, 0x2003,
    0x2004, 0x2005, 0x2006, 0x2007, 0x2008, 0x2009, 0x200A, 0x2028, 0x2029, 0x202F, 0x205F,
    0x3000, 0xFEFF]

/-- Models `s.trim()` on the code units of `s`. -/
def jsTrim (s : List ℕ) : List ℕ :=
  ((s.dropWhile isJSWhitespace).reverse.dropWhile isJSWhitespace).reverse

/-- Models `s.indexOf(c)` for a pattern of one code unit: the index of its first
occurrence among the code units of `s`, -1 when absent. -/
def jsIndexOf (s : List ℕ) (c : ℕ) : ℤ :=
  let idx := s.indexOf c
  if idx < s.length then (idx : ℤ) else -1

/-- The code unit of the colon. -/
def colon : ℕ := 0x3A

/-- Models `extractTitle(userInput)` on the code units of the input: `indexOf`,
`length` and `substring` count UTF-16 code units. -/
def extractTitle (userInput : List ℕ) : List ℕ :=
  let colonIndex := jsIndexOf userInput colon
  if colonIndex > 0 then
    jsTrim (userInput.take colonIndex.toNat)
  else if userInput.length > 50 then userInput.take 50 ++ utf16 "..."
  else userInput

/-- Models `generateSubtasks(title)`. -/
def generateSubtasks (title : String) : List String :=
  if jsIncludes title "計画" || jsIncludes title "プロジェクト" then
    ["要件定義・スコープ確認", "タスク分解・スケジュール作成", "リスク分析・対策検討"]
  else if jsIncludes title "資料" || jsIncludes title "レポート" then
    ["情報収集・調査", "構成・アウトライン作成", "執筆・編集・校正"]
  else
    ["準備・情報整理", "実行・作業", "確認・完了処理"]

/-- An element of `execution.actions` in the analyze-task response. -/
inductive AnalysisAction where
  | taskCreated (taskId : String) (title : String) (priority : JSVal) (category : String)
  | subtasksGenerated (count : ℕ) (subtasks : List String)
  deriving DecidableEq, Repr

/-- Models `aiAnalysis.title || extractTitle(userInput)`. -/
def analysisTitle (req : AnalysisRequest) (aiAnalysis : AnalysisReply) : String :=
  if strTruthy aiAnalysis.title then aiAnalysis.title.getD ""
  else String.mk (charsOfUnits (extractTitle (utf16 (req.userInput.getD ""))))

/-- The array `executionActions` built by the handler from the request and the
validated model reply. -/
def buildExecutionActions (env : Env) (req : AnalysisRequest) (aiAnalysis : AnalysisReply) :
    List AnalysisAction :=
  let created := AnalysisAction.taskCreated (freshTaskId env 0) (analysisTitle req aiAnalysis)
    (if req.priority.truthy then req.priority else .str (mapPriority aiAnalysis.priority))
    (if strTruthy aiAnalysis.category then aiAnalysis.category.getD "" else "general")
  let estimatedDuration : ℚ :=
    if numTruthy aiAnalysis.estimatedDuration then aiAnalysis.estimatedDuration.getD 0 else 60
  if estimatedDuration > 120 then
    let subtasks := generateSubtasks (analysisTitle req aiAnalysis)
    [created, .subtasksGenerated subtasks.length subtasks]
  else [created]

/-- The `execution.actions` of the answer of `POST /analyze-task`, given the
outcome of the model call. -/
def analyzeTaskActions (env : Env) (req : AnalysisRequest)
    (gemini : Except JSError AnalysisReply) : HttpResult (List AnalysisAction) :=
  if !strTruthy req.userInput then
    .fail 400 "userInput is required" "MISSING_REQUIRED_FIELD"
  else
    match analyzeTaskWithGemini gemini with
    | .error e => .fail 500 e.message "ANALYSIS_FAILED"
    | .ok aiAnalysis => .ok (buildExecutionActions env req aiAnalysis)

/-! ## Sample inputs for the recommendation, gateway and auth statements -/

/-- A gateway whose provider call fails for every prompt. -/
def failingGateway : String → Except JSError RecommendationsReply :=
  fun _ => .error (.error "quota exceeded")

/-- A gateway whose reply has no `recommendations` array. -/
def invalidReplyGateway : String → Except JSError RecommendationsReply :=
  fun _ => .ok { recommendations := .absent }

/-- The allow-list in the words of the specification: the configured keys plus
the hardcoded development key. -/
def allowListed (cfg : ApiKeyConfig) (key : String) : Prop :=
  key = "dev-secret-key" ∨ cfg.wellfinApiKey = some key ∨ cfg.devToken = some key ∨
    cfg.apiKey = some key

instance (cfg : ApiKeyConfig) (key : String) : Decidable (allowListed cfg key) := by
  unfold allowListed
  infer_instance

/-- Is the path one of those the auth gate lets through unchecked? -/
def exemptPath (path : String) : Prop :=
  path = "/health" ∨ path = "/" ∨ path = "/test-ai"

instance (path : String) : Decidable (exemptPath path) := by
  unfold exemptPath
  infer_instance

/-- A configuration with one production key. -/
def sampleKeys : ApiKeyConfig := { wellfinApiKey := some "prod-key-12345678" }

/-- A stand-in for `JSON.parse` on the sample replies: a span that mentions a
title parses, with the keys of a task analysis. -/
def sampleParser : JsonParser String :=
  { parse := fun span =>
      if jsIncludes span "\"title\"" then .ok span else .error "Unexpected end of JSON input"
    keys := fun _ => ["title", "description"] }

/-- The default process configuration. -/
def sampleGeminiConfig : GeminiConfig := { project := some "wellfin" }

/-- A reply of 150 characters without any JSON. -/
def longReply : String := "".pushn 'x' 150

/-- A reply whose JSON object is followed by 100 characters of commentary. -/
def padded (c : Char) : String :=
  "\x7b\"title\":\"t\",\"description\":\"d\"\x7d" ++ "".pushn '-' 90 ++ "".pushn c 10

/-- An analyze-task reply without a duration. -/
def shortReply : AnalysisReply :=
  { title := some "メール返信", description := some "メールに返信する", priority := .num 1 }

/-- A request whose task declares a numeric priority. -/
def numericPriorityRequest : OptimizeRequest := { tasks := .array [hoursTask] }

/-- The JSON object inside the padded sample replies. -/
def sampleSpan : String := "\x7b\"title\":\"t\",\"description\":\"d\"\x7d"

/-- The entry of the response for the task of `numericPriorityRequest`. -/
def numericPriorityEntry : ScheduleEntry :=
  { id := "task_1700000000000_r0", title := some "設計レビュー",
    startTime := some (.parses 1699952400000), endTime := .parses 1699957800000,
    priority := .num 4, category := "general", status := "scheduled" }

/-- The response to `numericPriorityRequest` when the model is unavailable. -/
def numericPriorityResponse : ScheduleResponse :=
  { optimizedSchedule := [numericPriorityEntry]
    actions := [.scheduleUpdated 1 90]
    optimizations := []
    summary := { totalTasks := 1, totalDuration := 90, efficiency := 19 / 100,
                 improvementPercentage := 0 } }

/-- The duration that the analyze-task handler works with, in the words of the
specification: the model's `estimatedDuration`, taken as 60 when absent or zero. -/
def effectiveDuration (reply : AnalysisReply) : ℚ :=
  match reply.estimatedDuration with
  | some d => if d = 0 then 60 else d
  | none => 60

/-- An input of 60 characters without a colon. -/
def longInput : String := "".pushn 'w' 60

/-- An input of 26 characters outside the Basic Multilingual Plane: 52 code units. -/
def emojiInput : String := "".pushn '😀' 26

/-! ## Conflicts in the words of the specification -/

/-- The duration of the window of a task: its `estimatedDuration`, taken as 60
minutes when absent or zero. -/
def windowMinutes (task : Task) : ℚ :=
  match task.estimatedDuration with
  | some d => if d = 0 then 60 else d
  | none => 60

/-- The window of a task in exact arithmetic: from its start to its start plus
its duration, for a task whose `scheduledTime` is a date. -/
def exactWindow (task : Task) : Option (ℚ × ℚ) :=
  match task.scheduledTime with
  | some (.parses start) => some ((start : ℚ), (start : ℚ) + windowMinutes task * 60000)
  | _ => none

/-- Strict overlap of the exact windows of two tasks. -/
def exactOverlap (task1 task2 : Task) : Bool :=
  match exactWindow task1, exactWindow task2 with
  | some (start1, end1), some (start2, end2) => decide (start1 < end2 ∧ start2 < end1)
  | _, _ => false

/-- The window of a task as a pair of Date time values: the end is the double
start + duration × 60000, the product a double as well, cut to a whole
millisecond; there is no window when the `scheduledTime` is not a date or the
start or the end leaves the Date range. -/
def dateWindow (task : Task) : Option (ℤ × ℤ) :=
  match task.scheduledTime with
  | some (.parses start) =>
    let finish : ℚ := toDouble ((start : ℚ) + toDouble (toDouble (windowMinutes task) * 60000))
    if |start| ≤ maxTime ∧ |finish| ≤ maxTime then
      some (start, if 0 ≤ finish then ⌊finish⌋ else ⌈finish⌉)
    else none
  | _ => none

/-- Strict overlap of the Date windows of two tasks. -/
def windowsOverlap (task1 task2 : Task) : Bool :=
  match dateWindow task1, dateWindow task2 with
  | some (start1, end1), some (start2, end2) => decide (start1 < end2 ∧ start2 < end1)
  | _, _ => false

/-- A task at 09:00 (UTC) on 2024-01-01 with the given duration. -/
def taskAtNine (minutes : ℚ) : Task :=
  { title := some "a", priority := .str "low", estimatedDuration := some minutes,
    scheduledTime := some (.parses 1704099600000) }

/-- A task at 10:00 (UTC) on 2024-01-01 with the given duration. -/
def taskAtTen (minutes : ℚ) : Task :=
  { title := some "b", priority := .str "low", estimatedDuration := some minutes,
    scheduledTime := some (.parses 1704103200000) }

/-- A task at 09:00:59.999 (UTC) on 2024-01-01 with the given duration. -/
def taskBeforeTen (minutes : ℚ) : Task :=
  { title := some "c", priority := .str "low", estimatedDuration := some minutes,
    scheduledTime := some (.parses 1704099659999) }

/-- A task whose window, if it has a `scheduledTime` that is a date, lies in the
Date range and lasts a whole number of milliseconds, fewer than 2^53, its
duration being a double. -/
def wholeWindow (task : Task) : Prop :=
  ∀ start, task.scheduledTime = some (.parses start) →
    |start| ≤ maxTime ∧ toDouble (windowMinutes task) = windowMinutes task ∧
    ∃ m : ℤ, windowMinutes task * 60000 = (m : ℚ) ∧ |m| < 2 ^ 53 ∧ |start + m| ≤ maxTime

/-! ## Efficiency in the words of the specification -/

/-- Rounding to 2 decimals, halves rounded up. -/
def roundTo2 (x : ℚ) : ℚ := (⌊x * 100 + 1 / 2⌋ : ℚ) / 100

/-- The sum of the `estimatedDuration` of the tasks, a missing one counted as 0. -/
def totalMinutes (tasks : List Task) : ℚ :=
  (tasks.map (fun task => match task.estimatedDuration with
    | some d => d
    | none => 0)).sum

/-- The number of tasks whose priority is high or urgent. -/
def highOrUrgentCount (tasks : List Task) : ℕ :=
  tasks.countP (fun task => decide (task.priority = .str "high" ∨ task.priority = .str "urgent"))

/-- The efficiency formula of the specification. -/
def efficiencyFormula (tasks : List Task) : ℚ :=
  roundTo2 (min (min (totalMinutes tasks / 480) 1 +
    min ((1 / 10) * (highOrUrgentCount tasks : ℚ)) (3 / 10)) 1)

/-- The sum of the `estimatedDuration` of the tasks from left to right, a missing
one counted as 0, each addition rounded to a double. -/
def totalMinutesDouble (tasks : List Task) : ℚ :=
  (tasks.map (fun task => match task.estimatedDuration with
    | some d => d
    | none => 0)).foldl (fun sum d => toDouble (sum + toDouble d)) 0

/-- The efficiency formula with every operation carried out in double
arithmetic: Math.round(e × 100) / 100 for
e = min(min(totalMinutes / 480, 1) + min(0.1 × k, 0.3), 1). -/
def efficiencyDouble (tasks : List Task) : ℚ :=
  (mathRound (toDouble (min (toDouble (min (toDouble (totalMinutesDouble tasks / 480)) 1 +
    min (toDouble (toDouble (1 / 10) * (highOrUrgentCount tasks : ℚ))) (toDouble (3 / 10)))) 1
      * 100)) : ℚ) / 100

/-- Are the durations of the tasks whole numbers of minutes? -/
def wholeMinutes (tasks : List Task) : Prop :=
  ∀ t ∈ tasks, ∀ d, t.estimatedDuration = some d → ∃ n : ℕ, d = (n : ℚ)

/-- A task of 276 minutes and low priority: 276 / 480 is 0.575, and the double
0.575 × 100 is 57.49999999999999. -/
def nearHalfTask : Task :=
  { title := some "棚卸し", priority := .str "low", estimatedDuration := some 276 }

/-- Preferences with a work style and working hours. -/
def morningPreferences : Preferences :=
  { workStyle := some "morning", workHours := some ("06:00", "15:00") }

/-! ## The hour score in the words of the specification -/

/-- The score `histogram[hour] × (priorityValue / 5)` of an hour for a task. -/
def hourScore (task : Task) (histogram : List ℚ) (hour : ℕ) : JSNum :=
  JSNum.mul (.fin (patternAt histogram (some (hour : ℤ))))
    (JSNum.div (getPriorityValue task.priority) (.fin 5))

/-- A histogram that peaks at 10 and again at 14. -/
def sampleHistogram : List ℚ :=
  [0, 0, 0, 0, 0, 0, 0, 1 / 2, 1 / 2, 3 / 4, 1, 1 / 2, 0, 3 / 4, 1, 1 / 2, 0, 0, 0, 0, 0, 0, 0, 0]

/-- The state of the hour loop after the hours from 6 up to, not including, `k`,
for the finite scores `f`. -/
def hourLoopInv (f : ℕ → ℚ) (k : ℕ) (state : ℤ × JSNum) : Prop :=
  ∃ b : ℚ, state.2 = .fin b ∧ 0 ≤ b ∧ (∀ hour, 6 ≤ hour → hour < k → f hour ≤ b) ∧
    ((b = 0 ∧ state.1 = 9) ∨
      ∃ n : ℕ, state.1 = (n : ℤ) ∧ 6 ≤ n ∧ n < k ∧ f n = b ∧ 0 < b ∧
        ∀ hour, 6 ≤ hour → hour < n → f hour < b)

/-! ## Sample inputs for the fallback and the analysis text -/

/-- A task whose `scheduledDate` is the last instant of the Date range,
`+275760-09-13T00:00:00.000Z`. -/
def lastDayTask : Task :=
  { id := some "t-1", title := some "t", priority := .str "medium", estimatedDuration := some 30,
    scheduledDate := some (.parses 8640000000000000) }

/-- A task with an id, a category and a valid `scheduledDate` (2024-01-01T15:30Z). -/
def datedTask : Task :=
  { id := some "t-7", title := some "請求書", priority := .num 2, estimatedHours := some 2,
    estimatedDuration := some 120, category := some "経理",
    scheduledDate := some (.parses 1704123000000) }

/-- Models `aiAnalysis.description || userInput`. -/
def analysisDescription (req : AnalysisRequest) (aiAnalysis : AnalysisReply) : String :=
  if strTruthy aiAnalysis.description then aiAnalysis.description.getD ""
  else req.userInput.getD ""

/-- The `analysis.title` and `analysis.description` of the answer of
`POST /analyze-task`, given the outcome of the model call. -/
def analyzeTaskText (req : AnalysisRequest) (gemini : Except JSError AnalysisReply) :
    HttpResult (String × String) :=
  if !strTruthy req.userInput then
    .fail 400 "userInput is required" "MISSING_REQUIRED_FIELD"
  else
    match analyzeTaskWithGemini gemini with
    | .error e => .fail 500 e.message "ANALYSIS_FAILED"
    | .ok aiAnalysis => .ok (analysisTitle req aiAnalysis, analysisDescription req aiAnalysis)

/-! ## Theorems -/

/-! ### Double arithmetic -/

/-- The halving count brackets the number between two powers of two. -/
theorem log2Aux_spec : ∀ (fuel n : ℕ), 0 < n → n ≤ fuel →
    2 ^ log2Aux fuel n ≤ n ∧ n < 2 ^ (log2Aux fuel n + 1) := by
  intro fuel
  induction fuel with
  | zero => intro n h0 h1; omega
  | succ fuel ih =>
    intro n h0 h1
    unfold log2Aux
    by_cases h2 : n < 2
    · rw [if_pos h2]
      have : n = 1 := by omega
      subst this
      simp
    · rw [if_neg h2]
      obtain ⟨ha, hb⟩ := ih (n / 2) (by omega) (by omega)
      rw [pow_succ] at hb ⊢
      rw [pow_succ]
      constructor <;> omega

/-- The leading bit brackets the number between two powers of two. -/
theorem natLog2_spec (n : ℕ) (h : 0 < n) : 2 ^ natLog2 n ≤ n ∧ n < 2 ^ (natLog2 n + 1) :=
  log2Aux_spec n n h (le_refl n)

/-- The absolute value of a rational in terms of its numerator and denominator. -/
theorem abs_eq_natAbs_div (q : ℚ) : |q| = (q.num.natAbs : ℚ) / (q.den : ℚ) := by
  have hd : (0 : ℚ) < q.den := by exact_mod_cast q.den_pos
  conv_lhs => rw [← Rat.num_div_den q]
  rw [abs_div, abs_of_pos hd]
  congr 1
  rw [Nat.cast_natAbs, Int.cast_abs]

/-- The binade brackets a non-zero number between two powers of two. -/
theorem log2Floor_spec (q : ℚ) (hq : q ≠ 0) :
    (2 : ℚ) ^ log2Floor q ≤ |q| ∧ |q| < (2 : ℚ) ^ (log2Floor q + 1) := by
  have hN : 0 < q.num.natAbs := Int.natAbs_pos.mpr (Rat.num_ne_zero.mpr hq)
  have hD : 0 < q.den := q.den_pos
  obtain ⟨ha1, ha2⟩ := natLog2_spec _ hN
  obtain ⟨hb1, hb2⟩ := natLog2_spec _ hD
  have hDq : (0 : ℚ) < q.den := by exact_mod_cast hD
  have ha1q : (2 : ℚ) ^ natLog2 q.num.natAbs ≤ (q.num.natAbs : ℚ) := by exact_mod_cast ha1
  have ha2q : (q.num.natAbs : ℚ) < (2 : ℚ) ^ (natLog2 q.num.natAbs + 1) := by exact_mod_cast ha2
  have hb1q : (2 : ℚ) ^ natLog2 q.den ≤ (q.den : ℚ) := by exact_mod_cast hb1
  have hb2q : (q.den : ℚ) < (2 : ℚ) ^ (natLog2 q.den + 1) := by exact_mod_cast hb2
  have hpa : (0 : ℚ) < (2 : ℚ) ^ natLog2 q.num.natAbs := by positivity
  have hpb : (0 : ℚ) < (2 : ℚ) ^ natLog2 q.den := by positivity
  have h2 : (2 : ℚ) ≠ 0 := by norm_num
  have habs := abs_eq_natAbs_div q
  unfold log2Floor
  simp only
  split_ifs with h
  · refine ⟨h, ?_⟩
    rw [habs, zpow_add₀ h2, zpow_sub₀ h2, zpow_natCast, zpow_natCast, zpow_one,
      div_mul_eq_mul_div, div_lt_div_iff₀ hDq hpb]
    rw [pow_succ] at ha2q
    nlinarith
  · push_neg at h
    refine ⟨?_, by rw [sub_add_cancel]; exact h⟩
    rw [habs, zpow_sub₀ h2, zpow_sub₀ h2, zpow_natCast, zpow_natCast, zpow_one,
      div_div, div_le_div_iff₀ (by positivity) hDq]
    rw [pow_succ] at hb2q
    nlinarith

/-- A number that reaches a power of two lies in that binade or above. -/
theorem le_log2Floor (q : ℚ) (k : ℤ) (hq : q ≠ 0) (h : (2 : ℚ) ^ k ≤ |q|) : k ≤ log2Floor q := by
  have h1 := (log2Floor_spec q hq).2
  have h2 : (2 : ℚ) ^ k < (2 : ℚ) ^ (log2Floor q + 1) := lt_of_le_of_lt h h1
  have h3 := (zpow_lt_zpow_iff_right₀ (by norm_num : (1 : ℚ) < 2)).mp h2
  omega

/-- A number below a power of two lies in a binade below it. -/
theorem log2Floor_lt (q : ℚ) (k : ℤ) (hq : q ≠ 0) (h : |q| < (2 : ℚ) ^ k) : log2Floor q < k := by
  have h1 := (log2Floor_spec q hq).1
  have h2 : (2 : ℚ) ^ log2Floor q < (2 : ℚ) ^ k := lt_of_le_of_lt h1 h
  exact (zpow_lt_zpow_iff_right₀ (by norm_num : (1 : ℚ) < 2)).mp h2

/-- Rounding leaves an integer unchanged. -/
theorem roundHalfEven_int (n : ℤ) : roundHalfEven (n : ℚ) = n := by
  unfold roundHalfEven
  simp

/-- Rounding to the nearest integer is monotone. -/
theorem roundHalfEven_mono (a b : ℚ) (h : a ≤ b) : roundHalfEven a ≤ roundHalfEven b := by
  have hf : ⌊a⌋ ≤ ⌊b⌋ := Int.floor_mono h
  have ha1 : roundHalfEven a ≤ ⌊a⌋ + 1 := by
    unfold roundHalfEven; simp only; split_ifs <;> omega
  have hb0 : ⌊b⌋ ≤ roundHalfEven b := by
    unfold roundHalfEven; simp only; split_ifs <;> omega
  rcases lt_or_eq_of_le hf with hlt | heq
  · omega
  · have hfr : a - ⌊a⌋ ≤ b - ⌊b⌋ := by rw [heq]; linarith
    unfold roundHalfEven
    simp only
    rw [heq] at hfr ⊢
    split_ifs <;> first | omega | linarith

/-- The spacing of the doubles is positive. -/
theorem ulp_pos (q : ℚ) : 0 < ulp q := by
  unfold ulp
  positivity

/-- The double of a non-negative number is non-negative. -/
theorem toDouble_nonneg (q : ℚ) (h : 0 ≤ q) : 0 ≤ toDouble q := by
  unfold toDouble
  have h1 : (0 : ℚ) ≤ q / ulp q := div_nonneg h (le_of_lt (ulp_pos q))
  have h2 := roundHalfEven_mono 0 _ h1
  have h3 : roundHalfEven (0 : ℚ) = 0 := by exact_mod_cast roundHalfEven_int 0
  rw [h3] at h2
  have h4 : (0 : ℚ) ≤ (roundHalfEven (q / ulp q) : ℚ) := by exact_mod_cast h2
  exact mul_nonneg h4 (le_of_lt (ulp_pos q))

/-- The double of a non-positive number is non-positive. -/
theorem toDouble_nonpos (q : ℚ) (h : q ≤ 0) : toDouble q ≤ 0 := by
  unfold toDouble
  have h1 : q / ulp q ≤ 0 := div_nonpos_of_nonpos_of_nonneg h (le_of_lt (ulp_pos q))
  have h2 := roundHalfEven_mono _ 0 h1
  have h3 : roundHalfEven (0 : ℚ) = 0 := by exact_mod_cast roundHalfEven_int 0
  rw [h3] at h2
  have h4 : (roundHalfEven (q / ulp q) : ℚ) ≤ 0 := by exact_mod_cast h2
  exact mul_nonpos_of_nonpos_of_nonneg h4 (le_of_lt (ulp_pos q))

/-- An integer of magnitude below 2^53 is a double. -/
theorem toDouble_int (n : ℤ) (h : |n| < 2 ^ 53) : toDouble (n : ℚ) = n := by
  by_cases hn : n = 0
  · subst hn
    unfold toDouble
    have h3 : roundHalfEven (0 : ℚ) = 0 := by exact_mod_cast roundHalfEven_int 0
    simp [h3]
  · have hq : (n : ℚ) ≠ 0 := by exact_mod_cast hn
    have habs1 : (1 : ℚ) ≤ |(n : ℚ)| := by
      have : (1 : ℤ) ≤ |n| := Int.one_le_abs hn
      exact_mod_cast this
    have habs2 : |(n : ℚ)| < (2 : ℚ) ^ (53 : ℤ) := by
      have : ((|n| : ℤ) : ℚ) < ((2 ^ 53 : ℤ) : ℚ) := by exact_mod_cast h
      rw [Int.cast_abs] at this
      rw [zpow_ofNat]
      exact_mod_cast this
    have hl0 : 0 ≤ log2Floor n := le_log2Floor _ 0 hq (by simpa using habs1)
    have hl1 : log2Floor n < 53 := log2Floor_lt _ 53 hq habs2
    have hu : ulp (n : ℚ) = ((2 : ℚ) ^ (52 - log2Floor n).toNat)⁻¹ := by
      unfold ulp
      rw [max_eq_left (by omega), ← zpow_natCast, ← zpow_neg]
      congr 1
      omega
    unfold toDouble
    rw [hu, div_inv_eq_mul]
    have : ((n : ℚ) * (2 : ℚ) ^ (52 - log2Floor n).toNat)
        = ((n * 2 ^ (52 - log2Floor n).toNat : ℤ) : ℚ) := by push_cast; rfl
    rw [this, roundHalfEven_int]
    push_cast
    field_simp

/-- On the non-negative numbers, rounding to a double is monotone. -/
theorem toDouble_mono (a b : ℚ) (ha : 0 ≤ a) (h : a ≤ b) : toDouble a ≤ toDouble b := by
  rcases eq_or_lt_of_le ha with h0 | hapos
  · rw [← h0]
    have : toDouble 0 = 0 := le_antisymm (toDouble_nonpos 0 (le_refl 0)) (toDouble_nonneg 0 (le_refl 0))
    rw [this]
    exact toDouble_nonneg b (le_trans ha h)
  · have hbpos : 0 < b := lt_of_lt_of_le hapos h
    have hane : a ≠ 0 := ne_of_gt hapos
    have hbne : b ≠ 0 := ne_of_gt hbpos
    obtain ⟨ha1, ha2⟩ := log2Floor_spec a hane
    obtain ⟨hb1, hb2⟩ := log2Floor_spec b hbne
    rw [abs_of_pos hapos] at ha1 ha2
    rw [abs_of_pos hbpos] at hb1 hb2
    have hl : log2Floor a ≤ log2Floor b :=
      le_log2Floor b _ hbne (by rw [abs_of_pos hbpos]; exact le_trans ha1 h)
    have h2 : (2 : ℚ) ≠ 0 := by norm_num
    rcases eq_or_lt_of_le (max_le_max_right (-1022) hl) with heq | hlt
    · have hu : ulp a = ulp b := by unfold ulp; rw [heq]
      unfold toDouble
      rw [hu]
      have := roundHalfEven_mono (a / ulp b) (b / ulp b)
        (div_le_div_of_nonneg_right h (le_of_lt (ulp_pos b)))
      have hc : (roundHalfEven (a / ulp b) : ℚ) ≤ (roundHalfEven (b / ulp b) : ℚ) := by
        exact_mod_cast this
      exact mul_le_mul_of_nonneg_right hc (le_of_lt (ulp_pos b))
    · -- the binade of b lies above the binade of a
      have heb : max (log2Floor b) (-1022) = log2Floor b := by
        apply max_eq_left
        by_contra hc
        push_neg at hc
        rw [max_eq_right (le_of_lt hc)] at hlt
        have := le_max_right (log2Floor a) (-1022)
        omega
      have hmid : (2 : ℚ) ^ (max (log2Floor a) (-1022) + 1) ≤ (2 : ℚ) ^ (log2Floor b) := by
        apply zpow_le_zpow_right₀ (by norm_num)
        rw [heb] at hlt
        omega
      -- the double of a stays below the next power of two
      have hA : toDouble a ≤ (2 : ℚ) ^ (max (log2Floor a) (-1022) + 1) := by
        unfold toDouble ulp
        have hup : (0 : ℚ) < (2 : ℚ) ^ (max (log2Floor a) (-1022) - 52) := by positivity
        have hle : a / (2 : ℚ) ^ (max (log2Floor a) (-1022) - 52) ≤ ((2 ^ 53 : ℤ) : ℚ) := by
          rw [div_le_iff₀ hup]
          have : ((2 ^ 53 : ℤ) : ℚ) * (2 : ℚ) ^ (max (log2Floor a) (-1022) - 52)
              = (2 : ℚ) ^ (max (log2Floor a) (-1022) + 1) := by
            have e53 : ((2 ^ 53 : ℤ) : ℚ) = (2 : ℚ) ^ (53 : ℤ) := by norm_num
            rw [e53, ← zpow_add₀ h2]
            congr 1
            ring
          rw [this]
          apply le_trans (le_of_lt ha2)
          apply zpow_le_zpow_right₀ (by norm_num)
          have := le_max_left (log2Floor a) (-1022)
          omega
        have hr := roundHalfEven_mono _ _ hle
        rw [roundHalfEven_int] at hr
        have hrq : (roundHalfEven (a / (2 : ℚ) ^ (max (log2Floor a) (-1022) - 52)) : ℚ)
            ≤ ((2 ^ 53 : ℤ) : ℚ) := by exact_mod_cast hr
        calc (roundHalfEven (a / (2 : ℚ) ^ (max (log2Floor a) (-1022) - 52)) : ℚ)
              * (2 : ℚ) ^ (max (log2Floor a) (-1022) - 52)
            ≤ ((2 ^ 53 : ℤ) : ℚ) * (2 : ℚ) ^ (max (log2Floor a) (-1022) - 52) :=
              mul_le_mul_of_nonneg_right hrq (le_of_lt hup)
          _ = (2 : ℚ) ^ (max (log2Floor a) (-1022) + 1) := by
            have e53 : ((2 ^ 53 : ℤ) : ℚ) = (2 : ℚ) ^ (53 : ℤ) := by norm_num
            rw [e53, ← zpow_add₀ h2]
            congr 1
            ring
      -- the double of b stays above the power of two that starts its binade
      have hB : (2 : ℚ) ^ (log2Floor b) ≤ toDouble b := by
        unfold toDouble ulp
        rw [heb]
        have hup : (0 : ℚ) < (2 : ℚ) ^ (log2Floor b - 52) := by positivity
        have e52 : ((2 ^ 52 : ℤ) : ℚ) * (2 : ℚ) ^ (log2Floor b - 52) = (2 : ℚ) ^ (log2Floor b) := by
          have e : ((2 ^ 52 : ℤ) : ℚ) = (2 : ℚ) ^ (52 : ℤ) := by norm_num
          rw [e, ← zpow_add₀ h2]
          congr 1
          ring
        have hle : ((2 ^ 52 : ℤ) : ℚ) ≤ b / (2 : ℚ) ^ (log2Floor b - 52) := by
          rw [le_div_iff₀ hup, e52]
          exact hb1
        have hr := roundHalfEven_mono _ _ hle
        rw [roundHalfEven_int] at hr
        have hrq : ((2 ^ 52 : ℤ) : ℚ) ≤ (roundHalfEven (b / (2 : ℚ) ^ (log2Floor b - 52)) : ℚ) := by
          exact_mod_cast hr
        calc (2 : ℚ) ^ (log2Floor b)
            = ((2 ^ 52 : ℤ) : ℚ) * (2 : ℚ) ^ (log2Floor b - 52) := e52.symm
          _ ≤ _ := mul_le_mul_of_nonneg_right hrq (le_of_lt hup)
      exact le_trans hA (le_trans hmid hB)

/-- Rounding to the nearest integer moves a number by at most one half. -/
theorem roundHalfEven_error (y : ℚ) : |(roundHalfEven y : ℚ) - y| ≤ 1 / 2 := by
  have h1 : (⌊y⌋ : ℚ) ≤ y := Int.floor_le y
  have h2 : y < (⌊y⌋ : ℚ) + 1 := Int.lt_floor_add_one y
  unfold roundHalfEven
  simp only
  rw [abs_le]
  split_ifs with ha hb hc
  · constructor <;> linarith
  · push_cast; constructor <;> linarith
  · push_neg at ha hb
    constructor <;> linarith
  · push_neg at ha hb
    push_cast
    constructor <;> linarith

/-- Rounding to a double moves a number by at most half the spacing. -/
theorem toDouble_error (x : ℚ) : |toDouble x - x| ≤ ulp x / 2 := by
  have hu := ulp_pos x
  have h := roundHalfEven_error (x / ulp x)
  unfold toDouble
  have e : (roundHalfEven (x / ulp x) : ℚ) * ulp x - x
      = ((roundHalfEven (x / ulp x) : ℚ) - x / ulp x) * ulp x := by
    field_simp
  rw [e, abs_mul, abs_of_pos hu]
  calc |(roundHalfEven (x / ulp x) : ℚ) - x / ulp x| * ulp x ≤ 1 / 2 * ulp x :=
        mul_le_mul_of_nonneg_right h (le_of_lt hu)
    _ = ulp x / 2 := by ring

/-- Up to 128 a non-negative number is moved by at most 2^(-46). -/
theorem toDouble_error_small (x : ℚ) (h0 : 0 ≤ x) (h : x ≤ 128) :
    |toDouble x - x| ≤ 1 / 2 ^ 46 := by
  rcases eq_or_lt_of_le h0 with hz | hpos
  · rw [← hz]
    have : toDouble 0 = 0 :=
      le_antisymm (toDouble_nonpos 0 (le_refl 0)) (toDouble_nonneg 0 (le_refl 0))
    rw [this]
    norm_num
  · have hne : x ≠ 0 := ne_of_gt hpos
    have hl : log2Floor x < 8 := by
      apply log2Floor_lt x 8 hne
      rw [abs_of_pos hpos]
      have : ((2 : ℚ) ^ (8 : ℤ)) = 256 := by norm_num
      rw [this]
      linarith
    have hu : ulp x ≤ (2 : ℚ) ^ (-45 : ℤ) := by
      unfold ulp
      apply zpow_le_zpow_right₀ (by norm_num)
      have : max (log2Floor x) (-1022) ≤ 7 := max_le (by omega) (by norm_num)
      omega
    have he := toDouble_error x
    have h45 : ((2 : ℚ) ^ (-45 : ℤ)) / 2 = 1 / 2 ^ 46 := by norm_num
    calc |toDouble x - x| ≤ ulp x / 2 := he
      _ ≤ ((2 : ℚ) ^ (-45 : ℤ)) / 2 := div_le_div_of_nonneg_right hu (by norm_num)
      _ = 1 / 2 ^ 46 := h45

/-! ### Auxiliary lemmas -/

/-- A successful `mapExcept` keeps the length of the list. -/
theorem mapExcept_length {α β : Type} (f : ℕ → α → Except JSError β) :
    ∀ (l : List α) (i : ℕ) (out : List β), mapExcept f i l = .ok out → out.length = l.length := by
  intro l
  induction l with
  | nil => intro i out h; simp [mapExcept] at h; simp [← h]
  | cons a rest ih =>
    intro i out h
    simp only [mapExcept] at h
    cases hf : f i a with
    | error e => simp [hf] at h
    | ok b =>
      cases hr : mapExcept f (i + 1) rest with
      | error e => simp [hf, hr] at h
      | ok bs =>
        simp [hf, hr] at h
        simp [← h, ih (i + 1) bs hr]

/-- If the callback succeeds on every element, `mapExcept` succeeds. -/
theorem mapExcept_ok {α β : Type} (f : ℕ → α → Except JSError β) :
    ∀ (l : List α) (i : ℕ), (∀ a ∈ l, ∀ n, ∃ b, f n a = .ok b) →
      ∃ out, mapExcept f i l = .ok out := by
  intro l
  induction l with
  | nil => intro i _; exact ⟨[], rfl⟩
  | cons a rest ih =>
    intro i h
    obtain ⟨b, hb⟩ := h a (List.mem_cons_self _ _) i
    obtain ⟨bs, hbs⟩ := ih (i + 1) (fun x hx n => h x (List.mem_cons_of_mem _ hx) n)
    exact ⟨b :: bs, by simp [mapExcept, hb, hbs]⟩

/-- One step of the hour loop keeps the best hour within 6..22. -/
theorem findOptimalHourStep_range (p : List ℚ) (w : JSNum) (s : ℤ × JSNum) (hour : ℕ)
    (hs : 6 ≤ s.1 ∧ s.1 ≤ 22) (hh : 6 ≤ hour ∧ hour ≤ 22) :
    6 ≤ (findOptimalHourStep p w s hour).1 ∧ (findOptimalHourStep p w s hour).1 ≤ 22 := by
  unfold findOptimalHourStep
  simp only
  split_ifs
  · simp only; omega
  · exact hs

/-- The hour loop keeps the best hour within 6..22. -/
theorem foldl_step_range (p : List ℚ) (w : JSNum) :
    ∀ (hours : List ℕ) (s : ℤ × JSNum), (∀ h ∈ hours, 6 ≤ h ∧ h ≤ 22) → (6 ≤ s.1 ∧ s.1 ≤ 22) →
      6 ≤ (hours.foldl (findOptimalHourStep p w) s).1 ∧
        (hours.foldl (findOptimalHourStep p w) s).1 ≤ 22 := by
  intro hours
  induction hours with
  | nil => intro s _ hs; exact hs
  | cons h rest ih =>
    intro s hh hs
    simp only [List.foldl_cons]
    exact ih _ (fun x hx => hh x (List.mem_cons_of_mem _ hx))
      (findOptimalHourStep_range p w s h hs (hh h (List.mem_cons_self _ _)))

/-- The hour returned by `findOptimalHour` lies within 6..22. -/
theorem findOptimalHour_range (task : Task) (p : List ℚ) :
    6 ≤ findOptimalHour task p ∧ findOptimalHour task p ≤ 22 := by
  unfold findOptimalHour
  apply foldl_step_range
  · intro h hh
    simp [List.mem_range'] at hh
    omega
  · simp

/-- On a date at least a day inside the range, `setHours` gives a valid date. -/
theorem setHours_inRange (env : Env) (t h : ℤ) (ht : dateInRange t = true) (hh : 0 ≤ h ∧ h ≤ 24) :
    setHours env (some t) h = some (((t + env.tz) / msPerDay) * msPerDay + h * msPerHour - env.tz) := by
  simp only [setHours, timeClip]
  rw [if_pos]
  simp only [dateInRange, decide_eq_true_eq, maxTime, msPerDay] at ht
  simp only [maxTime, msPerDay, msPerHour]
  rw [abs_le] at ht ⊢
  have h1 := Int.emod_add_ediv (t + env.tz) 86400000
  have h2 := Int.emod_nonneg (t + env.tz) (show (86400000 : ℤ) ≠ 0 by norm_num)
  have h3 := Int.emod_lt_of_pos (t + env.tz) (show (0 : ℤ) < 86400000 by norm_num)
  constructor <;> omega

/-- A time value inside the range is not clipped. -/
theorem timeClip_inRange (t : ℤ) (ht : dateInRange t = true) : timeClip t = some t := by
  simp only [dateInRange, decide_eq_true_eq, maxTime, msPerDay] at ht
  simp only [timeClip, maxTime]
  rw [if_pos]
  rw [abs_le] at ht ⊢
  constructor <;> omega

/-- On a stampable date, `calculateOptimalTime` returns the given hour on the local day of the
base instant. -/
theorem calculateOptimalTime_eq (env : Env) (d : Option DateText) (h : ℤ)
    (hnow : dateInRange env.now = true) (hd : stampable d = true) (hh : 0 ≤ h ∧ h ≤ 24) :
    calculateOptimalTime env d h = .ok (.parses
      (((baseTime env d + env.tz) / msPerDay) * msPerDay + h * msPerHour - env.tz)) := by
  unfold calculateOptimalTime
  match d, hd with
  | none, _ =>
    simp [dateTruthy, baseTime, timeClip_inRange _ hnow, setHours_inRange env _ h hnow hh,
      toISOString]
  | some (.parses ms), hd =>
    simp only [stampable] at hd
    simp [dateTruthy, baseTime, newDate, timeClip_inRange _ hd, setHours_inRange env _ h hd hh,
      toISOString]
  | some (.unparseable raw), hd =>
    simp only [stampable, decide_eq_true_eq] at hd
    simp [dateTruthy, baseTime, hd, timeClip_inRange _ hnow, setHours_inRange env _ h hnow hh,
      toISOString]

/-- On a stampable date, `calculateOptimalTime` does not throw. -/
theorem calculateOptimalTime_ok (env : Env) (d : Option DateText) (h : ℤ)
    (hnow : dateInRange env.now = true) (hd : stampable d = true) (hh : 0 ≤ h ∧ h ≤ 24) :
    ∃ t, calculateOptimalTime env d h = .ok (.parses t) :=
  ⟨_, calculateOptimalTime_eq env d h hnow hd hh⟩

/-- The local hour of a stamped instant is the stamped hour. -/
theorem getHours_stamped (env : Env) (t h : ℤ) (hh : 0 ≤ h ∧ h < 24) :
    getHours env (some (((t + env.tz) / msPerDay) * msPerDay + h * msPerHour - env.tz))
      = some h := by
  simp only [getHours, msPerDay, msPerHour, Option.some.injEq]
  omega

/-- The productivity pattern of the empty history is zero at every hour. -/
theorem analyzeProductivityPattern_nil (env : Env) :
    analyzeProductivityPattern env [] = List.replicate 24 0 := by
  simp [analyzeProductivityPattern, hourlyProductivity]
  rfl

/-- An all-zero pattern has value zero at every index. -/
theorem patternAt_replicate_zero (n : ℕ) (hour : Option ℤ) :
    patternAt (List.replicate n 0) hour = 0 := by
  cases hour with
  | none => rfl
  | some h =>
    simp only [patternAt]
    split_ifs
    · cases hg : (List.replicate n (0 : ℚ)).get? h.toNat with
      | none => rfl
      | some q =>
        have hmem : q ∈ List.replicate n (0 : ℚ) := List.get?_mem hg
        simp only [Option.getD_some]
        exact (List.mem_replicate.mp hmem).2
    · rfl

/-- On an all-zero pattern no hour improves on a best score of zero. -/
theorem findOptimalHourStep_zero (w : JSNum) (s : ℤ × JSNum) (hour : ℕ)
    (hs : s.2 = .fin 0) :
    findOptimalHourStep (List.replicate 24 0) w s hour = s := by
  unfold findOptimalHourStep
  simp only [patternAt_replicate_zero, hs]
  cases w <;> simp [JSNum.mul, JSNum.gt]

/-- Without history, `findOptimalHour` keeps its default of 9. -/
theorem findOptimalHour_no_history (env : Env) (task : Task) :
    findOptimalHour task (analyzeProductivityPattern env []) = 9 := by
  rw [analyzeProductivityPattern_nil]
  unfold findOptimalHour
  simp only
  have : ∀ (hours : List ℕ) (w : JSNum),
      hours.foldl (findOptimalHourStep (List.replicate 24 0) w) ((9 : ℤ), JSNum.fin 0)
        = ((9 : ℤ), JSNum.fin 0) := by
    intro hours w
    induction hours with
    | nil => rfl
    | cons h rest ih => rw [List.foldl_cons, findOptimalHourStep_zero w _ h rfl, ih]
  rw [this]

/-- The fallback callback succeeds on a task with a stampable date. -/
theorem fallbackTask_ok (env : Env) (p : List ℚ) (task : Task) (n : ℕ)
    (hnow : dateInRange env.now = true) (hd : stampable task.scheduledDate = true) :
    ∃ b, fallbackTask env p n task = .ok b := by
  have hr := findOptimalHour_range task p
  obtain ⟨t, ht⟩ := calculateOptimalTime_ok env task.scheduledDate (findOptimalHour task p) hnow hd
    ⟨by omega, by omega⟩
  simp [fallbackTask, ht]

/-- The fallback succeeds on tasks with stampable dates and keeps their number. -/
theorem fallbackOptimizeSchedule_ok (env : Env) (tasks : List Task)
    (taskHistory : Option (List HistoryTask))
    (hnow : dateInRange env.now = true) (hin : ∀ t ∈ tasks, stampable t.scheduledDate = true) :
    ∃ out, fallbackOptimizeSchedule env tasks taskHistory = .ok out ∧ out.length = tasks.length := by
  obtain ⟨out, hout⟩ := mapExcept_ok (fallbackTask env
    (analyzeProductivityPattern env (taskHistory.getD []))) tasks 0
    (fun a ha n => fallbackTask_ok env _ a n hnow (hin a ha))
  exact ⟨out, hout, mapExcept_length _ _ _ _ hout⟩

/-- For a single task whose `scheduledDate` is absent or valid, and an empty history, the
fallback returns exactly one task, stamped at hour 9 local time. -/
theorem fallback_single_task_hour_nine (env : Env) (task : Task)
    (hnow : dateInRange env.now = true) (hd : stampable task.scheduledDate = true) :
    ∃ out t, fallbackOptimizeSchedule env [task] (some []) = .ok [out] ∧
      out.scheduledTime = some (.parses t) ∧ getHours env (some t) = some 9 := by
  have hc := calculateOptimalTime_eq env task.scheduledDate 9 hnow hd ⟨by omega, by omega⟩
  refine ⟨{ task with
      id := if strTruthy task.id then task.id else some (freshTaskId env 0)
      scheduledTime := some (.parses (((baseTime env task.scheduledDate + env.tz) / msPerDay)
        * msPerDay + 9 * msPerHour - env.tz))
      optimizationScore := some (calculateOptimizationScore env task
        (analyzeProductivityPattern env [])) }, _, ?_, rfl,
    getHours_stamped env (baseTime env task.scheduledDate) 9 ⟨by omega, by omega⟩⟩
  simp only [fallbackOptimizeSchedule, Option.getD_some, mapExcept, fallbackTask,
    findOptimalHour_no_history, hc]

/-- The callback of the model path succeeds on a task that has a start time or a stampable date. -/
theorem geminiTask_ok (env : Env) (r : ScheduleReply) (task : Task) (n : ℕ)
    (hnow : dateInRange env.now = true)
    (hd : dateTruthy task.scheduledTime = true ∨ stampable task.scheduledDate = true) :
    ∃ b, geminiTask env r n task = .ok b := by
  unfold geminiTask
  cases hs : task.scheduledTime with
  | none =>
    have hd' : stampable task.scheduledDate = true := by
      rcases hd with h | h
      · simp [hs, dateTruthy] at h
      · exact h
    obtain ⟨t, ht⟩ := calculateOptimalTime_ok env task.scheduledDate 9 hnow hd' ⟨by omega, by omega⟩
    simp [ht]
  | some s =>
    by_cases hts : dateTruthy (some s) = true
    · simp [hts]
    · have hd' : stampable task.scheduledDate = true := by
        rcases hd with h | h
        · rw [hs] at h; exact absurd h hts
        · exact h
      obtain ⟨t, ht⟩ := calculateOptimalTime_ok env task.scheduledDate 9 hnow hd' ⟨by omega, by omega⟩
      simp [hts, ht]

/-- The result of `mapPriority` is one of the four priority values. -/
theorem mapPriority_mem (v : JSVal) : JSVal.str (mapPriority v) ∈ priorityEnum := by
  cases v with
  | num q =>
    simp only [mapPriority, priorityEnum]
    split_ifs <;> simp
  | str s =>
    simp only [mapPriority, priorityEnum]
    split_ifs with h
    · simp only [List.mem_cons, List.mem_singleton, List.not_mem_nil, or_false] at h
      rcases h with h | h | h | h <;> simp [h]
    · simp
  | _ => simp [mapPriority, priorityEnum]

/-- The k-th result of a successful `mapExcept` is the callback applied to the k-th element. -/
theorem mapExcept_get? {α β : Type} (f : ℕ → α → Except JSError β) :
    ∀ (l : List α) (i : ℕ) (out : List β), mapExcept f i l = .ok out →
      ∀ (k : ℕ) (a : α), l.get? k = some a → ∃ b, out.get? k = some b ∧ f (i + k) a = .ok b := by
  intro l
  induction l with
  | nil => intro i out _ k a hk; simp at hk
  | cons x rest ih =>
    intro i out h k a hk
    simp only [mapExcept] at h
    cases hf : f i x with
    | error e => simp [hf] at h
    | ok b =>
      cases hr : mapExcept f (i + 1) rest with
      | error e => simp [hf, hr] at h
      | ok bs =>
        simp [hf, hr] at h
        subst h
        cases k with
        | zero =>
          simp at hk
          subst hk
          exact ⟨b, by simp, by simpa using hf⟩
        | succ k =>
          simp at hk
          obtain ⟨b', hb', hfb⟩ := ih (i + 1) bs hr k a (by simpa using hk)
          refine ⟨b', by simpa using hb', ?_⟩
          rw [← hfb]; congr 1; omega

/-- When `calculateEndTime` succeeds on a start that parses to `t` and a duration of `m`
milliseconds, the end is `t + m`. -/
theorem calculateEndTime_parses (env : Env) (t m : ℤ) (d : ℚ) (e : DateText)
    (h : calculateEndTime env (some (.parses t)) (some d) = .ok e) (hm : d * 60000 = m) :
    e = .parses (t + m) := by
  simp only [calculateEndTime, dateTruthy, Bool.not_true, Bool.false_eq_true, if_false,
    newDate, timeClip] at h
  by_cases ht : |t| ≤ maxTime
  · simp only [ht, if_true, getTime, JSNum.mul, JSNum.add, hm, newDateOfNum] at h
    have hq : ((t : ℚ) + (m : ℚ)) = ((t + m : ℤ) : ℚ) := by push_cast; ring
    rw [hq] at h
    split_ifs at h <;> simp [toISOString] at h <;> exact h.symm
  · simp [ht, getTime, JSNum.add, newDateOfNum, toISOString] at h

/-- A 200 response of the handler comes from a valid request, a successful optimization and a
successful response construction. -/
theorem route_ok_entries (env : Env) (req : OptimizeRequest)
    (gemini : Except JSError ScheduleReply) (resp : ScheduleResponse)
    (h : optimizeScheduleRoute env req gemini = .ok resp) :
    ∃ tasksInMinutes optimizedTasks, validateRequest req = .ok tasksInMinutes ∧
      optimizeSchedule env tasksInMinutes (some []) gemini = .ok optimizedTasks ∧
      buildScheduleResponse env req.preferences optimizedTasks = .ok resp := by
  unfold optimizeScheduleRoute at h
  cases hv : validateRequest req with
  | error e => simp [hv] at h
  | ok tim =>
    cases ho : optimizeSchedule env tim (some []) gemini with
    | error e => simp [hv, ho] at h
    | ok ot =>
      cases hb : buildScheduleResponse env req.preferences ot with
      | error e => simp [hv, ho, hb] at h
      | ok r =>
        simp [hv, ho, hb] at h
        exact ⟨tim, ot, rfl, ho, by rw [hb, h]⟩

/-- The `optimizedSchedule` of a built response is the map of `scheduleEntry` over the optimized
tasks. -/
theorem buildScheduleResponse_entries (env : Env) (preferences : Preferences)
    (optimizedTasks : List Task) (resp : ScheduleResponse)
    (h : buildScheduleResponse env preferences optimizedTasks = .ok resp) :
    mapExcept (scheduleEntry env) 0 optimizedTasks = .ok resp.optimizedSchedule := by
  unfold buildScheduleResponse at h
  simp only at h
  cases hg : groupTasksByCategory optimizedTasks with
  | error e => simp [hg] at h
  | ok cats =>
    cases hm : mapExcept (scheduleEntry env) 0 optimizedTasks with
    | error e => simp [hg, hm] at h
    | ok es =>
      simp [hg, hm] at h
      rw [← h]

/-- The inner loop of `detectTimeConflicts` adds the number of overlapping tasks in the scanned
range. -/
theorem innerLoop_count (tasks : List Task) (i : ℕ) (task1 : Task)
    (h1 : tasks.get? i = some task1) :
    ∀ (n s c : ℕ), (List.range' s n).foldl (fun conflicts j =>
      match tasks.get? i, tasks.get? j with
      | some task1, some task2 =>
        if timesOverlap task1 task2 then conflicts + 1 else conflicts
      | _, _ => conflicts) c
      = c + ((tasks.drop s).take n).countP (timesOverlap task1) := by
  intro n
  induction n with
  | zero => intro s c; simp
  | succ n ih =>
    intro s c
    rw [List.range'_succ, List.foldl_cons, ih]
    cases hs : tasks.get? s with
    | none =>
      have hlen : tasks.length ≤ s := by
        rw [List.get?_eq_none] at hs; exact hs
      have hd : tasks.drop s = [] := List.drop_eq_nil_of_le hlen
      have hd1 : tasks.drop (s + 1) = [] := List.drop_eq_nil_of_le (by omega)
      simp [h1, hd, hd1]
    | some task2 =>
      have hlt : s < tasks.length := by
        have := List.get?_eq_some.mp hs
        exact this.1
      have hd : tasks.drop s = task2 :: tasks.drop (s + 1) := by
        rw [List.drop_eq_getElem_cons hlt]
        congr 1
        have := List.get?_eq_some.mp hs
        obtain ⟨_, h⟩ := this
        simpa using h
      simp only [h1, hs, hd, List.take_succ_cons, List.countP_cons]
      by_cases ho : timesOverlap task1 task2 = true
      · simp only [ho, if_true]; ring
      · simp only [ho, Bool.false_eq_true, if_false]; omega

/-- The outer loop of `detectTimeConflicts` over a suffix adds the pair count of that suffix. -/
theorem outerLoop_count (tasks : List Task) :
    ∀ (suffix pre : List Task) (c : ℕ), tasks = pre ++ suffix →
      (List.range' pre.length suffix.length).foldl (fun conflicts i =>
        (List.range' (i + 1) (tasks.length - (i + 1))).foldl (fun conflicts j =>
          match tasks.get? i, tasks.get? j with
          | some task1, some task2 =>
            if timesOverlap task1 task2 then conflicts + 1 else conflicts
          | _, _ => conflicts) conflicts) c
      = c + pairCount timesOverlap suffix := by
  intro suffix
  induction suffix with
  | nil => intro pre c _; simp [pairCount]
  | cons a rest ih =>
    intro pre c h
    have hget : tasks.get? pre.length = some a := by
      rw [h, List.get?_eq_getElem?, List.getElem?_append_right (le_refl _)]; simp
    have hdrop : tasks.drop (pre.length + 1) = rest := by
      rw [h]; simp
    have hlen : tasks.length - (pre.length + 1) = rest.length := by
      rw [h]; simp only [List.length_append, List.length_cons]; omega
    rw [List.length_cons, List.range'_succ, List.foldl_cons,
      innerLoop_count tasks pre.length a hget, hdrop, hlen, List.take_length]
    have h' : tasks = (pre ++ [a]) ++ rest := by rw [h]; simp
    have := ih (pre ++ [a]) (c + List.countP (timesOverlap a) rest) h'
    simp only [List.length_append, List.length_singleton] at this
    rw [this]
    simp only [pairCount]
    omega

/-- The nested loops of `detectTimeConflicts` count the overlapping pairs. -/
theorem detectTimeConflicts_eq_pairCount (tasks : List Task) :
    detectTimeConflicts tasks = pairCount timesOverlap tasks := by
  have := outerLoop_count tasks tasks [] 0 (by simp)
  simpa [detectTimeConflicts, List.range_eq_range'] using this

/-- The overlap test is symmetric. -/
theorem timesOverlap_comm (a b : Task) : timesOverlap a b = timesOverlap b a := by
  unfold timesOverlap
  by_cases ha : dateTruthy a.scheduledTime = true <;>
    by_cases hb : dateTruthy b.scheduledTime = true <;>
    simp [ha, hb, Bool.and_comm]

/-- The pair count of a symmetric test is invariant under permutation. -/
theorem pairCount_perm {α : Type} (p : α → α → Bool) (hp : ∀ a b, p a b = p b a)
    {l₁ l₂ : List α} (h : l₁.Perm l₂) : pairCount p l₁ = pairCount p l₂ := by
  induction h with
  | nil => rfl
  | cons a h ih => simp only [pairCount]; rw [ih, h.countP_eq]
  | swap a b l =>
    simp only [pairCount, List.countP_cons, hp a b]
    omega
  | trans _ _ ih₁ ih₂ => exact ih₁.trans ih₂

/-- Rounding a non-negative number gives a non-negative integer. -/
theorem mathRound_nonneg (x : ℚ) (hx : 0 ≤ x) : 0 ≤ mathRound x := by
  unfold mathRound
  exact Int.floor_nonneg.mpr (by linarith)

/-- Rounding a number that is at most the integer `n` gives at most `n`. -/
theorem mathRound_le (x : ℚ) (n : ℤ) (hx : x ≤ n) : mathRound x ≤ n := by
  unfold mathRound
  have h : ⌊x + 1 / 2⌋ < n + 1 := by
    rw [Int.floor_lt]
    push_cast
    linarith
  omega

/-- Rounding a number that is at least one half gives a positive integer. -/
theorem mathRound_pos (x : ℚ) (hx : 1 / 2 ≤ x) : 0 < mathRound x := by
  unfold mathRound
  have : (1 : ℤ) ≤ ⌊x + 1 / 2⌋ := by
    rw [Int.le_floor]
    push_cast
    linarith
  omega

/-- A number below a non-negative double has its double below it as well. -/
theorem toDouble_le_of_le (q c : ℚ) (hc0 : 0 ≤ c) (hc : toDouble c = c) (h : q ≤ c) :
    toDouble q ≤ c := by
  rcases le_total 0 q with h0 | h0
  · have hm := toDouble_mono q c h0 h
    rw [hc] at hm
    exact hm
  · exact le_trans (toDouble_nonpos q h0) hc0

/-- The efficiency score never exceeds 1. -/
theorem calculateEfficiency_le_one (tasks : List Task) (preferences : Preferences) :
    calculateEfficiency tasks preferences ≤ 1 := by
  unfold calculateEfficiency
  split_ifs
  · norm_num
  · simp only
    generalize toDouble (min (toDouble (totalDuration tasks / (8 * 60))) 1 +
      min (toDouble (((tasks.filter isHighPriority).length : ℚ) * toDouble (1 / 10)))
        (toDouble (3 / 10))) = x
    have h100 : min x 1 * 100 ≤ 100 := by
      have := min_le_right x 1
      linarith
    have h1 : toDouble 100 = 100 := by
      have := toDouble_int 100 (by norm_num)
      exact_mod_cast this
    have hd := toDouble_le_of_le (min x 1 * 100) 100 (by norm_num) h1 h100
    have h := mathRound_le (toDouble (min x 1 * 100)) 100 (by exact_mod_cast hd)
    have hq : (mathRound (toDouble (min x 1 * 100)) : ℚ) ≤ 100 := by exact_mod_cast h
    linarith

/-- A truthy numeric field holds a non-zero number. -/
theorem numTruthy_true (o : Option ℚ) (h : numTruthy o = true) : ∃ q, o = some q ∧ q ≠ 0 := by
  cases o with
  | none => simp [numTruthy] at h
  | some q => exact ⟨q, rfl, by simpa [numTruthy] using h⟩

/-- A task that passes the validation has a truthy duration or truthy hours. -/
theorem validateTasks_duration (task : Task) (hvalid : validateTasks [task] = none) :
    numTruthy task.estimatedDuration = true ∨ numTruthy task.estimatedHours = true := by
  cases h1 : numTruthy task.estimatedDuration with
  | true => exact Or.inl rfl
  | false =>
    cases h2 : numTruthy task.estimatedHours with
    | true => exact Or.inr rfl
    | false =>
      simp only [validateTasks, h1, h2] at hvalid
      split_ifs at hvalid with _ hc
      exact absurd rfl hc

/-- A truthy declared duration is the normalized duration. -/
theorem normalizedDuration_of_declared (task : Task) (d : ℚ)
    (hn : numTruthy task.estimatedDuration = true) (hd : task.estimatedDuration = some d) :
    normalizedDuration task = d := by
  unfold normalizedDuration
  rw [if_pos hn, hd]
  rfl

/-- Without a truthy declared duration, truthy hours give the normalized
duration: the double product of the hours by 60, rounded. -/
theorem normalizedDuration_of_hours (task : Task) (h : ℚ)
    (hn : numTruthy task.estimatedDuration = false)
    (ht : numTruthy task.estimatedHours = true) (hh : task.estimatedHours = some h) :
    normalizedDuration task = mathRound (toDouble (toDouble h * 60)) := by
  unfold normalizedDuration
  rw [if_neg (by rw [hn]; exact Bool.false_ne_true)]
  rw [if_pos ht, hh]
  rfl

/-- Half a minute, given in hours, is read and multiplied back to one half. -/
theorem toDouble_half_minute : toDouble (toDouble (1 / 120) * 60) = 1 / 2 := by decide!

/-- Hours of at least 1/120 give a double product of at least one half. -/
theorem hours_product_ge_half (h : ℚ) (hh : 1 / 120 ≤ h) :
    1 / 2 ≤ toDouble (toDouble h * 60) := by
  have h1 : toDouble (1 / 120) ≤ toDouble h := toDouble_mono _ _ (by norm_num) hh
  have h0 : 0 ≤ toDouble (1 / 120) := toDouble_nonneg _ (by norm_num)
  have h2 := toDouble_mono (toDouble (1 / 120) * 60) (toDouble h * 60) (by positivity)
    (by linarith)
  rw [toDouble_half_minute] at h2
  exact h2

/-- For a non-empty recommendation list the improvement percentage is the number max(round(100 ×
high / total), 15), which is at least 15. -/
theorem analytics_improvement_of_nonempty (recommendations : List Recommendation)
    (h : recommendations ≠ []) :
    ∃ n : ℤ, (recommendationAnalytics recommendations).improvementPercentage = .fin n ∧
      n = max (mathRound (100 * (countPriority recommendations "high" : ℚ)
        / (recommendations.length : ℚ))) 15 ∧ 15 ≤ n := by
  have hlen : (recommendations.length : ℚ) ≠ 0 := by
    have : recommendations.length ≠ 0 := by
      intro h0; exact h (List.length_eq_zero.mp h0)
    exact_mod_cast this
  refine ⟨max (mathRound (100 * (countPriority recommendations "high" : ℚ)
        / (recommendations.length : ℚ))) 15, ?_, rfl, le_max_right _ _⟩
  simp only [recommendationAnalytics, JSNum.div, hlen, if_false, JSNum.mul, JSNum.round, JSNum.max]
  congr 1
  push_cast
  congr 2
  ring_nf

/-- A reply that passes the validation is returned unchanged. -/
theorem optimizeScheduleWithGemini_ok (gemini : Except JSError ScheduleReply) (r : ScheduleReply)
    (h : optimizeScheduleWithGemini gemini = .ok r) : gemini = .ok r := by
  unfold optimizeScheduleWithGemini at h
  cases gemini with
  | error e => simp at h
  | ok r' =>
    simp only at h
    split_ifs at h
    simp at h
    rw [h]

/-! ### The schedule fallback (C1) -/

/-- Claim C1 fails on the code: for a single task whose `scheduledDate` is not a
date and an empty history, `fallbackOptimizeSchedule` does not return a
scheduled task but raises the `TypeError` of the assignment to the `const`
binding in `calculateOptimalTime`, whatever the clock and time zone. -/
theorem fallbackOptimizeSchedule_raises_on_unparseable_date (env : Env) :
    fallbackOptimizeSchedule env [unparseableDateTask] (some [])
      = .error (.typeError "Assignment to constant variable.") := by
  rfl

/-! ### Priority of the task analysis (C2) -/

/-- Claim C2, as stated, fails: a declared priority outside the enumeration is
returned verbatim as `analysis.priority`. -/
theorem analysis_priority_counterexample :
    strTruthy criticalRequest.userInput = true ∧
    analyzeTaskWithGemini (.ok reportReply) = .ok reportReply ∧
    ∃ analysis, analyzeTaskRoute criticalRequest (.ok reportReply) = .ok analysis ∧
      analysis.priority = .str "critical" ∧ analysis.priority ∉ priorityEnum :=
  ⟨by decide, by decide, _, rfl, by decide, by decide⟩

/-- Claim C2 (amended): for every request with a non-empty `userInput` whose
declared priority is absent (falsy) or itself one of the four values, and every
model reply that passes the validation, the handler answers 200 and
`analysis.priority` is one of low, medium, high, urgent. -/
theorem analysis_priority_in_enum (req : AnalysisRequest)
    (gemini : Except JSError AnalysisReply) (reply : AnalysisReply)
    (hinput : strTruthy req.userInput = true)
    (hvalid : analyzeTaskWithGemini gemini = .ok reply)
    (hdecl : req.priority.truthy = false ∨ req.priority ∈ priorityEnum) :
    ∃ analysis, analyzeTaskRoute req gemini = .ok analysis ∧
      analysis.priority ∈ priorityEnum := by
  refine ⟨buildAnalysis req reply, ?_, ?_⟩
  · simp [analyzeTaskRoute, hinput, hvalid]
  · simp only [buildAnalysis]
    rcases hdecl with h | h
    · simp only [h, Bool.false_eq_true, if_false]
      exact mapPriority_mem _
    · split_ifs
      · exact h
      · exact mapPriority_mem _

/-- Witness for C2 (amended): the first end-to-end scenario, without a declared
priority. -/
theorem analysis_priority_in_enum_witness :
    strTruthy plainRequest.userInput = true ∧
    analyzeTaskWithGemini (.ok reportReply) = .ok reportReply ∧
    (plainRequest.priority.truthy = false ∨ plainRequest.priority ∈ priorityEnum) ∧
    ∃ analysis, analyzeTaskRoute plainRequest (.ok reportReply) = .ok analysis ∧
      analysis.priority ∈ priorityEnum :=
  ⟨by decide, by decide, by decide,
    analysis_priority_in_enum plainRequest (.ok reportReply) reportReply
      (by decide) (by decide) (by decide)⟩

/-! ### Cardinality of the optimized set (C3) -/

/-- Claim C3, as stated, fails: a valid reply with an empty `optimizedTasks`
array makes `optimizeSchedule` return no task for an input list of one. -/
theorem optimizeSchedule_cardinality_counterexample :
    optimizeScheduleWithGemini emptyReply = emptyReply ∧
    ∃ out, optimizeSchedule env0 [sampleTask] (some []) emptyReply = .ok out ∧
      out.length = 0 ∧ out.length ≠ [sampleTask].length :=
  ⟨by decide, [], by decide, by decide, by decide⟩

/-- Claim C3 (amended): with no date involved unparseable or at the edge of the
Date range, `optimizeSchedule` always returns a list; it has as many tasks as
the `optimizedTasks` array of the reply when the reply passes the validation
(whatever the length of the input list), and as many tasks as the input list
when the model call fails or its reply is rejected and the fallback runs. -/
theorem optimizeSchedule_cardinality (env : Env) (tasks : List Task)
    (taskHistory : Option (List HistoryTask)) (gemini : Except JSError ScheduleReply)
    (hnow : dateInRange env.now = true) :
    (∀ r, optimizeScheduleWithGemini gemini = .ok r →
      (∀ t ∈ r.optimizedTasks.elems,
        dateTruthy t.scheduledTime = true ∨ stampable t.scheduledDate = true) →
      ∃ out, optimizeSchedule env tasks taskHistory gemini = .ok out ∧
        out.length = r.optimizedTasks.elems.length) ∧
    (∀ e, optimizeScheduleWithGemini gemini = .error e →
      (∀ t ∈ tasks, stampable t.scheduledDate = true) →
      ∃ out, optimizeSchedule env tasks taskHistory gemini = .ok out ∧
        out.length = tasks.length) := by
  constructor
  · intro r hv hreply
    obtain ⟨out, hout⟩ := mapExcept_ok (geminiTask env r) r.optimizedTasks.elems 0
      (fun a ha n => geminiTask_ok env r a n hnow (hreply a ha))
    refine ⟨out, ?_, mapExcept_length _ _ _ _ hout⟩
    simp [optimizeSchedule, hv, hout]
  · intro e hv hin
    obtain ⟨out, hout, hlen⟩ := fallbackOptimizeSchedule_ok env tasks taskHistory hnow hin
    exact ⟨out, by simp [optimizeSchedule, hv, hout], hlen⟩

/-- Witness for C3 (amended): one input task; a valid reply with two tasks
gives two tasks, a failed model call gives one. -/
theorem optimizeSchedule_cardinality_witness :
    dateInRange env0.now = true ∧
    (∃ out, optimizeSchedule env0 [sampleTask] (some []) twoTaskReply = .ok out ∧
      out.length = 2) ∧
    (∃ out, optimizeSchedule env0 [sampleTask] (some []) unavailable = .ok out ∧
      out.length = 1) :=
  ⟨by decide,
    (optimizeSchedule_cardinality env0 [sampleTask] (some []) twoTaskReply (by decide)).1
      _ rfl (by decide),
    (optimizeSchedule_cardinality env0 [sampleTask] (some []) unavailable (by decide)).2
      _ rfl (by decide)⟩

/-! ### End time of the scheduled tasks (C4) -/

/-- Claim C4, as stated, fails: a task with a negative `estimatedDuration` passes
the validation, and its entry in the response ends before it starts. -/
theorem optimizedSchedule_endTime_counterexample :
    optimizeScheduleRoute env0 negativeDurationRequest unavailable
      = .ok negativeDurationResponse ∧
    negativeDurationEntry ∈ negativeDurationResponse.optimizedSchedule ∧
    negativeDurationEntry.startTime = some (.parses 1699952400000) ∧
    negativeDurationEntry.endTime = .parses 1699950600000 ∧
    ¬ ((1699952400000 : ℤ) < 1699950600000) :=
  ⟨by decide!, by decide, rfl, rfl, by decide⟩

/-- Claim C4 (amended): in every 200 response of the handler, the entry of an
optimized task that starts at the instant `t` and whose `estimatedDuration` is
positive and a whole number `m` of milliseconds has `endTime` equal to `t + m`,
that is `startTime` plus `estimatedDuration` minutes, strictly after
`startTime`. -/
theorem optimizedSchedule_endTime (env : Env) (req : OptimizeRequest)
    (gemini : Except JSError ScheduleReply) (resp : ScheduleResponse)
    (tasksInMinutes optimizedTasks : List Task) (i : ℕ) (task : Task) (t m : ℤ) (d : ℚ)
    (hresp : optimizeScheduleRoute env req gemini = .ok resp)
    (hreq : validateRequest req = .ok tasksInMinutes)
    (hopt : optimizeSchedule env tasksInMinutes (some []) gemini = .ok optimizedTasks)
    (htask : optimizedTasks.get? i = some task)
    (hstart : task.scheduledTime = some (.parses t))
    (hdur : task.estimatedDuration = some d)
    (hpos : 0 < d) (hms : d * 60000 = m) :
    ∃ entry, resp.optimizedSchedule.get? i = some entry ∧
      entry.startTime = some (.parses t) ∧ entry.endTime = .parses (t + m) ∧ t < t + m := by
  obtain ⟨tim, ot, h1, h2, h3⟩ := route_ok_entries env req gemini resp hresp
  rw [hreq] at h1
  cases h1
  rw [hopt] at h2
  cases h2
  have hmap := buildScheduleResponse_entries env req.preferences _ resp h3
  obtain ⟨entry, he, hf⟩ := mapExcept_get? _ _ _ _ hmap i task htask
  refine ⟨entry, he, ?_⟩
  unfold scheduleEntry at hf
  cases hc : calculateEndTime env task.scheduledTime task.estimatedDuration with
  | error e => simp [hc] at hf
  | ok endTime =>
    simp [hc] at hf
    rw [hstart, hdur] at hc
    have hend := calculateEndTime_parses env t m d endTime hc hms
    have hmpos : 0 < m := by
      have : (0 : ℚ) < (m : ℚ) := by rw [← hms]; positivity
      exact_mod_cast this
    subst hf
    exact ⟨hstart, hend, by omega⟩

/-- Witness for C4 (amended): the sample task scheduled by the fallback, 90
minutes from 09:00. -/
theorem optimizedSchedule_endTime_witness :
    optimizeScheduleRoute env0 sampleRequest unavailable = .ok sampleResponse ∧
    validateRequest sampleRequest = .ok [sampleTask] ∧
    optimizeSchedule env0 [sampleTask] (some []) unavailable = .ok [sampleOptimized] ∧
    ∃ entry, sampleResponse.optimizedSchedule.get? 0 = some entry ∧
      entry.startTime = some (.parses 1699952400000) ∧
      entry.endTime = .parses (1699952400000 + 5400000) ∧
      (1699952400000 : ℤ) < 1699952400000 + 5400000 :=
  ⟨by decide!, by decide!, by decide!,
    optimizedSchedule_endTime env0 sampleRequest unavailable sampleResponse [sampleTask]
      [sampleOptimized] 0 sampleOptimized 1699952400000 5400000 90
      (by decide!) (by decide!) (by decide!) rfl rfl rfl (by norm_num) (by norm_num)⟩

/-! ### Order independence of the conflict count (C5) -/

/-- Claim C5: `detectTimeConflicts` is order-independent; the conflict count of
every permutation of a task list equals the conflict count of the list. -/
theorem detectTimeConflicts_perm (tasks permuted : List Task) (h : tasks.Perm permuted) :
    detectTimeConflicts permuted = detectTimeConflicts tasks := by
  rw [detectTimeConflicts_eq_pairCount, detectTimeConflicts_eq_pairCount]
  exact (pairCount_perm timesOverlap timesOverlap_comm h).symm

/-- Witness for C5: two overlapping tasks and a third one, in two orders. -/
theorem detectTimeConflicts_perm_witness :
    List.Perm [sampleOptimized, sampleTask, sampleOptimized]
      [sampleTask, sampleOptimized, sampleOptimized] ∧
    detectTimeConflicts [sampleTask, sampleOptimized, sampleOptimized]
      = detectTimeConflicts [sampleOptimized, sampleTask, sampleOptimized] :=
  ⟨List.Perm.swap _ _ _,
    detectTimeConflicts_perm [sampleOptimized, sampleTask, sampleOptimized]
      [sampleTask, sampleOptimized, sampleOptimized] (List.Perm.swap _ _ _)⟩

/-! ### Efficiency score (C6) -/

/-- Claim C6, as stated, fails: for the one task with a duration of -30 minutes,
which passes the validation of the handler, the efficiency score is -0.06. -/
theorem calculateEfficiency_counterexample :
    calculateEfficiency [negativeDurationTask] {} = -3 / 50 ∧
    ¬ (0 ≤ calculateEfficiency [negativeDurationTask] {} ∧
        calculateEfficiency [negativeDurationTask] {} ≤ 1) := by
  have h : calculateEfficiency [negativeDurationTask] {} = -3 / 50 := by decide!
  refine ⟨h, ?_⟩
  rw [h]; norm_num

/-- Claim C6 (amended): for every task list whose durations add up to a
non-negative total, and for all priorities and preferences, the efficiency
score returned by `calculateEfficiency` lies in the closed interval [0,1]. -/
theorem calculateEfficiency_bounds (tasks : List Task) (preferences : Preferences)
    (h : 0 ≤ totalDuration tasks) :
    0 ≤ calculateEfficiency tasks preferences ∧ calculateEfficiency tasks preferences ≤ 1 := by
  refine ⟨?_, calculateEfficiency_le_one tasks preferences⟩
  unfold calculateEfficiency
  split_ifs
  · exact le_refl _
  · simp only
    have h1 : (0 : ℚ) ≤ min (toDouble (totalDuration tasks / (8 * 60))) 1 :=
      le_min (toDouble_nonneg _ (by positivity)) (by norm_num)
    have h2 : (0 : ℚ) ≤ min (toDouble (((tasks.filter isHighPriority).length : ℚ)
        * toDouble (1 / 10))) (toDouble (3 / 10)) :=
      le_min (toDouble_nonneg _ (mul_nonneg (by positivity) (toDouble_nonneg _ (by norm_num))))
        (toDouble_nonneg _ (by norm_num))
    have h3 : (0 : ℚ) ≤ min (toDouble (min (toDouble (totalDuration tasks / (8 * 60))) 1 +
        min (toDouble (((tasks.filter isHighPriority).length : ℚ) * toDouble (1 / 10)))
          (toDouble (3 / 10)))) 1 :=
      le_min (toDouble_nonneg _ (by linarith)) (by norm_num)
    have h4 := mathRound_nonneg _
      (toDouble_nonneg _ (mul_nonneg h3 (by norm_num : (0 : ℚ) ≤ 100)))
    have h5 : (0 : ℚ) ≤ (mathRound (toDouble (min (toDouble (min (toDouble
        (totalDuration tasks / (8 * 60))) 1 +
        min (toDouble (((tasks.filter isHighPriority).length : ℚ) * toDouble (1 / 10)))
          (toDouble (3 / 10)))) 1 * 100)) : ℚ) := by
      exact_mod_cast h4
    positivity

/-- Witness for C6 (amended): the sample task of 90 minutes. -/
theorem calculateEfficiency_bounds_witness :
    0 ≤ totalDuration [sampleOptimized] ∧
    0 ≤ calculateEfficiency [sampleOptimized] {} ∧
    calculateEfficiency [sampleOptimized] {} ≤ 1 :=
  ⟨by decide!, calculateEfficiency_bounds [sampleOptimized] {} (by decide!)⟩

/-! ### Improvement percentage of the schedule summary (C7) -/

/-- Claim C7: for every optimized task list, the `improvementPercentage` of the
summary equals max(round(100 × (efficiency − 0.7) / 0.7), 0), where efficiency
is the score of `calculateEfficiency` reported in the same summary; it is never
negative, and it is 0 whenever the efficiency score is at most 0.7. -/
theorem summary_improvementPercentage (optimizedTasks : List Task) (preferences : Preferences) :
    (scheduleSummary optimizedTasks preferences).efficiency
      = calculateEfficiency optimizedTasks preferences ∧
    (scheduleSummary optimizedTasks preferences).improvementPercentage
      = max (mathRound (100 * (calculateEfficiency optimizedTasks preferences - 7 / 10) / (7 / 10))) 0 ∧
    0 ≤ (scheduleSummary optimizedTasks preferences).improvementPercentage ∧
    (calculateEfficiency optimizedTasks preferences ≤ 7 / 10 →
      (scheduleSummary optimizedTasks preferences).improvementPercentage = 0) := by
  have heq : (scheduleSummary optimizedTasks preferences).improvementPercentage
      = max (mathRound (100 * (calculateEfficiency optimizedTasks preferences - 7 / 10) / (7 / 10))) 0 := by
    simp only [scheduleSummary]
    congr 2
    ring
  refine ⟨rfl, heq, ?_, ?_⟩
  · rw [heq]; exact le_max_right _ _
  · intro hle
    rw [heq]
    apply max_eq_right
    apply mathRound_le
    have : 100 * (calculateEfficiency optimizedTasks preferences - 7 / 10) / (7 / 10) ≤ 0 := by
      apply div_nonpos_of_nonpos_of_nonneg
      · linarith
      · norm_num
    exact_mod_cast this

/-- Witness for C7: the sample schedule has efficiency 0.29, hence improvement 0. -/
theorem summary_improvementPercentage_witness :
    calculateEfficiency [sampleOptimized] {} ≤ 7 / 10 ∧
    (scheduleSummary [sampleOptimized] {}).improvementPercentage = 0 :=
  ⟨by decide!, (summary_improvementPercentage [sampleOptimized] {}).2.2.2 (by decide!)⟩

/-! ### Normalised duration (C8) -/

/-- Claim C8, as stated, fails: a task that declares a duration of -30 minutes
passes the validation and keeps -30 as its normalized `estimatedDuration`. -/
theorem normalizedDuration_counterexample :
    validateRequest negativeDurationRequest = .ok [toMinutes negativeDurationTask] ∧
    (toMinutes negativeDurationTask).estimatedDuration = some (-30) ∧
    normalizedDuration negativeDurationTask = -30 ∧
    ¬ (0 < normalizedDuration negativeDurationTask) := by
  have h : normalizedDuration negativeDurationTask = -30 := by decide!
  refine ⟨by decide!, by decide!, h, ?_⟩
  rw [h]; norm_num

/-- Claim C8 (amended): for every input task that passes the validation, whose
declared `estimatedDuration` is not negative and whose `estimatedHours`, when
they are the value used, are at least 1/120 (half a minute), the normalized
`estimatedDuration` is a positive number of minutes: the declared duration
when it is non-zero, otherwise the double product `estimatedHours` × 60
rounded to the nearest integer (so 1.025 hours, whose product is the double
61.49999999999999, give 61 minutes). -/
theorem normalizedDuration_pos (task : Task)
    (hvalid : validateTasks [task] = none)
    (hdur : ∀ d, task.estimatedDuration = some d → 0 ≤ d)
    (hhours : ∀ h, task.estimatedHours = some h →
      numTruthy task.estimatedDuration = false → 1 / 120 ≤ h) :
    (toMinutes task).estimatedDuration = some (normalizedDuration task) ∧
    0 < normalizedDuration task ∧
    (numTruthy task.estimatedDuration = true →
      task.estimatedDuration = some (normalizedDuration task)) ∧
    (numTruthy task.estimatedDuration = false →
      ∃ h, task.estimatedHours = some h ∧
        normalizedDuration task = mathRound (toDouble (toDouble h * 60))) := by
  cases hn : numTruthy task.estimatedDuration with
  | true =>
    obtain ⟨d, hd, hne⟩ := numTruthy_true _ hn
    have hnd := normalizedDuration_of_declared task d hn hd
    refine ⟨rfl, ?_, fun _ => by rw [hnd, hd], fun hf => by simp at hf⟩
    rw [hnd]
    exact lt_of_le_of_ne (hdur d hd) (Ne.symm hne)
  | false =>
    have ht : numTruthy task.estimatedHours = true := by
      rcases validateTasks_duration task hvalid with h | h
      · rw [hn] at h; simp at h
      · exact h
    obtain ⟨h, hh, _⟩ := numTruthy_true _ ht
    have hnd := normalizedDuration_of_hours task h hn ht hh
    refine ⟨rfl, ?_, fun hf => by simp at hf, fun _ => ⟨h, hh, hnd⟩⟩
    rw [hnd]
    have h120 := hhours h hh hn
    have hpos : 0 < mathRound (toDouble (toDouble h * 60)) :=
      mathRound_pos _ (hours_product_ge_half h h120)
    exact_mod_cast hpos

/-- Witness for C8 (amended): a task of 1.025 hours is given 61 minutes. -/
theorem normalizedDuration_pos_witness :
    validateTasks [fractionalHoursTask] = none ∧
    normalizedDuration fractionalHoursTask = 61 ∧
    (toMinutes fractionalHoursTask).estimatedDuration
      = some (normalizedDuration fractionalHoursTask) ∧
    0 < normalizedDuration fractionalHoursTask ∧
    (numTruthy fractionalHoursTask.estimatedDuration = true →
      fractionalHoursTask.estimatedDuration = some (normalizedDuration fractionalHoursTask)) ∧
    (numTruthy fractionalHoursTask.estimatedDuration = false →
      ∃ h, fractionalHoursTask.estimatedHours = some h ∧
        normalizedDuration fractionalHoursTask = mathRound (toDouble (toDouble h * 60))) :=
  ⟨by decide!, by decide!, normalizedDuration_pos fractionalHoursTask (by decide!)
    (by intro d hd; simp [fractionalHoursTask] at hd)
    (by intro h hh _; simp [fractionalHoursTask] at hh; rw [← hh]; norm_num)⟩

/-! ### The task array of a schedule request (C9) -/

/-- Claim C9, as stated, fails: a request whose `tasks` value is the empty array
passes the validation, is handed to the optimizer with zero tasks and is
answered with a 200 response. -/
theorem tasks_array_counterexample :
    inputTasksOf emptyRequest = .array [] ∧
    validateRequest emptyRequest = .ok [] ∧
    optimizeScheduleRoute env0 emptyRequest unavailable = .ok emptyResponse :=
  ⟨by decide, by decide, by decide!⟩

/-- Claim C9 (amended): schedule optimization requires a task array. A request
whose `tasks || newTasks` value is missing or not an array is rejected with
HTTP 400 `tasks array is required` before the optimizer is called, whatever the
model would answer; an empty array passes and is handed to the optimizer as an
empty task list. -/
theorem tasks_array_required (req : OptimizeRequest) :
    ((inputTasksOf req).isArray = false →
      validateRequest req = .error ("tasks array is required", "MISSING_REQUIRED_FIELD") ∧
      ∀ (env : Env) (gemini : Except JSError ScheduleReply),
        optimizeScheduleRoute env req gemini
          = .fail 400 "tasks array is required" "MISSING_REQUIRED_FIELD") ∧
    (inputTasksOf req = .array [] → validateRequest req = .ok []) := by
  constructor
  · intro h
    have hv : validateRequest req
        = .error ("tasks array is required", "MISSING_REQUIRED_FIELD") := by
      simp [validateRequest, h]
    exact ⟨hv, fun env gemini => by simp [optimizeScheduleRoute, hv]⟩
  · intro h
    simp [validateRequest, h, TasksField.truthy, TasksField.isArray, TasksField.elems,
      validateTasks]

/-- Witness for C9 (amended): a request whose `tasks` value is a string. -/
theorem tasks_array_required_witness :
    (inputTasksOf stringTasksRequest).isArray = false ∧
    validateRequest stringTasksRequest
      = .error ("tasks array is required", "MISSING_REQUIRED_FIELD") ∧
    optimizeScheduleRoute env0 stringTasksRequest twoTaskReply
      = .fail 400 "tasks array is required" "MISSING_REQUIRED_FIELD" :=
  ⟨by decide, ((tasks_array_required stringTasksRequest).1 (by decide)).1,
    ((tasks_array_required stringTasksRequest).1 (by decide)).2 env0 twoTaskReply⟩

/-! ### Improvement percentage of the recommendations (C10) -/

/-- Claim C10 fails on the code for the empty list: when the model returns an
empty `recommendations` array, `generateRecommendations` returns the empty list
and `analytics.improvementPercentage` is `NaN` (0 / 0), not a number of at
least 15. -/
theorem analytics_improvement_nan_on_empty (env : Env) (userId : Option String) :
    generateRecommendations env userId emptyRecommendations = [] ∧
    (recommendationAnalytics
      (generateRecommendations env userId emptyRecommendations)).improvementPercentage
      = JSNum.nan := by
  constructor
  · rfl
  · have h : generateRecommendations env userId emptyRecommendations = [] := rfl
    rw [h]
    simp [recommendationAnalytics, countPriority, JSNum.div, JSNum.mul, JSNum.round, JSNum.max]

/-! ### Types of the fallback recommendations (C11) -/

/-- Claim C11 fails on the code: whenever the model call fails, the two items of
the recommendation fallback have the types `productivity_tip` and
`habit_suggestion`, none of productivity, habit, schedule, goal, so the four
`byType` buckets of the analytics add up to 0 while `totalRecommendations` is 2. -/
theorem fallback_types_outside_buckets (env : Env) (userId : Option String) (e : JSError) :
    (generateRecommendations env userId (.error e)).map (fun r => r.recType)
      = [some "productivity_tip", some "habit_suggestion"] ∧
    (recommendationAnalytics (generateRecommendations env userId (.error e))).totalRecommendations
      = 2 ∧
    (recommendationAnalytics (generateRecommendations env userId (.error e))).productivity
      + (recommendationAnalytics (generateRecommendations env userId (.error e))).habit
      + (recommendationAnalytics (generateRecommendations env userId (.error e))).schedule
      + (recommendationAnalytics (generateRecommendations env userId (.error e))).goal = 0 := by
  have h : generateRecommendations env userId (.error e) = fallbackGenerateRecommendations userId :=
    rfl
  rw [h]
  refine ⟨rfl, rfl, ?_⟩
  simp [recommendationAnalytics, countType, fallbackGenerateRecommendations]

/-! ### The recommendation fallback (C12) -/

/-- Claim C12: for every failure of the model gateway and every reply that the
validation rejects, `generateRecommendations` does not raise and returns the
same fixed list of two items, whatever the userId, the user profile and the
context. -/
theorem generateRecommendations_fallback_fixed (env : Env) (userId : Option String)
    (userProfileJson contextJson : String)
    (gateway : String → Except JSError RecommendationsReply) (e : JSError)
    (hfail : generateRecommendationsWithGemini
      (gateway (recommendationsPrompt userProfileJson contextJson)) = .error e) :
    generateRecommendationsFor env userId userProfileJson contextJson gateway
      = fallbackGenerateRecommendations none ∧
    (generateRecommendationsFor env userId userProfileJson contextJson gateway).length = 2 := by
  have h : generateRecommendationsFor env userId userProfileJson contextJson gateway
      = fallbackGenerateRecommendations none := by
    simp only [generateRecommendationsFor, generateRecommendations, hfail]
    rfl
  exact ⟨h, by rw [h]; rfl⟩

/-- Witness for C12: a reply without a `recommendations` array, for a named user
with a profile. -/
theorem generateRecommendations_fallback_fixed_witness :
    generateRecommendationsWithGemini
      (invalidReplyGateway (recommendationsPrompt "\x7b\"goals\": []\x7d" "\x7b\x7d"))
      = .error (.error "Invalid recommendations result: missing recommendations array") ∧
    generateRecommendationsFor env0 (some "api-user-prod-key") "\x7b\"goals\": []\x7d" "\x7b\x7d"
        invalidReplyGateway
      = fallbackGenerateRecommendations none ∧
    (generateRecommendationsFor env0 (some "api-user-prod-key") "\x7b\"goals\": []\x7d" "\x7b\x7d"
        invalidReplyGateway).length = 2 :=
  ⟨rfl, generateRecommendations_fallback_fixed env0 (some "api-user-prod-key")
    "\x7b\"goals\": []\x7d" "\x7b\x7d" invalidReplyGateway _ rfl⟩

/-! ### The auth gate (C13, C14) -/

/-- A non-empty key is in `validApiKeys` exactly when it is allow-listed. -/
theorem mem_validApiKeys (cfg : ApiKeyConfig) (key : String) (hkey : key ≠ "") :
    key ∈ validApiKeys cfg ↔ allowListed cfg key := by
  obtain ⟨w, d, a⟩ := cfg
  unfold validApiKeys allowListed
  simp only [List.mem_map, List.mem_filter, List.mem_cons, List.mem_singleton,
    List.not_mem_nil, or_false]
  constructor
  · rintro ⟨o, ⟨ho, _⟩, hget⟩
    rcases ho with ho | ho | ho | ho
    · subst ho
      cases w with
      | none => left; simpa [strTruthy] using hget.symm
      | some s =>
        by_cases hs : s = ""
        · left; simpa [strTruthy, hs] using hget.symm
        · right; left; simpa [strTruthy, hs] using hget
    · subst ho
      cases o with
      | none => exact absurd hget.symm (by simpa using hkey)
      | some s => right; right; left; simpa using hget
    · subst ho
      cases o with
      | none => exact absurd hget.symm (by simpa using hkey)
      | some s => right; right; right; simpa using hget
    · subst ho
      left; simpa using hget.symm
  · rintro (h | h | h | h)
    · exact ⟨some "dev-secret-key", ⟨by simp, by simp [strTruthy]⟩, by simp [h]⟩
    · subst h
      exact ⟨some key, ⟨by simp [strTruthy, hkey], by simp [strTruthy, hkey]⟩, by simp⟩
    · subst h
      exact ⟨some key, ⟨by simp, by simp [strTruthy, hkey]⟩, by simp⟩
    · subst h
      exact ⟨some key, ⟨by simp, by simp [strTruthy, hkey]⟩, by simp⟩
/-- Claim C13: on a path that is not exempt, the decision of the auth gate
depends only on the X-API-Key header (and the configured keys): a missing or
empty key gives 401 `API key required`; a key outside the allow-list (the
configured keys plus `dev-secret-key`) gives 401 `Invalid API key`; a key in
the allow-list passes, with userId `api-user-` followed by its first 8
characters. -/
theorem authMiddleware_decision (cfg : ApiKeyConfig) (path : String) (apiKey : Option String)
    (hpath : ¬ exemptPath path) :
    (strTruthy apiKey = false →
      authMiddleware cfg path apiKey
        = .reject 401 "API key required" "Please provide X-API-Key header") ∧
    (∀ key, apiKey = some key → key ≠ "" → ¬ allowListed cfg key →
      authMiddleware cfg path apiKey
        = .reject 401 "Invalid API key" "The provided API key is not valid") ∧
    (∀ key, apiKey = some key → key ≠ "" → allowListed cfg key →
      authMiddleware cfg path apiKey = .next (some ("api-user-" ++ key.take 8))) ∧
    (∀ other, ¬ exemptPath other →
      authMiddleware cfg other apiKey = authMiddleware cfg path apiKey) := by
  have hp : ¬ (path = "/health" ∨ path = "/" ∨ path = "/test-ai") := hpath
  refine ⟨?_, ?_, ?_, ?_⟩
  · intro h
    simp [authMiddleware, hp, h]
  · intro key hk hne hnot
    subst hk
    have ht : strTruthy (some key) = true := by simp [strTruthy, hne]
    have hmem : key ∉ validApiKeys cfg := fun h => hnot ((mem_validApiKeys cfg key hne).mp h)
    simp [authMiddleware, hp, ht, hmem]
  · intro key hk hne hin
    subst hk
    have ht : strTruthy (some key) = true := by simp [strTruthy, hne]
    have hmem : key ∈ validApiKeys cfg := (mem_validApiKeys cfg key hne).mpr hin
    simp [authMiddleware, hp, ht, hmem]
  · intro other ho
    have ho' : ¬ (other = "/health" ∨ other = "/" ∨ other = "/test-ai") := ho
    simp [authMiddleware, hp, ho']

/-- Witness for C13: `POST /api/v1/recommendations` without a key, with a wrong
key and with the configured key. -/
theorem authMiddleware_decision_witness :
    ¬ exemptPath "/api/v1/recommendations" ∧
    authMiddleware sampleKeys "/api/v1/recommendations" none
      = .reject 401 "API key required" "Please provide X-API-Key header" ∧
    authMiddleware sampleKeys "/api/v1/recommendations" (some "wrong")
      = .reject 401 "Invalid API key" "The provided API key is not valid" ∧
    authMiddleware sampleKeys "/api/v1/recommendations" (some "prod-key-12345678")
      = .next (some "api-user-prod-key") :=
  ⟨by decide,
    (authMiddleware_decision sampleKeys "/api/v1/recommendations" none (by decide)).1 rfl,
    (authMiddleware_decision sampleKeys "/api/v1/recommendations" (some "wrong")
      (by decide)).2.1 "wrong" rfl (by decide) (by decide),
    (authMiddleware_decision sampleKeys "/api/v1/recommendations" (some "prod-key-12345678")
      (by decide)).2.2.1 "prod-key-12345678" rfl (by decide) (by decide)⟩

/-- Claim C14, as stated, fails: a request to the vertex-ai-test route without an
X-API-Key header is answered 401 by the auth gate and does not reach the
handler. -/
theorem vertexAITest_counterexample :
    appDispatch sampleKeys "GET" "/api/v1/vertex-ai-test" none
      = .rejected 401 "API key required" "Please provide X-API-Key header" ∧
    appDispatch sampleKeys "GET" "/api/v1/vertex-ai-test" none
      ≠ .handled .vertexAITest none :=
  ⟨by decide, by decide⟩

/-- Claim C14 (amended): the vertex-ai-test route is mounted under `/api/v1`
behind the auth gate. Without an X-API-Key header a request to it is answered
401 `API key required`; with an allow-listed key it reaches the handler. The
unauthenticated connectivity probe is `GET /test-ai`. -/
theorem vertexAITest_requires_key (cfg : ApiKeyConfig) :
    appDispatch cfg "GET" "/api/v1/vertex-ai-test" none
      = .rejected 401 "API key required" "Please provide X-API-Key header" ∧
    (∀ key, key ≠ "" → allowListed cfg key →
      appDispatch cfg "GET" "/api/v1/vertex-ai-test" (some key)
        = .handled .vertexAITest (some ("api-user-" ++ key.take 8))) ∧
    appDispatch cfg "GET" "/test-ai" none = .handled .testAI none := by
  refine ⟨?_, ?_, ?_⟩
  · simp [appDispatch, authMiddleware, strTruthy]
  · intro key hne hin
    have hmem : key ∈ validApiKeys cfg := (mem_validApiKeys cfg key hne).mpr hin
    simp [appDispatch, authMiddleware, strTruthy, hne, hmem, apiRouter]
  · simp [appDispatch]

/-- Witness for C14 (amended): the development key reaches the handler. -/
theorem vertexAITest_requires_key_witness :
    appDispatch sampleKeys "GET" "/api/v1/vertex-ai-test" (some "dev-secret-key")
      = .handled .vertexAITest (some "api-user-dev-secr") :=
  (vertexAITest_requires_key sampleKeys).2.1 "dev-secret-key" (by decide) (by decide)

/-! ### Logging of the Model Gateway (C15) -/

/-- When the first candidate is read and parsed, two log entries are written: the
response preview and the keys of the result. -/
theorem readCandidate_ok {α : Type} (parser : JsonParser α) (operation : String)
    (c : Candidate) (r : α) (h : (readCandidate parser operation c).2 = .ok r) :
    (readCandidate parser operation c).1 =
      [ responseReceivedLog operation c,
        { severity := "INFO"
          message := operation ++ " completed successfully with Vertex AI"
          metadata := [("resultKeys", .strs (parser.keys r))] } ] := by
  unfold readCandidate at h ⊢
  by_cases hs : c.finishReason = "SAFETY"
  · simp [hs] at h
  · simp only [if_neg hs] at h ⊢
    cases hm : jsonMatch c.text with
    | none => simp [hm] at h
    | some span =>
      cases hp : parser.parse span with
      | error msg => simp [hm, hp] at h
      | ok parsed =>
        simp only [hm, hp] at h ⊢
        simp only [Except.ok.injEq] at h
        subst h
        rfl

/-- On the success path the gateway writes four log entries: the two written
before the provider call, the response preview and the keys of the result. -/
theorem callGeminiAPI_ok_logs {α : Type} (cfg : GeminiConfig) (parser : JsonParser α)
    (operation : String) (c : Candidate) (rest : List Candidate) (r : α)
    (h : (callGeminiAPI cfg parser (.response (c :: rest)) operation).2 = .ok r) :
    (callGeminiAPI cfg parser (.response (c :: rest)) operation).1 =
      gatewayStartLogs cfg operation ++
      [ responseReceivedLog operation c,
        { severity := "INFO"
          message := operation ++ " completed successfully with Vertex AI"
          metadata := [("resultKeys", .strs (parser.keys r))] } ] := by
  unfold callGeminiAPI callGeminiAPIBody at h ⊢
  cases hr : readCandidate parser operation c with
  | mk logs res =>
    cases res with
    | error msg => simp [hr] at h
    | ok parsed =>
      simp only [hr] at h ⊢
      simp only [Except.ok.injEq] at h
      subst h
      have h1 := readCandidate_ok parser operation c parsed (by rw [hr])
      rw [hr] at h1
      simp only at h1
      rw [h1]

/-- The length of a prefix is at most the requested number of characters. -/
theorem length_take_le (s : String) (n : ℕ) : (s.take n).length ≤ n := by
  rw [String.length, String.data_take, List.length_take]
  exact min_le_left _ _

/-- Claim C15, as stated, fails: when the reply contains no JSON,
`callGeminiAPI` writes a log entry whose `fullResponse` is the whole reply text,
here 150 characters. -/
theorem callGeminiAPI_logs_counterexample :
    longReply.length = 150 ∧
    (∃ entry ∈ (callGeminiAPI sampleGeminiConfig sampleParser
        (.response [{ finishReason := "STOP", text := longReply }]) "task analysis").1,
      entry.message = "No JSON found in response" ∧
      ("fullResponse", LogValue.str longReply) ∈ entry.metadata) :=
  ⟨by decide!, ⟨{ severity := "ERROR", message := "No JSON found in response"
                  metadata := [("fullResponse", .str longReply)] },
    by decide!, rfl, by simp⟩⟩

/-- Claim C15 (amended): on the success path the log entries written by
`callGeminiAPI` depend on the reply text only through its length and its first
100 characters, besides the finish reason and the keys of the parsed object:
two replies that agree on these produce the same log entries, and the logged
preview of the text has at most 103 characters (the first 100 and `...`). On
the failure paths after the reply has been read, the whole text, or the whole
extracted span, is logged. -/
theorem callGeminiAPI_success_logs {α : Type} (cfg : GeminiConfig) (parser : JsonParser α)
    (operation : String) (c₁ c₂ : Candidate) (rest₁ rest₂ : List Candidate) (r₁ r₂ : α)
    (h₁ : (callGeminiAPI cfg parser (.response (c₁ :: rest₁)) operation).2 = .ok r₁)
    (h₂ : (callGeminiAPI cfg parser (.response (c₂ :: rest₂)) operation).2 = .ok r₂)
    (hlen : c₁.text.length = c₂.text.length)
    (hfirst : c₁.text.take 100 = c₂.text.take 100)
    (hfinish : c₁.finishReason = c₂.finishReason)
    (hkeys : parser.keys r₁ = parser.keys r₂) :
    (callGeminiAPI cfg parser (.response (c₁ :: rest₁)) operation).1
      = (callGeminiAPI cfg parser (.response (c₂ :: rest₂)) operation).1 ∧
    (∀ entry ∈ (callGeminiAPI cfg parser (.response (c₁ :: rest₁)) operation).1,
      ∀ key value, (key, LogValue.str value) ∈ entry.metadata →
        key = "responsePreview" → value = c₁.text.take 100 ++ "..." ∧ value.length ≤ 103) := by
  rw [callGeminiAPI_ok_logs cfg parser operation c₁ rest₁ r₁ h₁,
    callGeminiAPI_ok_logs cfg parser operation c₂ rest₂ r₂ h₂]
  constructor
  · simp only [responseReceivedLog, hlen, hfirst, hfinish, hkeys]
  · intro entry hentry key value hmem hkey
    subst hkey
    have hv : value = c₁.text.take 100 ++ "..." := by
      simp only [gatewayStartLogs, responseReceivedLog, List.cons_append, List.nil_append,
        List.mem_cons, List.mem_singleton, List.not_mem_nil, or_false] at hentry
      rcases hentry with h | h | h | h <;> subst h <;> simp at hmem
      exact hmem
    refine ⟨hv, ?_⟩
    rw [hv, String.length_append]
    have := length_take_le c₁.text 100
    have h3 : "...".length = 3 := rfl
    omega
/-- Witness for C15 (amended): two replies of 131 characters that differ only
after their first 100 characters leave the same log entries. -/
theorem callGeminiAPI_success_logs_witness :
    padded 'a' ≠ padded 'b' ∧
    (callGeminiAPI sampleGeminiConfig sampleParser
        (.response [{ finishReason := "STOP", text := padded 'a' }]) "task analysis").2
      = .ok sampleSpan ∧
    (callGeminiAPI sampleGeminiConfig sampleParser
        (.response [{ finishReason := "STOP", text := padded 'a' }]) "task analysis").1
      = (callGeminiAPI sampleGeminiConfig sampleParser
        (.response [{ finishReason := "STOP", text := padded 'b' }]) "task analysis").1 :=
  ⟨by decide!, by decide!,
    (callGeminiAPI_success_logs sampleGeminiConfig sampleParser "task analysis"
      { finishReason := "STOP", text := padded 'a' } { finishReason := "STOP", text := padded 'b' }
      [] [] sampleSpan sampleSpan (by decide!) (by decide!) (by decide!) (by decide!) rfl rfl).1⟩

/-! ### Validation of the task analysis (C16) -/

/-- Claim C16: given the object parsed from the model reply,
`analyzeTaskWithGemini` fails with the missing-required-fields error exactly
when the object lacks a non-empty title or a non-empty description, and when
both are present it returns the object unchanged. -/
theorem analyzeTaskWithGemini_validation (result : AnalysisReply) :
    (analyzeTaskWithGemini (.ok result)
        = .error (.error "Invalid task analysis result: missing required fields") ↔
      (strTruthy result.title = false ∨ strTruthy result.description = false)) ∧
    (strTruthy result.title = true → strTruthy result.description = true →
      analyzeTaskWithGemini (.ok result) = .ok result) := by
  unfold analyzeTaskWithGemini
  cases ht : strTruthy result.title <;> cases hd : strTruthy result.description <;>
    simp [ht, hd]

/-- Witness for C16: the reply of the first end-to-end scenario is returned
unchanged, and a reply with an empty description is rejected. -/
theorem analyzeTaskWithGemini_validation_witness :
    analyzeTaskWithGemini (.ok reportReply) = .ok reportReply ∧
    analyzeTaskWithGemini (.ok { reportReply with description := some "" })
      = .error (.error "Invalid task analysis result: missing required fields") :=
  ⟨(analyzeTaskWithGemini_validation reportReply).2 (by decide) (by decide),
    (analyzeTaskWithGemini_validation { reportReply with description := some "" }).1.mpr
      (Or.inr (by decide))⟩

/-! ### The task-analysis prompt (C17) -/

/-- Text between a common prefix and a common suffix can be cancelled. -/
theorem append_cancel_mid (a x y b : String) (h : a ++ x ++ b = a ++ y ++ b) : x = y := by
  have h' := congrArg String.data h
  simp only [String.data_append] at h'
  have h2 := List.append_cancel_right h'
  have h3 := List.append_cancel_left h2
  exact String.ext h3

/-- Claim C17, as stated, fails: the prompt does not determine the pair
(userInput, scheduledDate). An absent date and the date text `未指定` give the
same prompt, and so do two requests with different inputs and different dates,
because both values are interpolated without escaping. -/
theorem analysisPrompt_counterexample :
    (("a", (none : Option String)) ≠ ("a", some "未指定") ∧
      analysisPrompt "a" none = analysisPrompt "a" (some "未指定")) ∧
    (("a", some ("b" ++ analysisPromptMiddle ++ "c"))
        ≠ ("a" ++ analysisPromptMiddle ++ "b", some "c") ∧
      analysisPrompt "a" (some ("b" ++ analysisPromptMiddle ++ "c"))
        = analysisPrompt ("a" ++ analysisPromptMiddle ++ "b") (some "c")) :=
  ⟨⟨by decide, by decide!⟩, ⟨by decide!, by decide!⟩⟩

/-- Claim C17 (amended): the prompt embeds its two inputs verbatim. Two requests
with the same userInput whose date texts differ (an absent or empty date read
as `未指定`) get different prompts, and two requests with the same date text
whose userInputs differ get different prompts. -/
theorem analysisPrompt_injective_in_each (u₁ u₂ : String) (d₁ d₂ : Option String) :
    (u₁ = u₂ → effectiveDate d₁ ≠ effectiveDate d₂ →
      analysisPrompt u₁ d₁ ≠ analysisPrompt u₂ d₂) ∧
    (effectiveDate d₁ = effectiveDate d₂ → u₁ ≠ u₂ →
      analysisPrompt u₁ d₁ ≠ analysisPrompt u₂ d₂) := by
  constructor
  · intro hu hd heq
    subst hu
    apply hd
    unfold analysisPrompt at heq
    exact append_cancel_mid (analysisPromptHead ++ u₁ ++ analysisPromptMiddle) _ _
      analysisPromptTail heq
  · intro hd hu heq
    apply hu
    unfold analysisPrompt at heq
    rw [hd] at heq
    have h : analysisPromptHead ++ u₁ ++ (analysisPromptMiddle ++ effectiveDate d₂ ++
        analysisPromptTail) = analysisPromptHead ++ u₂ ++ (analysisPromptMiddle ++
        effectiveDate d₂ ++ analysisPromptTail) := by
      simpa [String.append_assoc] using heq
    exact append_cancel_mid _ _ _ _ h

/-- Witness for C17 (amended): two dates for the same input, two inputs for the
same date. -/
theorem analysisPrompt_injective_in_each_witness :
    analysisPrompt "買い物" (some "2024-01-01") ≠ analysisPrompt "買い物" (some "2024-01-02") ∧
    analysisPrompt "買い物" none ≠ analysisPrompt "掃除" (some "") :=
  ⟨(analysisPrompt_injective_in_each "買い物" "買い物" (some "2024-01-01")
      (some "2024-01-02")).1 rfl (by decide),
    (analysisPrompt_injective_in_each "買い物" "掃除" none (some "")).2 (by decide) (by decide)⟩

/-! ### Priority of the scheduled tasks (C18) -/

/-- Every result of a successful `mapExcept` is the callback applied to an element
of the list. -/
theorem mapExcept_mem {α β : Type} (f : ℕ → α → Except JSError β) :
    ∀ (l : List α) (i : ℕ) (out : List β), mapExcept f i l = .ok out →
      ∀ b ∈ out, ∃ a ∈ l, ∃ n, f n a = .ok b := by
  intro l
  induction l with
  | nil =>
    intro i out h b hb
    simp [mapExcept] at h
    subst h
    simp at hb
  | cons x rest ih =>
    intro i out h b hb
    simp only [mapExcept] at h
    cases hf : f i x with
    | error e => simp [hf] at h
    | ok y =>
      cases hr : mapExcept f (i + 1) rest with
      | error e => simp [hf, hr] at h
      | ok ys =>
        simp [hf, hr] at h
        subst h
        rcases List.mem_cons.mp hb with hb | hb
        · subst hb
          exact ⟨x, List.mem_cons_self _ _, i, hf⟩
        · obtain ⟨a, ha, n, hn⟩ := ih (i + 1) ys hr b hb
          exact ⟨a, List.mem_cons_of_mem _ ha, n, hn⟩

/-- The fallback callback keeps the priority of the task. -/
theorem fallbackTask_priority (env : Env) (p : List ℚ) (n : ℕ) (task out : Task)
    (h : fallbackTask env p n task = .ok out) : out.priority = task.priority := by
  unfold fallbackTask at h
  cases hc : calculateOptimalTime env task.scheduledDate (findOptimalHour task p) with
  | error e => simp [hc] at h
  | ok st =>
    simp [hc] at h
    rw [← h]

/-- The callback of the model path keeps the priority of the task. -/
theorem geminiTask_priority (env : Env) (r : ScheduleReply) (n : ℕ) (task out : Task)
    (h : geminiTask env r n task = .ok out) : out.priority = task.priority := by
  unfold geminiTask at h
  simp only at h
  split at h
  · simp at h
  · rename_i st hst
    simp only [Except.ok.injEq] at h
    rw [← h]

/-- Every task returned by `optimizeSchedule` carries the priority of an input
task or of a task of the model reply. -/
theorem optimizeSchedule_priority (env : Env) (tasks : List Task)
    (taskHistory : Option (List HistoryTask)) (gemini : Except JSError ScheduleReply)
    (out : List Task) (h : optimizeSchedule env tasks taskHistory gemini = .ok out) :
    ∀ t ∈ out, ∃ source, (source ∈ tasks ∨
      ∃ r, gemini = .ok r ∧ source ∈ r.optimizedTasks.elems) ∧ t.priority = source.priority := by
  intro t ht
  unfold optimizeSchedule at h
  simp only at h
  have fallbackCase : fallbackOptimizeSchedule env tasks taskHistory = .ok out →
      ∃ source, (source ∈ tasks ∨ ∃ r, gemini = .ok r ∧ source ∈ r.optimizedTasks.elems) ∧
        t.priority = source.priority := by
    intro hf
    obtain ⟨a, ha, n, hn⟩ := mapExcept_mem _ _ _ _ hf t ht
    exact ⟨a, Or.inl ha, fallbackTask_priority env _ n a t hn⟩
  cases hv : optimizeScheduleWithGemini gemini with
  | error e =>
    simp only [hv] at h
    exact fallbackCase h
  | ok r =>
    have hg := optimizeScheduleWithGemini_ok gemini r hv
    simp only [hv] at h
    cases hm : mapExcept (geminiTask env r) 0 r.optimizedTasks.elems with
    | error e =>
      simp only [hm] at h
      exact fallbackCase h
    | ok ts =>
      simp only [hm, Except.ok.injEq] at h
      subst h
      obtain ⟨a, ha, n, hn⟩ := mapExcept_mem _ _ _ _ hm t ht
      exact ⟨a, Or.inr ⟨r, hg, ha⟩, geminiTask_priority env r n a t hn⟩

/-- The task list handed to the optimizer keeps the priorities of the request. -/
theorem validateRequest_priority (req : OptimizeRequest) (tasksInMinutes : List Task)
    (h : validateRequest req = .ok tasksInMinutes) :
    ∀ t ∈ tasksInMinutes, ∃ source ∈ (inputTasksOf req).elems, t.priority = source.priority := by
  intro t ht
  unfold validateRequest at h
  simp only at h
  split_ifs at h
  cases hv : validateTasks (inputTasksOf req).elems with
  | some err => simp [hv] at h
  | none =>
    simp only [hv, Except.ok.injEq] at h
    subst h
    obtain ⟨a, ha, hat⟩ := List.mem_map.mp ht
    exact ⟨a, ha, by rw [← hat]; rfl⟩

/-- Claim C18, as stated, fails: an input task with the numeric priority 4 comes
back with the priority 4, which is none of low, medium, high, urgent. -/
theorem optimizedSchedule_priority_counterexample :
    optimizeScheduleRoute env0 numericPriorityRequest unavailable
      = .ok numericPriorityResponse ∧
    numericPriorityEntry ∈ numericPriorityResponse.optimizedSchedule ∧
    numericPriorityEntry.priority = .num 4 ∧
    numericPriorityEntry.priority ∉ priorityEnum :=
  ⟨by decide!, by decide, rfl, by decide⟩

/-- Claim C18 (amended): in every optimize-schedule response, the priority of
every task in `optimizedSchedule` is the priority value of an input task or of
a task of the model reply, passed through unchanged; it is one of low, medium,
high, urgent exactly when that value already is. -/
theorem optimizedSchedule_priority (env : Env) (req : OptimizeRequest)
    (gemini : Except JSError ScheduleReply) (resp : ScheduleResponse)
    (hresp : optimizeScheduleRoute env req gemini = .ok resp) :
    ∀ entry ∈ resp.optimizedSchedule, ∃ source,
      (source ∈ (inputTasksOf req).elems ∨
        ∃ r, gemini = .ok r ∧ source ∈ r.optimizedTasks.elems) ∧
      entry.priority = source.priority ∧
      (entry.priority ∈ priorityEnum ↔ source.priority ∈ priorityEnum) := by
  intro entry hentry
  obtain ⟨tim, ot, h1, h2, h3⟩ := route_ok_entries env req gemini resp hresp
  have hmap := buildScheduleResponse_entries env req.preferences _ resp h3
  obtain ⟨task, htask, n, hn⟩ := mapExcept_mem _ _ _ _ hmap entry hentry
  have hep : entry.priority = task.priority := by
    unfold scheduleEntry at hn
    cases hc : calculateEndTime env task.scheduledTime task.estimatedDuration with
    | error e => simp [hc] at hn
    | ok endTime =>
      simp [hc] at hn
      rw [← hn]
  obtain ⟨mid, hmid, hmp⟩ := optimizeSchedule_priority env tim (some []) gemini ot h2 task htask
  rcases hmid with hmid | ⟨r, hr, hmid⟩
  · obtain ⟨source, hs, hsp⟩ := validateRequest_priority req tim h1 mid hmid
    exact ⟨source, Or.inl hs, by rw [hep, hmp, hsp], by rw [hep, hmp, hsp]⟩
  · exact ⟨mid, Or.inr ⟨r, hr, hmid⟩, by rw [hep, hmp], by rw [hep, hmp]⟩

/-- Witness for C18 (amended): the sample request, scheduled by the fallback. -/
theorem optimizedSchedule_priority_witness :
    optimizeScheduleRoute env0 sampleRequest unavailable = .ok sampleResponse ∧
    ∀ entry ∈ sampleResponse.optimizedSchedule, ∃ source,
      (source ∈ (inputTasksOf sampleRequest).elems ∨
        ∃ r, unavailable = .ok r ∧ source ∈ r.optimizedTasks.elems) ∧
      entry.priority = source.priority ∧
      (entry.priority ∈ priorityEnum ↔ source.priority ∈ priorityEnum) :=
  ⟨by decide!,
    optimizedSchedule_priority env0 sampleRequest unavailable sampleResponse (by decide!)⟩

/-! ### Generated subtasks (C19) -/

/-- For every title, `generateSubtasks` returns three subtasks. -/
theorem generateSubtasks_length (title : String) : (generateSubtasks title).length = 3 := by
  unfold generateSubtasks
  split_ifs <;> rfl

/-- The duration that the handler compares with 120 is the effective duration. -/
theorem handler_duration_eq (reply : AnalysisReply) :
    (if numTruthy reply.estimatedDuration then reply.estimatedDuration.getD 0 else 60)
      = effectiveDuration reply := by
  unfold effectiveDuration
  cases h : reply.estimatedDuration with
  | none => simp [numTruthy]
  | some d =>
    by_cases hd : d = 0
    · simp [numTruthy, hd]
    · simp [numTruthy, hd]

/-- A `subtasks_generated` action is among the execution actions exactly when the
effective duration exceeds 120; it then carries the generated subtasks. -/
theorem subtasksGenerated_mem (env : Env) (req : AnalysisRequest) (reply : AnalysisReply)
    (count : ℕ) (subtasks : List String) :
    AnalysisAction.subtasksGenerated count subtasks ∈ buildExecutionActions env req reply ↔
      (120 < effectiveDuration reply ∧
        count = (generateSubtasks (analysisTitle req reply)).length ∧
        subtasks = generateSubtasks (analysisTitle req reply)) := by
  unfold buildExecutionActions
  simp only [handler_duration_eq]
  by_cases hd : effectiveDuration reply > 120
  · rw [if_pos hd]
    simp only [List.mem_cons, List.mem_singleton, List.not_mem_nil, or_false,
      AnalysisAction.subtasksGenerated.injEq, false_or, reduceCtorEq]
    exact ⟨fun h => ⟨hd, h⟩, fun h => h.2⟩
  · rw [if_neg hd]
    simp only [List.mem_singleton, reduceCtorEq, false_iff]
    exact fun h => hd h.1

/-- Claim C19: for every request with a non-empty userInput and every model
reply that passes the validation, the `execution.actions` of the response
contain a `subtasks_generated` action exactly when the model's
`estimatedDuration` (taken as 60 when absent or zero) exceeds 120 minutes, and
such an action lists exactly 3 subtasks, for every title. -/
theorem subtasks_generated_iff (env : Env) (req : AnalysisRequest)
    (gemini : Except JSError AnalysisReply) (reply : AnalysisReply)
    (hinput : strTruthy req.userInput = true)
    (hvalid : analyzeTaskWithGemini gemini = .ok reply) :
    ∃ actions, analyzeTaskActions env req gemini = .ok actions ∧
      ((∃ count subtasks, AnalysisAction.subtasksGenerated count subtasks ∈ actions) ↔
        120 < effectiveDuration reply) ∧
      (∀ count subtasks, AnalysisAction.subtasksGenerated count subtasks ∈ actions →
        count = 3 ∧ subtasks.length = 3) := by
  refine ⟨buildExecutionActions env req reply, ?_, ?_, ?_⟩
  · simp [analyzeTaskActions, hinput, hvalid]
  · constructor
    · rintro ⟨count, subtasks, hmem⟩
      exact ((subtasksGenerated_mem env req reply count subtasks).mp hmem).1
    · intro hd
      exact ⟨_, _, (subtasksGenerated_mem env req reply _ _).mpr ⟨hd, rfl, rfl⟩⟩
  · intro count subtasks hmem
    obtain ⟨_, hc, hs⟩ := (subtasksGenerated_mem env req reply count subtasks).mp hmem
    rw [hc, hs]
    exact ⟨generateSubtasks_length _, generateSubtasks_length _⟩

/-- Witness for C19: the first end-to-end scenario, with a duration of 150
minutes. -/
theorem subtasks_generated_iff_witness :
    strTruthy plainRequest.userInput = true ∧
    analyzeTaskWithGemini (.ok reportReply) = .ok reportReply ∧
    120 < effectiveDuration reportReply ∧
    ∃ actions, analyzeTaskActions env0 plainRequest (.ok reportReply) = .ok actions ∧
      ((∃ count subtasks, AnalysisAction.subtasksGenerated count subtasks ∈ actions) ↔
        120 < effectiveDuration reportReply) ∧
      (∀ count subtasks, AnalysisAction.subtasksGenerated count subtasks ∈ actions →
        count = 3 ∧ subtasks.length = 3) :=
  ⟨by decide, by decide, by decide!,
    subtasks_generated_iff env0 plainRequest (.ok reportReply) reportReply (by decide)
      (by decide)⟩

/-! ### The stamped time (C20) -/

/-- Claim C20 fails on the code for a `scheduledDate` that is not a valid date:
`calculateOptimalTime` does not return the given hour on today's date but
raises the `TypeError` of the assignment to its `const` binding, for every
hour, clock and time zone. -/
theorem calculateOptimalTime_raises_on_invalid_date (env : Env) (optimalHour : ℤ) :
    calculateOptimalTime env (some (.unparseable "not-a-date")) optimalHour
      = .error (.typeError "Assignment to constant variable.") := by
  rfl

/-! ### Priority and complexity mapping (C21, C22) -/

/-- Claim C21: `mapPriority` maps a numeric priority p by buckets (p ≤ 1 low,
1 < p ≤ 2 medium, 2 < p ≤ 4 high, p > 4 urgent, so 3 gives high); a string
equal, ignoring case, to low, medium, high or urgent maps to that lower-case
value; every other value maps to medium. -/
theorem mapPriority_buckets (p : ℚ) (s : String) (b : Bool) :
    (p ≤ 1 → mapPriority (.num p) = "low") ∧
    (1 < p → p ≤ 2 → mapPriority (.num p) = "medium") ∧
    (2 < p → p ≤ 4 → mapPriority (.num p) = "high") ∧
    (4 < p → mapPriority (.num p) = "urgent") ∧
    mapPriority (.num 3) = "high" ∧
    (s.toLower ∈ ["low", "medium", "high", "urgent"] → mapPriority (.str s) = s.toLower) ∧
    (s.toLower ∉ ["low", "medium", "high", "urgent"] → mapPriority (.str s) = "medium") ∧
    mapPriority .undefined = "medium" ∧ mapPriority .null = "medium" ∧
    mapPriority (.bool b) = "medium" := by
  refine ⟨?_, ?_, ?_, ?_, ?_, ?_, ?_, rfl, rfl, rfl⟩
  · intro h; simp [mapPriority, h]
  · intro h1 h2; simp [mapPriority, not_le.mpr h1, h2]
  · intro h1 h2
    have : ¬ p ≤ 1 := by linarith
    simp [mapPriority, this, not_le.mpr h1, h2]
  · intro h
    have h1 : ¬ p ≤ 1 := by linarith
    have h2 : ¬ p ≤ 2 := by linarith
    simp [mapPriority, h1, h2, not_le.mpr h]
  · norm_num [mapPriority]
  · intro h; simp only [mapPriority, h, if_true]
  · intro h; simp only [mapPriority, h, if_false]

/-- Witness for C21: the priorities 1, 2, 3, 5 and the strings `HIGH` and `asap`. -/
theorem mapPriority_buckets_witness :
    mapPriority (.num 1) = "low" ∧ mapPriority (.num 2) = "medium" ∧
    mapPriority (.num 3) = "high" ∧ mapPriority (.num 5) = "urgent" ∧
    mapPriority (.str "HIGH") = "high" ∧ mapPriority (.str "asap") = "medium" :=
  ⟨(mapPriority_buckets 1 "" true).1 (by norm_num),
    (mapPriority_buckets 2 "" true).2.1 (by norm_num) (by norm_num),
    (mapPriority_buckets 3 "" true).2.2.2.2.1,
    (mapPriority_buckets 5 "" true).2.2.2.1 (by norm_num),
    ((mapPriority_buckets 0 "HIGH" true).2.2.2.2.2.1 (by decide!)).trans (by decide!),
    (mapPriority_buckets 0 "asap" true).2.2.2.2.2.2.1 (by decide!)⟩

/-- Claim C22: `mapComplexity` returns one of easy, medium, hard for every
difficulty value: for a number d it is easy when d ≤ 2, medium when 2 < d ≤ 4,
hard when d > 4 (so 3 gives medium), and medium for every value that is not a
number. -/
theorem mapComplexity_buckets (v : JSVal) (d : ℚ) :
    mapComplexity v ∈ ["easy", "medium", "hard"] ∧
    (d ≤ 2 → mapComplexity (.num d) = "easy") ∧
    (2 < d → d ≤ 4 → mapComplexity (.num d) = "medium") ∧
    (4 < d → mapComplexity (.num d) = "hard") ∧
    mapComplexity (.num 3) = "medium" ∧
    ((∀ q, v ≠ .num q) → mapComplexity v = "medium") := by
  refine ⟨?_, ?_, ?_, ?_, ?_, ?_⟩
  · cases v with
    | num q => simp only [mapComplexity]; split_ifs <;> simp
    | _ => simp [mapComplexity]
  · intro h; simp [mapComplexity, h]
  · intro h1 h2; simp [mapComplexity, not_le.mpr h1, h2]
  · intro h
    have h1 : ¬ d ≤ 2 := by linarith
    simp [mapComplexity, h1, not_le.mpr h]
  · norm_num [mapComplexity]
  · intro h
    cases v with
    | num q => exact absurd rfl (h q)
    | _ => rfl

/-- Witness for C22: the difficulties 2, 3 and 5, a string and a missing value. -/
theorem mapComplexity_buckets_witness :
    mapComplexity (.num 2) = "easy" ∧ mapComplexity (.num 3) = "medium" ∧
    mapComplexity (.num 5) = "hard" ∧ mapComplexity (.str "hard") = "medium" ∧
    mapComplexity .undefined = "medium" :=
  ⟨(mapComplexity_buckets .null 2).2.1 (by norm_num),
    (mapComplexity_buckets .null 3).2.2.2.2.1,
    (mapComplexity_buckets .null 5).2.2.2.1 (by norm_num),
    (mapComplexity_buckets (.str "hard") 0).2.2.2.2.2 (by intro q; simp),
    (mapComplexity_buckets .undefined 0).2.2.2.2.2 (by intro q; simp)⟩

/-! ### The fallback title (C23) -/

/-- The index of the first colon of a text that has one after a colon-free part. -/
theorem jsIndexOf_colon (pre post : List ℕ) (h : colon ∉ pre) :
    jsIndexOf (pre ++ colon :: post) colon = pre.length := by
  unfold jsIndexOf
  have hi : List.indexOf colon (pre ++ colon :: post) = pre.length := by
    rw [List.indexOf_append_of_not_mem h, List.indexOf_cons_self]
    simp
  simp only [hi]
  rw [if_pos (by simp)]

/-- A text without a colon has colon index -1. -/
theorem jsIndexOf_absent (u : List ℕ) (h : colon ∉ u) : jsIndexOf u colon = -1 := by
  unfold jsIndexOf
  have : List.indexOf colon u = u.length := List.indexOf_eq_length.mpr h
  simp only [this, lt_irrefl, if_false]

/-- A text that starts with a colon has colon index 0. -/
theorem jsIndexOf_leading (rest : List ℕ) : jsIndexOf (colon :: rest) colon = 0 := by
  have := jsIndexOf_colon [] rest (by simp)
  simpa using this

/-- Outside the colon branch, `extractTitle` cuts the input at 50 code units. -/
theorem extractTitle_no_colon (u : List ℕ) (h : ¬ jsIndexOf u colon > 0) :
    (u.length ≤ 50 → extractTitle u = u) ∧
    (50 < u.length → extractTitle u = u.take 50 ++ utf16 "...") := by
  unfold extractTitle
  simp only [h, if_false]
  constructor
  · intro hl
    rw [if_neg (by omega)]
  · intro hl
    rw [if_pos hl]

/-- Claim C23, as stated, fails in four ways: the part before the colon is
trimmed (`a : b` gives `a`, not the substring `a ` before the colon); an input
that starts with the colon is not cut at it; an input of more than 50
characters without a colon gives its first 50 characters followed by `...`;
and an input of 26 characters that take two UTF-16 code units each is not
returned whole but cut to 25 of them followed by `...`. -/
theorem extractTitle_counterexample :
    (utf16 "a : b" = utf16 "a " ++ colon :: utf16 " b" ∧ colon ∉ utf16 "a " ∧
      extractTitle (utf16 "a : b") = utf16 "a" ∧ extractTitle (utf16 "a : b") ≠ utf16 "a ") ∧
    (utf16 ":abc" = colon :: utf16 "abc" ∧ extractTitle (utf16 ":abc") = utf16 ":abc" ∧
      extractTitle (utf16 ":abc") ≠ []) ∧
    (colon ∉ utf16 longInput ∧ longInput.length = 60 ∧
      extractTitle (utf16 longInput) = utf16 (longInput.take 50 ++ "...") ∧
      extractTitle (utf16 longInput) ≠ utf16 (longInput.take 50)) ∧
    (colon ∉ utf16 emojiInput ∧ emojiInput.length = 26 ∧
      extractTitle (utf16 emojiInput) = utf16 (emojiInput.take 25 ++ "...") ∧
      extractTitle (utf16 emojiInput) ≠ utf16 emojiInput) :=
  ⟨⟨by decide, by decide, by decide, by decide⟩,
    ⟨by decide, by decide, by decide⟩,
    ⟨by decide!, by decide!, by decide!, by decide!⟩,
    ⟨by decide!, by decide!, by decide!, by decide!⟩⟩

/-- Claim C23 (amended): `extractTitle` works on the UTF-16 code units of the
input.  For every input whose first colon is not its first code unit, the
result is the part before the first colon with leading and trailing whitespace
removed; for every input without a colon, or that starts with a colon, it is
the whole input when that has at most 50 code units, and otherwise its first
50 code units followed by `...`. -/
theorem extractTitle_spec (pre post u : List ℕ) :
    (colon ∉ pre → pre ≠ [] → extractTitle (pre ++ colon :: post) = jsTrim pre) ∧
    ((colon ∉ u ∨ ∃ rest, u = colon :: rest) →
      (u.length ≤ 50 → extractTitle u = u) ∧
      (50 < u.length → extractTitle u = u.take 50 ++ utf16 "...")) := by
  constructor
  · intro hpre hne
    have hidx := jsIndexOf_colon pre post hpre
    have hpos : 0 < pre.length := List.length_pos.mpr hne
    unfold extractTitle
    simp only [hidx]
    rw [if_pos (by exact_mod_cast hpos)]
    simp only [Int.toNat_ofNat]
    rw [List.take_left]
  · intro h
    apply extractTitle_no_colon
    rcases h with h | ⟨rest, h⟩
    · rw [jsIndexOf_absent u h]; decide
    · rw [h, jsIndexOf_leading]; decide

/-- Witness for C23 (amended): the input of the first end-to-end scenario, a
short input without a colon, and an input of 26 characters of two code units
each. -/
theorem extractTitle_spec_witness :
    extractTitle (utf16 "資料作成 " ++ colon :: utf16 " 月次レポート") = utf16 "資料作成" ∧
    extractTitle (utf16 "買い物") = utf16 "買い物" ∧
    extractTitle (utf16 emojiInput) = utf16 (emojiInput.take 25 ++ "...") :=
  ⟨((extractTitle_spec (utf16 "資料作成 ") (utf16 " 月次レポート") []).1
      (by decide) (by decide)).trans (by decide),
    ((extractTitle_spec [] [] (utf16 "買い物")).2 (Or.inl (by decide))).1 (by decide),
    (((extractTitle_spec [] [] (utf16 emojiInput)).2 (Or.inl (by decide!))).2
      (by decide!)).trans (by decide!)⟩

/-! ### The conflict count (C24) -/

/-- The number 60 is a double. -/
theorem toDouble_sixty : toDouble 60 = 60 := by decide!

/-- The duration used by `detectTimeConflicts` is the window duration, read as a
double. -/
theorem conflict_duration_eq (task : Task) :
    (if numTruthy task.estimatedDuration then toDouble (task.estimatedDuration.getD 0) else 60)
      = toDouble (windowMinutes task) := by
  unfold windowMinutes
  cases h : task.estimatedDuration with
  | none => simp [numTruthy, toDouble_sixty]
  | some d =>
    by_cases hd : d = 0
    · simp [numTruthy, hd, toDouble_sixty]
    · simp [numTruthy, hd]

/-- The end computed by `detectTimeConflicts` is the end of the Date window. -/
theorem conflictEnd_eq (task : Task) :
    conflictEnd (newDate task.scheduledTime) task = (dateWindow task).map Prod.snd := by
  unfold conflictEnd dateWindow
  simp only [conflict_duration_eq]
  cases hs : task.scheduledTime with
  | none => simp [newDate, getTime]
  | some st =>
    cases st with
    | unparseable raw => simp [newDate, getTime]
    | parses start =>
      simp only [newDate, timeClip]
      by_cases h1 : |start| ≤ maxTime
      · simp only [h1, if_true, getTime, newDateOfNum, true_and]
        split_ifs <;> simp
      · simp [h1, getTime]

/-- A task with a Date window has a truthy `scheduledTime` that is a valid date. -/
theorem dateWindow_start (task : Task) (w : ℤ × ℤ) (h : dateWindow task = some w) :
    newDate task.scheduledTime = some w.1 ∧ dateTruthy task.scheduledTime = true := by
  unfold dateWindow at h
  cases hs : task.scheduledTime with
  | none => simp [hs] at h
  | some st =>
    cases st with
    | unparseable raw => simp [hs] at h
    | parses start =>
      simp only [hs] at h
      split_ifs at h with hr
      all_goals
        simp only [Option.some.injEq] at h
        subst h
        simp [newDate, timeClip, hr.1, dateTruthy]

/-- The test of the inner loop of `detectTimeConflicts` is the strict overlap of
the Date windows. -/
theorem timesOverlap_eq_windowsOverlap (task1 task2 : Task) :
    timesOverlap task1 task2 = windowsOverlap task1 task2 := by
  unfold timesOverlap windowsOverlap
  simp only [conflictEnd_eq]
  cases h1 : dateWindow task1 with
  | none =>
    simp only [Option.map_none']
    split_ifs
    · cases newDate task2.scheduledTime <;> simp [dateLt]
    · rfl
  | some w1 =>
    cases h2 : dateWindow task2 with
    | none =>
      simp only [Option.map_none', Option.map_some']
      split_ifs
      · cases newDate task1.scheduledTime <;> simp [dateLt]
      · rfl
    | some w2 =>
      obtain ⟨hs1, ht1⟩ := dateWindow_start task1 w1 h1
      obtain ⟨hs2, ht2⟩ := dateWindow_start task2 w2 h2
      obtain ⟨s1, e1⟩ := w1
      obtain ⟨s2, e2⟩ := w2
      simp only at hs1 hs2
      simp [ht1, ht2, hs1, hs2, dateLt]
/-- The pair count depends only on the values of the test on the elements of
the list. -/
theorem pairCount_congr {α : Type} (p q : α → α → Bool) :
    ∀ (l : List α), (∀ a ∈ l, ∀ b ∈ l, p a b = q a b) → pairCount p l = pairCount q l := by
  intro l
  induction l with
  | nil => intro _; rfl
  | cons x rest ih =>
    intro h
    simp only [pairCount]
    rw [ih (fun a ha b hb => h a (List.mem_cons_of_mem _ ha) b (List.mem_cons_of_mem _ hb))]
    congr 1
    apply List.countP_congr
    intro b hb
    rw [h x (List.mem_cons_self _ _) b (List.mem_cons_of_mem _ hb)]

/-- The Date window of a task with a whole window is its exact window. -/
theorem dateWindow_of_whole (task : Task) (h : wholeWindow task) :
    (dateWindow task).map (fun w => ((w.1 : ℚ), (w.2 : ℚ))) = exactWindow task := by
  unfold dateWindow exactWindow
  cases hs : task.scheduledTime with
  | none => rfl
  | some st =>
    cases st with
    | unparseable raw => rfl
    | parses start =>
      obtain ⟨h1, hd, m, hm, hm53, h2⟩ := h start hs
      have h53 : |start + m| < 2 ^ 53 := by
        have : maxTime < 2 ^ 53 := by decide
        omega
      have hsum : toDouble ((start : ℚ) + toDouble (toDouble (windowMinutes task) * 60000))
          = ((start + m : ℤ) : ℚ) := by
        rw [hd, hm, toDouble_int m hm53]
        have := toDouble_int (start + m) h53
        push_cast at this ⊢
        exact this
      have hq : (start : ℚ) + windowMinutes task * 60000 = ((start + m : ℤ) : ℚ) := by
        rw [hm]; push_cast; ring
      have h2' : |((start + m : ℤ) : ℚ)| ≤ (maxTime : ℚ) := by exact_mod_cast h2
      simp only [hsum, hq, h1, h2', and_self, if_true, Int.floor_intCast, Int.ceil_intCast,
        ite_self, Option.map_some']

/-- On tasks with whole windows the overlap of the Date windows is the overlap of
the exact windows. -/
theorem windowsOverlap_of_whole (task1 task2 : Task) (h1 : wholeWindow task1)
    (h2 : wholeWindow task2) : windowsOverlap task1 task2 = exactOverlap task1 task2 := by
  unfold windowsOverlap exactOverlap
  rw [← dateWindow_of_whole task1 h1, ← dateWindow_of_whole task2 h2]
  cases dateWindow task1 with
  | none => rfl
  | some w1 =>
    cases dateWindow task2 with
    | none => rfl
    | some w2 =>
      simp only [Option.map_some']
      congr 1
      simp only [Int.cast_lt]

/-- Claim C24, as stated, fails: two tasks start at the same instant, one with a
window of 0.00001 minutes; the exact intervals overlap, but the end of the
short window is cut to the start, so `detectTimeConflicts` counts no conflict. -/
theorem detectTimeConflicts_counterexample :
    pairCount exactOverlap [taskAtNine (1 / 100000), taskAtNine 60] = 1 ∧
    detectTimeConflicts [taskAtNine (1 / 100000), taskAtNine 60] = 0 :=
  ⟨by decide!, by decide!⟩

/-- Claim C24 (amended): `detectTimeConflicts` returns the number of unordered
pairs of tasks whose Date windows strictly overlap (start1 < end2 and
start2 < end1), the window of a task with a `scheduledTime` running from its
start to the double start + duration × 60000 (duration 60 minutes when absent
or zero, the product a double as well) cut to a whole millisecond. When every
duration is a double and every window lasts a whole number of milliseconds,
fewer than 2^53, inside the Date range, this is the number of pairs whose
intervals [start, start + duration) strictly overlap. -/
theorem detectTimeConflicts_count (tasks : List Task) :
    detectTimeConflicts tasks = pairCount windowsOverlap tasks ∧
    ((∀ t ∈ tasks, wholeWindow t) →
      detectTimeConflicts tasks = pairCount exactOverlap tasks) := by
  have h : detectTimeConflicts tasks = pairCount windowsOverlap tasks := by
    rw [detectTimeConflicts_eq_pairCount]
    exact pairCount_congr _ _ tasks (fun a _ b _ => timesOverlap_eq_windowsOverlap a b)
  refine ⟨h, fun hw => ?_⟩
  rw [h]
  exact pairCount_congr _ _ tasks
    (fun a ha b hb => windowsOverlap_of_whole a b (hw a ha) (hw b hb))

/-- The sample tasks at nine and ten have whole windows. -/
theorem wholeWindow_samples (minutes : ℤ) (h : 0 < minutes ∧ minutes ≤ 1440) :
    wholeWindow (taskAtNine minutes) ∧ wholeWindow (taskAtTen minutes) := by
  have hw : windowMinutes (taskAtNine minutes) = minutes ∧
      windowMinutes (taskAtTen minutes) = minutes := by
    have : (minutes : ℚ) ≠ 0 := by
      have := h.1
      exact_mod_cast (ne_of_gt this)
    simp [windowMinutes, taskAtNine, taskAtTen, this]
  have hd : toDouble (minutes : ℚ) = minutes :=
    toDouble_int minutes (by rw [abs_lt]; constructor <;> omega)
  have h53 : |minutes * 60000| < 2 ^ 53 := by rw [abs_lt]; constructor <;> omega
  constructor
  · intro start hs
    simp only [taskAtNine, Option.some.injEq, DateText.parses.injEq] at hs
    subst hs
    refine ⟨by decide, by rw [hw.1]; exact hd, minutes * 60000,
      by rw [hw.1]; push_cast; ring, h53, ?_⟩
    simp only [maxTime]
    rw [abs_le]
    constructor <;> omega
  · intro start hs
    simp only [taskAtTen, Option.some.injEq, DateText.parses.injEq] at hs
    subst hs
    refine ⟨by decide, by rw [hw.2]; exact hd, minutes * 60000,
      by rw [hw.2]; push_cast; ring, h53, ?_⟩
    simp only [maxTime]
    rw [abs_le]
    constructor <;> omega

/-- Witness for C24 (amended): two tasks of 60 minutes that start at the same
instant count as one conflict; a task that starts when the other one ends
counts as none.  A window of 0.9999999999 minutes from 09:00:00.000 ends at the
double that is 09:01:00.000, so it overlaps a task that starts at
09:00:59.999. -/
theorem detectTimeConflicts_count_witness :
    detectTimeConflicts [taskAtNine 60, taskAtNine 60] = 1 ∧
    detectTimeConflicts [taskAtNine 60, taskAtTen 60] = 0 ∧
    detectTimeConflicts [taskAtNine (9999999999 / 10000000000), taskBeforeTen 60]
      = pairCount windowsOverlap [taskAtNine (9999999999 / 10000000000), taskBeforeTen 60] ∧
    detectTimeConflicts [taskAtNine (9999999999 / 10000000000), taskBeforeTen 60] = 1 :=
  ⟨((detectTimeConflicts_count [taskAtNine 60, taskAtNine 60]).2
      (by
        intro t ht
        simp only [List.mem_cons, List.mem_singleton, List.not_mem_nil, or_false, or_self] at ht
        subst ht
        exact (wholeWindow_samples 60 (by decide)).1)).trans (by decide!),
    ((detectTimeConflicts_count [taskAtNine 60, taskAtTen 60]).2
      (by
        intro t ht
        simp only [List.mem_cons, List.mem_singleton, List.not_mem_nil, or_false] at ht
        rcases ht with ht | ht
        · subst ht; exact (wholeWindow_samples 60 (by decide)).1
        · subst ht; exact (wholeWindow_samples 60 (by decide)).2)).trans (by decide!),
    (detectTimeConflicts_count
      [taskAtNine (9999999999 / 10000000000), taskBeforeTen 60]).1,
    by decide!⟩

/-! ### The efficiency formula (C25) -/

/-- The reduction of the handler computes the double sum of the durations. -/
theorem totalDuration_eq (tasks : List Task) : totalDuration tasks = totalMinutesDouble tasks := by
  unfold totalDuration totalMinutesDouble
  rw [List.foldl_map]
  congr 1
  funext sum task
  cases task.estimatedDuration <;> rfl

/-- The filter of the handler counts the tasks of high or urgent priority. -/
theorem highPriority_count_eq (tasks : List Task) :
    (tasks.filter isHighPriority).length = highOrUrgentCount tasks := by
  unfold highOrUrgentCount
  rw [← List.countP_eq_length_filter]
  apply List.countP_congr
  intro t _
  simp [isHighPriority]

/-- Two numbers at most 1 apart round to integers at most 1 apart. -/
theorem mathRound_close (p q : ℚ) (h : |p - q| ≤ 1) : |mathRound p - mathRound q| ≤ 1 := by
  unfold mathRound
  rw [abs_le] at h ⊢
  obtain ⟨h1, h2⟩ := h
  constructor
  · have : ⌊q + 1 / 2 - 1⌋ ≤ ⌊p + 1 / 2⌋ := Int.floor_mono (by linarith)
    rw [Int.floor_sub_one] at this
    omega
  · have : ⌊p + 1 / 2⌋ ≤ ⌊q + 1 / 2 + 1⌋ := Int.floor_mono (by linarith)
    rw [Int.floor_add_one] at this
    omega

/-- The priority bonus in doubles is within 2^(-46) of the exact bonus, and lies
between 0 and 1. -/
theorem bonus_close (k : ℕ) :
    |min (toDouble ((k : ℚ) * toDouble (1 / 10))) (toDouble (3 / 10))
        - min ((1 / 10) * (k : ℚ)) (3 / 10)| ≤ 1 / 2 ^ 46 ∧
    0 ≤ min (toDouble ((k : ℚ) * toDouble (1 / 10))) (toDouble (3 / 10)) ∧
    min (toDouble ((k : ℚ) * toDouble (1 / 10))) (toDouble (3 / 10)) ≤ 1 := by
  have hc : 0 ≤ toDouble (1 / 10) := toDouble_nonneg _ (by norm_num)
  have h31 : toDouble (3 / 10) ≤ 1 := by decide!
  refine ⟨?_, le_min (toDouble_nonneg _ (mul_nonneg (by positivity) hc))
    (toDouble_nonneg _ (by norm_num)), le_trans (min_le_right _ _) h31⟩
  by_cases hk : k < 4
  · interval_cases k
    · decide!
    · decide!
    · decide!
    · decide!
  · push_neg at hk
    have hkq : (4 : ℚ) ≤ (k : ℚ) := by exact_mod_cast hk
    have h4 : toDouble (4 * toDouble (1 / 10)) ≤ toDouble ((k : ℚ) * toDouble (1 / 10)) :=
      toDouble_mono _ _ (mul_nonneg (by norm_num) hc) (mul_le_mul_of_nonneg_right hkq hc)
    have h3 : toDouble (3 / 10) ≤ toDouble (4 * toDouble (1 / 10)) := by decide!
    rw [min_eq_right (le_trans h3 h4), min_eq_right (by linarith)]
    decide!

/-- For a non-negative total, the efficiency in hundredths computed in doubles
is within 1 of the efficiency in hundredths computed exactly. -/
theorem efficiency_close (T : ℚ) (k : ℕ) (hT : 0 ≤ T) :
    |(mathRound (toDouble (min (toDouble (min (toDouble (T / (8 * 60))) 1 +
        min (toDouble ((k : ℚ) * toDouble (1 / 10))) (toDouble (3 / 10)))) 1 * 100)) : ℚ)
      - (⌊min (min (T / 480) 1 + min ((1 / 10) * (k : ℚ)) (3 / 10)) 1 * 100 + 1 / 2⌋ : ℚ)|
      ≤ 1 := by
  obtain ⟨hb, hb0, hb1⟩ := bonus_close k
  generalize min (toDouble ((k : ℚ) * toDouble (1 / 10))) (toDouble (3 / 10)) = b at hb hb0 hb1 ⊢
  generalize min ((1 / 10) * (k : ℚ)) (3 / 10) = b' at hb ⊢
  have h480 : T / (8 * 60) = T / 480 := by norm_num
  rw [h480]
  have hx0 : 0 ≤ T / 480 := by positivity
  have ha0 : 0 ≤ toDouble (T / 480) := toDouble_nonneg _ hx0
  -- the capped quotient
  have hm : |min (toDouble (T / 480)) 1 - min (T / 480) 1| ≤ 1 / 2 ^ 46 := by
    by_cases h2 : T / 480 ≤ 2
    · have he := toDouble_error_small (T / 480) hx0 (by linarith)
      have := abs_min_sub_min_le_max (toDouble (T / 480)) 1 (T / 480) 1
      simp only [sub_self, abs_zero] at this
      exact le_trans this (max_le he (by norm_num))
    · push_neg at h2
      have h22 : toDouble 2 = 2 := by decide!
      have hge := toDouble_mono 2 (T / 480) (by norm_num) (le_of_lt h2)
      rw [h22] at hge
      rw [min_eq_right (by linarith), min_eq_right (by linarith)]
      norm_num
  have hm0 : 0 ≤ min (toDouble (T / 480)) 1 := le_min ha0 (by norm_num)
  have hm1 : min (toDouble (T / 480)) 1 ≤ 1 := min_le_right _ _
  generalize min (toDouble (T / 480)) 1 = m at hm hm0 hm1 ⊢
  generalize min (T / 480) 1 = m' at hm ⊢
  -- the sum
  have hs := toDouble_error_small (m + b) (by linarith) (by linarith)
  have hs0 : 0 ≤ toDouble (m + b) := toDouble_nonneg _ (by linarith)
  have hsum : |toDouble (m + b) - (m' + b')| ≤ 3 / 2 ^ 46 := by
    have e : toDouble (m + b) - (m' + b')
        = (toDouble (m + b) - (m + b)) + (m - m') + (b - b') := by ring
    rw [e]
    calc |(toDouble (m + b) - (m + b)) + (m - m') + (b - b')|
        ≤ |(toDouble (m + b) - (m + b)) + (m - m')| + |b - b'| := abs_add _ _
      _ ≤ |toDouble (m + b) - (m + b)| + |m - m'| + |b - b'| := by
          linarith [abs_add (toDouble (m + b) - (m + b)) (m - m')]
      _ ≤ 3 / 2 ^ 46 := by linarith
  have he : |min (toDouble (m + b)) 1 - min (m' + b') 1| ≤ 3 / 2 ^ 46 := by
    have := abs_min_sub_min_le_max (toDouble (m + b)) 1 (m' + b') 1
    simp only [sub_self, abs_zero] at this
    exact le_trans this (max_le hsum (by norm_num))
  have he0 : 0 ≤ min (toDouble (m + b)) 1 := le_min hs0 (by norm_num)
  have he1 : min (toDouble (m + b)) 1 ≤ 1 := min_le_right _ _
  generalize min (toDouble (m + b)) 1 = e at he he0 he1 ⊢
  generalize min (m' + b') 1 = e' at he ⊢
  -- the product by 100
  have hp := toDouble_error_small (e * 100) (by linarith) (by linarith)
  have hclose : |toDouble (e * 100) - e' * 100| ≤ 1 := by
    have e1 : toDouble (e * 100) - e' * 100
        = (toDouble (e * 100) - e * 100) + (e - e') * 100 := by ring
    rw [e1]
    have h100 : |(e - e') * 100| ≤ 300 / 2 ^ 46 := by
      rw [abs_mul]
      have : |(100 : ℚ)| = 100 := by norm_num
      rw [this]
      linarith
    calc |(toDouble (e * 100) - e * 100) + (e - e') * 100|
        ≤ |toDouble (e * 100) - e * 100| + |(e - e') * 100| := abs_add _ _
      _ ≤ 1 / 2 ^ 46 + 300 / 2 ^ 46 := by linarith
      _ ≤ 1 := by norm_num
  have hr := mathRound_close (toDouble (e * 100)) (e' * 100) hclose
  unfold mathRound at hr ⊢
  have : |((⌊toDouble (e * 100) + 1 / 2⌋ - ⌊e' * 100 + 1 / 2⌋ : ℤ) : ℚ)| ≤ 1 := by
    rw [← Int.cast_abs]
    exact_mod_cast hr
  push_cast at this
  exact this

/-- The duration that the sums count for a task with whole minutes. -/
theorem duration_whole (t : Task) (h : ∀ d, t.estimatedDuration = some d → ∃ n : ℕ, d = (n : ℚ)) :
    ∃ n : ℕ, t.estimatedDuration.getD 0 = (n : ℚ) ∧
      (match t.estimatedDuration with
        | some d => d
        | none => 0) = (n : ℚ) := by
  cases hd : t.estimatedDuration with
  | none => exact ⟨0, by simp, by simp⟩
  | some d =>
    obtain ⟨n, hn⟩ := h d hd
    exact ⟨n, by simp [hn], by simp [hn]⟩

/-- Whole minutes add up to a non-negative total. -/
theorem totalMinutes_nonneg (tasks : List Task) (h : wholeMinutes tasks) :
    0 ≤ totalMinutes tasks := by
  induction tasks with
  | nil => simp [totalMinutes]
  | cons t rest ih =>
    obtain ⟨n, _, hn⟩ := duration_whole t (h t (List.mem_cons_self _ _))
    have hr := ih (fun x hx => h x (List.mem_cons_of_mem _ hx))
    unfold totalMinutes at hr ⊢
    simp only [List.map_cons, List.sum_cons]
    rw [hn]
    have : (0 : ℚ) ≤ (n : ℚ) := by positivity
    linarith

/-- Below 2^53 the double sum of whole minutes is exact, from any whole start. -/
theorem foldl_whole (tasks : List Task) (h : wholeMinutes tasks) :
    ∀ init : ℕ, (init : ℚ) + totalMinutes tasks < 2 ^ 53 →
      tasks.foldl (fun sum task => toDouble (sum + toDouble (task.estimatedDuration.getD 0)))
        (init : ℚ) = (init : ℚ) + totalMinutes tasks := by
  induction tasks with
  | nil => intro init _; simp [totalMinutes]
  | cons t rest ih =>
    intro init hlt
    have hrest : wholeMinutes rest := fun x hx => h x (List.mem_cons_of_mem _ hx)
    obtain ⟨n, hn1, hn2⟩ := duration_whole t (h t (List.mem_cons_self _ _))
    have hr0 := totalMinutes_nonneg rest hrest
    have htot : totalMinutes (t :: rest) = (n : ℚ) + totalMinutes rest := by
      unfold totalMinutes
      simp only [List.map_cons, List.sum_cons]
      rw [hn2]
    rw [htot] at hlt ⊢
    have hi0 : (0 : ℚ) ≤ (init : ℚ) := by positivity
    have hn0 : (0 : ℚ) ≤ (n : ℚ) := by positivity
    have hn53 : |(n : ℤ)| < 2 ^ 53 := by
      rw [abs_of_nonneg (by positivity)]
      have : (n : ℚ) < 2 ^ 53 := by linarith
      exact_mod_cast this
    have hs53 : |((init + n : ℕ) : ℤ)| < 2 ^ 53 := by
      rw [abs_of_nonneg (by positivity)]
      have : ((init + n : ℕ) : ℚ) < 2 ^ 53 := by push_cast; linarith
      exact_mod_cast this
    have e1 : toDouble (n : ℚ) = n := by
      have := toDouble_int (n : ℤ) hn53
      exact_mod_cast this
    have e2 : toDouble ((init : ℚ) + (n : ℚ)) = ((init + n : ℕ) : ℚ) := by
      have := toDouble_int ((init + n : ℕ) : ℤ) hs53
      push_cast at this ⊢
      exact this
    rw [List.foldl_cons, hn1, e1, e2, ih hrest (init + n) (by push_cast; linarith)]
    push_cast
    ring

/-- Below 2^53 the reduction of the handler adds whole minutes exactly. -/
theorem totalDuration_whole (tasks : List Task) (h : wholeMinutes tasks)
    (hlt : totalMinutes tasks < 2 ^ 53) : totalDuration tasks = totalMinutes tasks := by
  have := foldl_whole tasks h 0 (by simpa using hlt)
  unfold totalDuration
  simpa using this

/-- Claim C25, as stated, fails: for the one task of 276 minutes and low
priority the formula is 0.575, which rounds to 0.58, but the double
0.575 × 100 is 57.49999999999999 and `calculateEfficiency` returns 0.57. -/
theorem calculateEfficiency_formula_counterexample :
    [nearHalfTask] ≠ [] ∧
    min (min (totalMinutes [nearHalfTask] / 480) 1 +
      min ((1 / 10) * (highOrUrgentCount [nearHalfTask] : ℚ)) (3 / 10)) 1 = 575 / 1000 ∧
    efficiencyFormula [nearHalfTask] = 58 / 100 ∧
    calculateEfficiency [nearHalfTask] {} = 57 / 100 ∧
    calculateEfficiency [nearHalfTask] {} ≠ efficiencyFormula [nearHalfTask] := by
  have h1 : efficiencyFormula [nearHalfTask] = 58 / 100 := by decide!
  have h2 : calculateEfficiency [nearHalfTask] {} = 57 / 100 := by decide!
  refine ⟨by decide, by decide!, h1, h2, ?_⟩
  rw [h1, h2]
  norm_num

/-- Claim C25 (amended): for every non-empty task list, `calculateEfficiency`
equals Math.round(e × 100) / 100 for
e = min(min(totalMinutes / 480, 1) + min(0.1 × k, 0.3), 1), every operation
carried out in double arithmetic, with totalMinutes the sum of the durations
from left to right (a missing one counted as 0) and k the number of tasks of
high or urgent priority; the preferences do not affect the result.  When the
durations are whole numbers of minutes with a total below 2^53, the result is
within 0.01 of e rounded to 2 decimals in exact arithmetic. -/
theorem calculateEfficiency_formula (tasks : List Task) (preferences other : Preferences)
    (hne : tasks ≠ []) :
    calculateEfficiency tasks preferences = efficiencyDouble tasks ∧
    calculateEfficiency tasks preferences = calculateEfficiency tasks other ∧
    (wholeMinutes tasks → totalMinutes tasks < 2 ^ 53 →
      |calculateEfficiency tasks preferences - efficiencyFormula tasks| ≤ 1 / 100) := by
  have hlen : ¬ tasks.length = 0 := fun h => hne (List.length_eq_zero.mp h)
  have h : ∀ p : Preferences, calculateEfficiency tasks p = efficiencyDouble tasks := by
    intro p
    unfold calculateEfficiency efficiencyDouble
    simp only [hlen, if_false, totalDuration_eq, highPriority_count_eq]
    rw [mul_comm ((highOrUrgentCount tasks : ℚ)) (toDouble (1 / 10))]
    norm_num
  refine ⟨h preferences, by rw [h preferences, h other], ?_⟩
  intro hw hlt
  have hclose := efficiency_close (totalMinutes tasks) (highOrUrgentCount tasks)
    (totalMinutes_nonneg tasks hw)
  unfold calculateEfficiency efficiencyFormula roundTo2
  simp only [hlen, if_false, totalDuration_whole tasks hw hlt, highPriority_count_eq]
  rw [← sub_div, abs_div]
  have h100 : |(100 : ℚ)| = 100 := by norm_num
  rw [h100]
  exact div_le_div_of_nonneg_right hclose (by norm_num)

/-- Witness for C25 (amended): the task of 276 minutes scores 0.57 under any
preferences, one hundredth below the formula in exact arithmetic, and the
sample task of 90 minutes and high priority scores 0.29. -/
theorem calculateEfficiency_formula_witness :
    [nearHalfTask] ≠ [] ∧
    efficiencyDouble [nearHalfTask] = 57 / 100 ∧
    efficiencyDouble [sampleOptimized] = 29 / 100 ∧
    wholeMinutes [nearHalfTask] ∧ totalMinutes [nearHalfTask] < 2 ^ 53 ∧
    calculateEfficiency [nearHalfTask] {} = efficiencyDouble [nearHalfTask] ∧
    calculateEfficiency [nearHalfTask] {}
      = calculateEfficiency [nearHalfTask] morningPreferences ∧
    |calculateEfficiency [nearHalfTask] {} - efficiencyFormula [nearHalfTask]| ≤ 1 / 100 := by
  have hw : wholeMinutes [nearHalfTask] := by
    intro t ht d hd
    simp only [List.mem_singleton] at ht
    subst ht
    simp only [nearHalfTask, Option.some.injEq] at hd
    exact ⟨276, by rw [← hd]; norm_num⟩
  have hlt : totalMinutes [nearHalfTask] < 2 ^ 53 := by decide!
  have h := calculateEfficiency_formula [nearHalfTask] {} morningPreferences (by decide)
  exact ⟨by decide, by decide!, by decide!, hw, hlt, h.1, h.2.1, h.2.2 hw hlt⟩

/-! ### The optimal hour (C26) -/

/-- The priority weight is a finite number or `NaN`. -/
theorem priorityWeight_cases (v : JSVal) :
    (∃ q : ℚ, JSNum.div (getPriorityValue v) (.fin 5) = .fin q) ∨
      JSNum.div (getPriorityValue v) (.fin 5) = .nan := by
  have h : ∀ q : ℚ, JSNum.div (.fin q) (.fin 5) = .fin (q / 5) := by
    intro q; simp [JSNum.div]
  unfold getPriorityValue
  split
  · exact Or.inl ⟨_, h 1⟩
  · exact Or.inl ⟨_, h 3⟩
  · exact Or.inl ⟨_, h 4⟩
  · exact Or.inl ⟨_, h 5⟩
  · split_ifs
    · exact Or.inr rfl
    · exact Or.inl ⟨_, h 3⟩
  · exact Or.inl ⟨_, h 3⟩

/-- One step of the hour loop keeps the invariant. -/
theorem hourLoopInv_step (pattern : List ℚ) (q : ℚ) (k : ℕ) (state : ℤ × JSNum) (hk : 6 ≤ k)
    (h : hourLoopInv (fun hour => patternAt pattern (some (hour : ℤ)) * q) k state) :
    hourLoopInv (fun hour => patternAt pattern (some (hour : ℤ)) * q) (k + 1)
      (findOptimalHourStep pattern (.fin q) state k) := by
  obtain ⟨b, hb, hb0, hmax, hcase⟩ := h
  unfold findOptimalHourStep
  simp only [JSNum.mul, hb, JSNum.gt]
  by_cases hgt : b < patternAt pattern (some (k : ℤ)) * q
  · simp only [hgt, decide_True, if_true]
    refine ⟨_, rfl, by linarith, ?_, Or.inr ⟨k, rfl, hk, by omega, rfl, by linarith, ?_⟩⟩
    · intro hour h6 hlt
      by_cases he : hour = k
      · subst he; exact le_refl _
      · exact le_of_lt (lt_of_le_of_lt (hmax hour h6 (by omega)) hgt)
    · intro hour h6 hlt
      exact lt_of_le_of_lt (hmax hour h6 hlt) hgt
  · simp only [hgt, decide_False, Bool.false_eq_true, if_false]
    refine ⟨b, hb, hb0, ?_, ?_⟩
    · intro hour h6 hlt
      by_cases he : hour = k
      · subst he; exact not_lt.mp hgt
      · exact hmax hour h6 (by omega)
    · rcases hcase with hc | ⟨n, hn, h6, hlt, hfn, hpos, hearly⟩
      · exact Or.inl hc
      · exact Or.inr ⟨n, hn, h6, by omega, hfn, hpos, hearly⟩

/-- The hour loop keeps the invariant over any run of consecutive hours. -/
theorem hourLoopInv_fold (pattern : List ℚ) (q : ℚ) :
    ∀ (m k : ℕ) (state : ℤ × JSNum), 6 ≤ k →
      hourLoopInv (fun hour => patternAt pattern (some (hour : ℤ)) * q) k state →
      hourLoopInv (fun hour => patternAt pattern (some (hour : ℤ)) * q) (k + m)
        ((List.range' k m).foldl (findOptimalHourStep pattern (.fin q)) state) := by
  intro m
  induction m with
  | zero => intro k state _ h; simpa using h
  | succ m ih =>
    intro k state hk h
    rw [List.range'_succ, List.foldl_cons]
    have := ih (k + 1) _ (by omega) (hourLoopInv_step pattern q k state hk h)
    rw [show k + (m + 1) = k + 1 + m by omega]
    exact this

/-- With a `NaN` weight no hour changes the state of the loop. -/
theorem hourLoop_nan (pattern : List ℚ) (hours : List ℕ) (state : ℤ × JSNum) :
    hours.foldl (findOptimalHourStep pattern .nan) state = state := by
  induction hours generalizing state with
  | nil => rfl
  | cons h rest ih =>
    rw [List.foldl_cons]
    have : findOptimalHourStep pattern .nan state h = state := by
      simp [findOptimalHourStep, JSNum.mul, JSNum.gt]
    rw [this, ih]

/-- Claim C26: for every task and every hour-of-day histogram, `findOptimalHour`
returns an hour h with 6 ≤ h ≤ 22; if some hour in [6,22] has a positive score
histogram[hour] × (priorityValue / 5), h is the earliest hour in [6,22] that
attains the maximum score over [6,22]; otherwise h is 9. -/
theorem findOptimalHour_argmax (task : Task) (histogram : List ℚ) :
    (6 ≤ findOptimalHour task histogram ∧ findOptimalHour task histogram ≤ 22) ∧
    ((∃ hour, 6 ≤ hour ∧ hour ≤ 22 ∧
        JSNum.gt (hourScore task histogram hour) (.fin 0) = true) →
      ∃ best : ℕ, findOptimalHour task histogram = (best : ℤ) ∧ 6 ≤ best ∧ best ≤ 22 ∧
        (∀ hour, 6 ≤ hour → hour ≤ 22 →
          JSNum.gt (hourScore task histogram hour) (hourScore task histogram best) = false) ∧
        (∀ hour, 6 ≤ hour → hour < best →
          JSNum.gt (hourScore task histogram best) (hourScore task histogram hour) = true)) ∧
    ((∀ hour, 6 ≤ hour → hour ≤ 22 →
        JSNum.gt (hourScore task histogram hour) (.fin 0) = false) →
      findOptimalHour task histogram = 9) := by
  refine ⟨findOptimalHour_range task histogram, ?_⟩
  rcases priorityWeight_cases task.priority with ⟨q, hq⟩ | hnan
  · -- a finite weight: the loop computes the earliest maximum
    have hscore : ∀ hour, hourScore task histogram hour
        = .fin (patternAt histogram (some (hour : ℤ)) * q) := by
      intro hour; simp [hourScore, hq, JSNum.mul]
    have hinit : hourLoopInv (fun hour => patternAt histogram (some (hour : ℤ)) * q) 6
        ((9 : ℤ), JSNum.fin 0) :=
      ⟨0, rfl, le_refl _, fun hour h6 hlt => by omega, Or.inl ⟨rfl, rfl⟩⟩
    have hfold := hourLoopInv_fold histogram q 17 6 _ (le_refl _) hinit
    have hval : findOptimalHour task histogram
        = ((List.range' 6 17).foldl (findOptimalHourStep histogram (.fin q))
            ((9 : ℤ), JSNum.fin 0)).1 := by
      simp [findOptimalHour, hq]
    obtain ⟨b, _, hb0, hmax, hcase⟩ := hfold
    constructor
    · rintro ⟨hour, h6, h22, hpos⟩
      rw [hscore] at hpos
      simp only [JSNum.gt, decide_eq_true_eq] at hpos
      have hle := hmax hour h6 (by omega)
      rcases hcase with ⟨hz, _⟩ | ⟨n, hn, hn6, hnlt, hfn, hbpos, hearly⟩
      · simp only at hle; linarith
      · refine ⟨n, by rw [hval, hn], hn6, by omega, ?_, ?_⟩
        · intro h' h6' h22'
          rw [hscore, hscore]
          simp only [JSNum.gt, decide_eq_false_iff_not, not_lt]
          have := hmax h' h6' (by omega)
          simp only at this hfn
          linarith
        · intro h' h6' hlt'
          rw [hscore, hscore]
          simp only [JSNum.gt, decide_eq_true_eq]
          have := hearly h' h6' hlt'
          simp only at this hfn
          linarith
    · intro hall
      rcases hcase with ⟨_, h9⟩ | ⟨n, hn, hn6, hnlt, hfn, hbpos, _⟩
      · rw [hval, h9]
      · have := hall n hn6 (by omega)
        rw [hscore] at this
        simp only [JSNum.gt, decide_eq_false_iff_not, not_lt] at this
        simp only at hfn
        linarith
  · -- a weight that is not a number: every score is NaN and the default stays
    have hval : findOptimalHour task histogram = 9 := by
      simp [findOptimalHour, hnan, hourLoop_nan]
    constructor
    · rintro ⟨hour, _, _, hpos⟩
      simp [hourScore, hnan, JSNum.mul, JSNum.gt] at hpos
    · intro _; exact hval

/-- Witness for C26: with the sample histogram the earliest of the two peaks, 10,
is chosen for an urgent task; with an empty history the hour is 9. -/
theorem findOptimalHour_argmax_witness :
    JSNum.gt (hourScore { priority := .str "urgent" } sampleHistogram 14) (.fin 0) = true ∧
    hourScore { priority := .str "urgent" } sampleHistogram 10
      = hourScore { priority := .str "urgent" } sampleHistogram 14 ∧
    findOptimalHour { priority := .str "urgent" } sampleHistogram = 10 ∧
    findOptimalHour { priority := .str "urgent" } (analyzeProductivityPattern env0 []) = 9 :=
  ⟨by decide!, by decide!, by decide!,
    (findOptimalHour_argmax { priority := .str "urgent" }
      (analyzeProductivityPattern env0 [])).2.2 (by
        intro hour _ _
        rw [analyzeProductivityPattern_nil]
        unfold hourScore
        rw [patternAt_replicate_zero]
        simp [getPriorityValue, JSNum.div, JSNum.mul, JSNum.gt])⟩

/-! ### JSON extraction of the Model Gateway (C27) -/

/-- Dropping a run of elements that satisfy `p` in front of one that does not. -/
theorem dropWhile_run {α : Type} (p : α → Bool) (a : α) (rest : List α) :
    ∀ pre : List α, (∀ x ∈ pre, p x = true) → p a = false →
      (pre ++ a :: rest).dropWhile p = a :: rest := by
  intro pre
  induction pre with
  | nil => intro _ ha; simp [List.dropWhile, ha]
  | cons x xs ih =>
    intro hpre ha
    have hx : p x = true := hpre x (List.mem_cons_self _ _)
    simp only [List.cons_append, List.dropWhile, hx]
    exact ih (fun y hy => hpre y (List.mem_cons_of_mem _ hy)) ha

/-- A list either consists of elements that satisfy `p`, or splits at its first
element that does not. -/
theorem dropWhile_split {α : Type} (p : α → Bool) :
    ∀ l : List α, (l.dropWhile p = [] ∧ ∀ x ∈ l, p x = true) ∨
      ∃ pre a rest, l = pre ++ a :: rest ∧ (∀ x ∈ pre, p x = true) ∧ p a = false ∧
        l.dropWhile p = a :: rest := by
  intro l
  induction l with
  | nil => exact Or.inl ⟨rfl, by simp⟩
  | cons x xs ih =>
    cases hx : p x with
    | false =>
      exact Or.inr ⟨[], x, xs, rfl, by simp, hx, by simp [List.dropWhile, hx]⟩
    | true =>
      rcases ih with ⟨hnil, hall⟩ | ⟨pre, a, rest, hl, hpre, ha, hd⟩
      · refine Or.inl ⟨by simp [List.dropWhile, hx, hnil], ?_⟩
        intro y hy
        rcases List.mem_cons.mp hy with h | h
        · rw [h]; exact hx
        · exact hall y h
      · refine Or.inr ⟨x :: pre, a, rest, by rw [hl]; rfl, ?_, ha, by
          simp [List.dropWhile, hx, hd]⟩
        intro y hy
        rcases List.mem_cons.mp hy with h | h
        · rw [h]; exact hx
        · exact hpre y h

/-- The span extracted from a text that splits at its first opening brace and at
its last closing brace after it. -/
theorem jsonMatch_of_split (text : String) (pre mid post : List Char)
    (htext : text.toList = pre ++ '\x7b' :: (mid ++ '\x7d' :: post))
    (hpre : '\x7b' ∉ pre) (hpost : '\x7d' ∉ post) :
    jsonMatch text = some (String.mk ('\x7b' :: (mid ++ ['\x7d']))) := by
  unfold jsonMatch
  have h1 : (text.toList.dropWhile (fun c => c != '\x7b'))
      = '\x7b' :: (mid ++ '\x7d' :: post) := by
    rw [htext]
    apply dropWhile_run
    · intro x hx
      have : x ≠ '\x7b' := fun h => hpre (h ▸ hx)
      simpa using this
    · simp
  have h2 : ('\x7b' :: (mid ++ '\x7d' :: post)).reverse
      = post.reverse ++ '\x7d' :: (mid.reverse ++ ['\x7b']) := by
    simp
  have h3 : (post.reverse ++ '\x7d' :: (mid.reverse ++ ['\x7b'])).dropWhile
      (fun c => c != '\x7d') = '\x7d' :: (mid.reverse ++ ['\x7b']) := by
    apply dropWhile_run
    · intro x hx
      have : x ≠ '\x7d' := fun h => hpost (by rw [← h]; exact List.mem_reverse.mp hx)
      simpa using this
    · simp
  simp only [h1, h2, h3]
  simp

/-- A text with an extracted span splits at its first opening brace and at its
last closing brace after it. -/
theorem split_of_jsonMatch (text span : String) (h : jsonMatch text = some span) :
    ∃ pre mid post : List Char, text.toList = pre ++ '\x7b' :: (mid ++ '\x7d' :: post) ∧
      '\x7b' ∉ pre ∧ '\x7d' ∉ post ∧ span = String.mk ('\x7b' :: (mid ++ ['\x7d'])) := by
  rcases dropWhile_split (fun c => c != '\x7b') text.toList with
    ⟨hnil, _⟩ | ⟨pre, a, rest, hl, hpre, ha, hd⟩
  · unfold jsonMatch at h
    simp only [hnil] at h
    simp at h
  · have ha' : a = '\x7b' := by simpa using ha
    subst ha'
    have hpre' : '\x7b' ∉ pre := by
      intro hmem
      have := hpre _ hmem
      simp at this
    rcases dropWhile_split (fun c => c != '\x7d') ('\x7b' :: rest).reverse with
      ⟨hnil2, _⟩ | ⟨post', b, front, hl2, hpost, hb, hd2⟩
    · unfold jsonMatch at h
      simp only [hd, hnil2] at h
      simp at h
    · have hb' : b = '\x7d' := by simpa using hb
      subst hb'
      have hrev : '\x7b' :: rest = front.reverse ++ '\x7d' :: post'.reverse := by
        have := congrArg List.reverse hl2
        simpa using this
      -- the front part starts with the opening brace
      cases hf : front.reverse with
      | nil =>
        rw [hf] at hrev
        simp at hrev
      | cons c mid =>
        rw [hf] at hrev
        simp only [List.cons_append, List.cons.injEq] at hrev
        obtain ⟨hc, hrest⟩ := hrev
        subst hc
        have hpost' : '\x7d' ∉ post'.reverse := by
          intro hmem
          have := hpost _ (List.mem_reverse.mp hmem)
          simp at this
        refine ⟨pre, mid, post'.reverse, by rw [hl, hrest], hpre', hpost', ?_⟩
        have hspan : jsonMatch text = some (String.mk ('\x7b' :: (mid ++ ['\x7d']))) :=
          jsonMatch_of_split text pre mid post'.reverse (by rw [hl, hrest]) hpre' hpost'
        rw [hspan] at h
        exact (Option.some.inj h).symm

/-- An element of a list has a last occurrence. -/
theorem last_occurrence {α : Type} [DecidableEq α] (a : α) :
    ∀ l : List α, a ∈ l → ∃ mid post, l = mid ++ a :: post ∧ a ∉ post := by
  intro l
  induction l with
  | nil => intro h; simp at h
  | cons x xs ih =>
    intro h
    by_cases hxs : a ∈ xs
    · obtain ⟨mid, post, hl, hp⟩ := ih hxs
      exact ⟨x :: mid, post, by rw [hl]; rfl, hp⟩
    · have hax : a = x := by
        rcases List.mem_cons.mp h with h | h
        · exact h
        · exact absurd h hxs
      subst hax
      exact ⟨[], xs, rfl, hxs⟩
/-- Claim C27: the JSON extraction of the Model Gateway succeeds on a reply text
exactly when the text contains a closing brace at a position after its first
opening brace; the extracted span is then the substring from the first opening
brace through the last closing brace of the text, inclusive; otherwise the
gateway fails with the no-JSON-found error. -/
theorem jsonMatch_extraction (text : String) :
    ((jsonMatch text).isSome = true ↔
      ∃ pre rest : List Char, text.toList = pre ++ '\x7b' :: rest ∧ '\x7b' ∉ pre ∧
        '\x7d' ∈ rest) ∧
    (∀ span, jsonMatch text = some span ↔
      ∃ pre mid post : List Char, text.toList = pre ++ '\x7b' :: (mid ++ '\x7d' :: post) ∧
        '\x7b' ∉ pre ∧ '\x7d' ∉ post ∧ span = String.mk ('\x7b' :: (mid ++ ['\x7d']))) ∧
    (∀ (α : Type) (cfg : GeminiConfig) (parser : JsonParser α) (operation : String)
        (finishReason : String) (others : List Candidate),
      finishReason ≠ "SAFETY" → jsonMatch text = none →
      (callGeminiAPI cfg parser
          (.response ({ finishReason := finishReason, text := text } :: others)) operation).2
        = .error (.error ("No valid JSON found in Vertex AI response for " ++ operation))) := by
  have hspan : ∀ span, jsonMatch text = some span ↔
      ∃ pre mid post : List Char, text.toList = pre ++ '\x7b' :: (mid ++ '\x7d' :: post) ∧
        '\x7b' ∉ pre ∧ '\x7d' ∉ post ∧ span = String.mk ('\x7b' :: (mid ++ ['\x7d'])) := by
    intro span
    constructor
    · exact split_of_jsonMatch text span
    · rintro ⟨pre, mid, post, ht, hpre, hpost, hs⟩
      rw [hs]
      exact jsonMatch_of_split text pre mid post ht hpre hpost
  refine ⟨?_, hspan, ?_⟩
  · constructor
    · intro h
      obtain ⟨span, hs⟩ := Option.isSome_iff_exists.mp h
      obtain ⟨pre, mid, post, ht, hpre, _, _⟩ := (hspan span).mp hs
      exact ⟨pre, mid ++ '\x7d' :: post, ht, hpre, by simp⟩
    · rintro ⟨pre, rest, ht, hpre, hmem⟩
      obtain ⟨mid, post, hr, hpost⟩ := last_occurrence '\x7d' rest hmem
      have := jsonMatch_of_split text pre mid post (by rw [ht, hr]) hpre hpost
      rw [this]
      rfl
  · intro α cfg parser operation finishReason others hsafe hnone
    simp [callGeminiAPI, callGeminiAPIBody, readCandidate, hsafe, hnone]

/-- Witness for C27: a reply with two objects and surrounding prose gives the
span from the first opening brace through the last closing brace; a reply
whose only closing brace comes before its opening brace gives none. -/
theorem jsonMatch_extraction_witness :
    jsonMatch "Sure: \x7b\"a\": 1\x7d and \x7b\"b\": 2\x7d. Done"
      = some "\x7b\"a\": 1\x7d and \x7b\"b\": 2\x7d" ∧
    jsonMatch "\x7d then \x7b" = none :=
  ⟨(jsonMatch_extraction "Sure: \x7b\"a\": 1\x7d and \x7b\"b\": 2\x7d. Done").2.1 _ |>.mpr
      ⟨"Sure: ".toList, "\"a\": 1\x7d and \x7b\"b\": 2".toList, ". Done".toList,
        by decide, by decide, by decide, by decide⟩,
    by decide!⟩

/-! ### Frame of the schedule fallback (C28) -/

/-- A successful fallback callback changes only the id, the scheduled time and
the optimization score, and keeps a non-empty id. -/
theorem fallbackTask_frame (env : Env) (p : List ℚ) (n : ℕ) (task out : Task)
    (h : fallbackTask env p n task = .ok out) :
    { out with id := task.id, scheduledTime := task.scheduledTime,
               optimizationScore := task.optimizationScore } = task ∧
    (strTruthy task.id = true → out.id = task.id) := by
  unfold fallbackTask at h
  cases hc : calculateOptimalTime env task.scheduledDate (findOptimalHour task p) with
  | error e => simp [hc] at h
  | ok st =>
    simp only [hc, Except.ok.injEq] at h
    subst h
    exact ⟨rfl, fun hid => by simp [hid]⟩

/-- Claim C28, as stated, fails: a task whose valid `scheduledDate` is the last
instant of the Date range cannot be stamped at its hour, and the fallback
raises a `RangeError` instead of returning the task. -/
theorem fallback_frame_counterexample :
    newDate lastDayTask.scheduledDate = some 8640000000000000 ∧
    fallbackOptimizeSchedule env0 [lastDayTask] (some [])
      = .error (.rangeError "Invalid time value") :=
  ⟨by decide, by decide!⟩

/-- Claim C28 (amended): for every task list whose `scheduledDate` values are
absent or valid dates at least one day inside the Date range,
`fallbackOptimizeSchedule` returns a list of the same length and order as the
input, and each output task agrees with its input task on every field other
than id, scheduledTime and optimizationScore; a non-empty id of the input task
is kept. -/
theorem fallback_frame (env : Env) (tasks : List Task)
    (taskHistory : Option (List HistoryTask))
    (hnow : dateInRange env.now = true)
    (hin : ∀ t ∈ tasks, stampable t.scheduledDate = true) :
    ∃ out, fallbackOptimizeSchedule env tasks taskHistory = .ok out ∧
      out.length = tasks.length ∧
      ∀ i task, tasks.get? i = some task →
        ∃ o, out.get? i = some o ∧
          { o with id := task.id, scheduledTime := task.scheduledTime,
                   optimizationScore := task.optimizationScore } = task ∧
          (strTruthy task.id = true → o.id = task.id) := by
  obtain ⟨out, hout, hlen⟩ := fallbackOptimizeSchedule_ok env tasks taskHistory hnow hin
  refine ⟨out, hout, hlen, ?_⟩
  intro i task hi
  unfold fallbackOptimizeSchedule at hout
  obtain ⟨o, ho, hf⟩ := mapExcept_get? _ _ _ _ hout i task hi
  exact ⟨o, ho, fallbackTask_frame env _ _ task o hf⟩

/-- Witness for C28 (amended): a task with an id, hours, a category and a date. -/
theorem fallback_frame_witness :
    dateInRange env0.now = true ∧
    (∀ t ∈ [datedTask], stampable t.scheduledDate = true) ∧
    ∃ out, fallbackOptimizeSchedule env0 [datedTask] (some []) = .ok out ∧
      out.length = 1 ∧
      ∀ i task, [datedTask].get? i = some task →
        ∃ o, out.get? i = some o ∧
          { o with id := task.id, scheduledTime := task.scheduledTime,
                   optimizationScore := task.optimizationScore } = task ∧
          (strTruthy task.id = true → o.id = task.id) :=
  ⟨by decide, by decide, fallback_frame env0 [datedTask] (some []) (by decide) (by decide)⟩

/-! ### Title and description of the analysis (C29) -/

/-- Claim C29: in every successful analyze-task response, `analysis.title` is
the title returned by the model and `analysis.description` is the model's
description; the validation has rejected every reply that lacks one of them, so
the fallbacks `extractTitle(userInput)` and `userInput` are not used. -/
theorem analysis_text_from_model (req : AnalysisRequest)
    (gemini : Except JSError AnalysisReply) (title description : String)
    (h : analyzeTaskText req gemini = .ok (title, description)) :
    ∃ reply, gemini = .ok reply ∧ reply.title = some title ∧
      reply.description = some description ∧ title ≠ "" ∧ description ≠ "" ∧
      strTruthy reply.title = true ∧ strTruthy reply.description = true := by
  unfold analyzeTaskText at h
  split_ifs at h
  cases hg : gemini with
  | error e => simp [hg, analyzeTaskWithGemini] at h
  | ok reply =>
    simp only [hg, analyzeTaskWithGemini] at h
    by_cases hv : (!strTruthy reply.title || !strTruthy reply.description) = true
    · simp [hv] at h
    · simp only [hv, Bool.false_eq_true, if_false, HttpResult.ok.injEq, Prod.mk.injEq] at h
      simp only [Bool.or_eq_true, Bool.not_eq_true', not_or, Bool.not_eq_false] at hv
      obtain ⟨ht, hd⟩ := hv
      obtain ⟨h1, h2⟩ := h
      obtain ⟨t, hte, htn⟩ : ∃ t, reply.title = some t ∧ t ≠ "" := by
        cases hrt : reply.title with
        | none => simp [hrt, strTruthy] at ht
        | some t => exact ⟨t, rfl, by simpa [hrt, strTruthy] using ht⟩
      obtain ⟨d, hde, hdn⟩ : ∃ d, reply.description = some d ∧ d ≠ "" := by
        cases hrd : reply.description with
        | none => simp [hrd, strTruthy] at hd
        | some d => exact ⟨d, rfl, by simpa [hrd, strTruthy] using hd⟩
      have e1 : title = t := by
        have ht2 : strTruthy (some t) = true := hte ▸ ht
        rw [← h1]; simp [analysisTitle, hte, ht2]
      have e2 : description = d := by
        have hd2 : strTruthy (some d) = true := hde ▸ hd
        rw [← h2]; simp [analysisDescription, hde, hd2]
      subst e1; subst e2
      exact ⟨reply, rfl, hte, hde, htn, hdn, ht, hd⟩

/-- Witness for C29: the first end-to-end scenario. -/
theorem analysis_text_from_model_witness :
    analyzeTaskText plainRequest (.ok reportReply)
      = .ok ("月次レポート作成", "月次レポートを作成する") ∧
    ∃ reply, Except.ok reportReply = Except.ok (ε := JSError) reply ∧
      reply.title = some "月次レポート作成" ∧
      reply.description = some "月次レポートを作成する" ∧ "月次レポート作成" ≠ "" ∧
      "月次レポートを作成する" ≠ "" ∧
      strTruthy reply.title = true ∧ strTruthy reply.description = true :=
  ⟨by decide, analysis_text_from_model plainRequest (.ok reportReply) _ _ (by decide)⟩

/-! ### Range of the improvement percentage (C30) -/

/-- The efficiency score is a whole number of hundredths. -/
theorem calculateEfficiency_hundredths (tasks : List Task) (preferences : Preferences) :
    ∃ k : ℤ, calculateEfficiency tasks preferences = (k : ℚ) / 100 := by
  unfold calculateEfficiency
  split_ifs
  · exact ⟨0, by norm_num⟩
  · exact ⟨_, rfl⟩

/-- Claim C30: for every optimized task list (so in particular for every list
whose durations are non-negative), the `improvementPercentage` of the schedule
summary is an integer between 0 and 43 inclusive, 43 is the rounding of
100 × 0.3 / 0.7, and 43 is reached exactly when the efficiency score is 1. -/
theorem improvementPercentage_range (optimizedTasks : List Task) (preferences : Preferences) :
    0 ≤ (scheduleSummary optimizedTasks preferences).improvementPercentage ∧
    (scheduleSummary optimizedTasks preferences).improvementPercentage ≤ 43 ∧
    mathRound (100 * (3 / 10) / (7 / 10)) = 43 ∧
    ((scheduleSummary optimizedTasks preferences).improvementPercentage = 43 ↔
      (scheduleSummary optimizedTasks preferences).efficiency = 1) := by
  have hle := calculateEfficiency_le_one optimizedTasks preferences
  obtain ⟨k, hk⟩ := calculateEfficiency_hundredths optimizedTasks preferences
  have h43 : mathRound (100 * (3 / 10) / (7 / 10)) = 43 := by
    unfold mathRound
    rw [Int.floor_eq_iff]
    constructor <;> norm_num
  have hup : mathRound (((calculateEfficiency optimizedTasks preferences - 7 / 10) / (7 / 10)) * 100)
      ≤ 43 := by
    apply mathRound_le
    push_cast
    have : (calculateEfficiency optimizedTasks preferences - 7 / 10) / (7 / 10) * 100
        = (calculateEfficiency optimizedTasks preferences - 7 / 10) * (1000 / 7) := by ring
    rw [this]
    nlinarith
  refine ⟨?_, ?_, h43, ?_⟩
  · simp only [scheduleSummary]
    exact le_max_right _ _
  · simp only [scheduleSummary]
    exact max_le hup (by norm_num)
  · simp only [scheduleSummary]
    constructor
    · intro h
      have hr : mathRound (((calculateEfficiency optimizedTasks preferences - 7 / 10) / (7 / 10)) * 100)
          = 43 := by
        rcases max_choice
          (mathRound (((calculateEfficiency optimizedTasks preferences - 7 / 10) / (7 / 10)) * 100))
          (0 : ℤ) with hm | hm
        · rw [hm] at h; exact h
        · rw [hm] at h; norm_num at h
      unfold mathRound at hr
      rw [Int.floor_eq_iff] at hr
      obtain ⟨h1, _⟩ := hr
      rw [hk] at h1 hle ⊢
      have hk99 : (99 : ℚ) < k := by
        push_cast at h1
        have : ((k : ℚ) / 100 - 7 / 10) / (7 / 10) * 100 = ((k : ℚ) - 70) * (10 / 7) := by ring
        rw [this] at h1
        linarith
      have hk100 : (k : ℚ) ≤ 100 := by linarith
      have hk99i : (99 : ℤ) < k := by exact_mod_cast hk99
      have hk100i : k ≤ 100 := by exact_mod_cast hk100
      have : k = 100 := by omega
      subst this
      norm_num
    · intro h
      rw [h]
      have : mathRound (((1 : ℚ) - 7 / 10) / (7 / 10) * 100) = 43 := by
        unfold mathRound
        rw [Int.floor_eq_iff]
        constructor <;> norm_num
      rw [this]
      rfl

end WellFin
